import Mathlib

/-!
The entity-component storage of wee (src/src/ecs.c)

A shallow embedding of the ECS core: entities, sparse sets, component
storages and the world registry, followed by theorems about them.

Conventions of the embedding.
* A C array together with its length field (`sparse`/`sizeOfSparse`,
  `dense`/`sizeOfDense`, `data`/`sizeOfData`, `entities`/`sizeOfEntities`,
  `recyclable`/`sizeOfRecyclable`, `storages`/`sizeOfStorages`) is a list.
* A function that can hit an assertion, or read or write outside an array,
  returns `none` there.
* A pointer into a storage's data buffer is a `DataPtr` (storage index, slot
  position): the address `&data[pos * sizeOfComponent]`. A literal `NULL` in
  the source is `none`. The address of a slot is `NULL` as well when the
  buffer pointer is `NULL` and the offset is 0, which happens for components
  of size 0 (`dataIsNull`, `slotIsNull`, `DataPtr.isNull`). So a function of
  the source returns `NULL` where its model returns `none` for the pointer, or
  a pointer `p` with `p.isNull`; a test of a pointer against `NULL` in the
  source is a test of `slotIsNull`.
* A callback invocation is recorded: `EcsQuery` and `EcsRelations` return the
  list of query records they pass to the callback, in call order.
* The heap blocks that hold a system's or prefab's component list are the
  list itself; `malloc`/`free` are not modelled.
-/

namespace Ecs

/-! ## Entities -/

/-- Modelled from the spec: the `Entity` union lives in wee.h, which is not
among the sources. The spec gives it as a triple (id: 32-bit index, version:
integer generation counter, kind). `DumpEntity` prints the whole entity as one
64-bit word, so every part has a fixed width: the parts are natural numbers
here, and the one place where the source computes a part that can leave its
width, the `version + 1` of `DestroyEntity`, wraps (`wrapVersion`). -/
structure Entity where
  id : Nat
  version : Nat
  flag : Nat
deriving DecidableEq, Repr

/-- Modelled from the spec: the number of values of the version part. wee.h
is not among the sources; of the 64 bits of the entity word the id takes 32
and the kind is passed as a `uint8_t`, and the version is taken to be a 16-bit
field. -/
def VersionModulus : Nat := 65536

/-- A value stored into the version part: it wraps at the width of the field. -/
def wrapVersion (n : Nat) : Nat := n % VersionModulus

/-- Truncation to 32 bits, the `(uint32_t)` casts of the source. -/
def u32 (n : Nat) : Nat := n % 4294967296

/-- Subtraction of 1 from a 32-bit unsigned number: 0 wraps to the largest
one. -/
def dec32 (n : Nat) : Nat := if n = 0 then 4294967295 else n - 1

/-- Modelled from the spec: `EcsNil` (wee.h) is the sentinel-max 32-bit id. -/
def EcsNil : Nat := 4294967295

/-- Modelled from the spec: `EcsNilEntity` (wee.h), the entity whose id is
the sentinel and whose other parts are zero. -/
def EcsNilEntity : Entity := ⟨EcsNil, 0, 0⟩

/-- Modelled from the spec: the kind enumeration of wee.h
(Entity, Component, System, Prefab, Relation). The theorems use only that
these five numbers are pairwise distinct. -/
def EcsEntityType : Nat := 0

/-- Modelled from the spec: kind Component (see `EcsEntityType`). -/
def EcsComponentType : Nat := 1

/-- Modelled from the spec: kind System (see `EcsEntityType`). -/
def EcsSystemType : Nat := 2

/-- Modelled from the spec: kind Prefab (see `EcsEntityType`). -/
def EcsPrefabType : Nat := 4

/-- Modelled from the spec: kind Relation (see `EcsEntityType`). -/
def EcsRelationType : Nat := 8

/-- Modelled from the spec: `ENTITY_ID` (wee.h) reads the id part. -/
def ENTITY_ID (e : Entity) : Nat := e.id

/-- Modelled from the spec: `ENTITY_VERSION` (wee.h) reads the version part. -/
def ENTITY_VERSION (e : Entity) : Nat := e.version

/-- Modelled from the spec: `ENTITY_IS_NIL` (wee.h), the id is the sentinel. -/
def ENTITY_IS_NIL (e : Entity) : Bool := decide (ENTITY_ID e = EcsNil)

/-- Modelled from the spec: `ENTITY_CMP` (wee.h); two entities are equal iff
id, version and kind all match. -/
def ENTITY_CMP (a b : Entity) : Bool := decide (a = b)

/-- Modelled from the spec: `ENTITY_ISA` (wee.h), the kind of the entity is
the given one. -/
def ENTITY_ISA (e : Entity) (type : Nat) : Bool := decide (e.flag = type)

/-- The macro `ECS_COMPOSE_ENTITY` of ecs.c. -/
def ECS_COMPOSE_ENTITY (id ver tag : Nat) : Entity := ⟨id, ver, tag⟩

/-! ## Sparse sets -/

/-- The struct `EcsSparse`: `sparse` maps an id to an entity whose id part is
a dense position (or the nil entity), `dense` is the packed entity array. -/
structure EcsSparse where
  sparse : List Entity
  dense : List Entity
deriving DecidableEq, Repr

/-- `NewSparse`: a zeroed sparse set. -/
def NewSparse : EcsSparse := ⟨[], []⟩

/-- `SparseHas`. -/
def SparseHas (sparse : EcsSparse) (e : Entity) : Option Bool :=
  let id := ENTITY_ID e
  if id = EcsNil then none
  else some (decide (id < sparse.sparse.length)
    && decide (ENTITY_ID (sparse.sparse.getD id EcsNilEntity) ≠ EcsNil))

/-- `SparseEmplace`: grows `sparse` with nil entities up to the id, records
the new dense position there and appends the entity to `dense`. -/
def SparseEmplace (sparse : EcsSparse) (e : Entity) : Option EcsSparse :=
  let id := ENTITY_ID e
  if id = EcsNil then none
  else
    let grown :=
      if id ≥ sparse.sparse.length then
        sparse.sparse ++ List.replicate (id + 1 - sparse.sparse.length) EcsNilEntity
      else sparse.sparse
    some { sparse := grown.set id ⟨u32 sparse.dense.length, 0, 0⟩,
           dense := sparse.dense ++ [e] }

/-- `SparseRemove`: swap-remove; returns the new set and the vacated
position. -/
def SparseRemove (sparse : EcsSparse) (e : Entity) : Option (EcsSparse × Nat) :=
  match SparseHas sparse e with
  | some true =>
    let id := ENTITY_ID e
    match sparse.sparse[id]? with
    | none => none
    | some slot =>
      let pos := ENTITY_ID slot
      match sparse.dense.getLast? with
      | none => none
      | some other =>
        if ENTITY_ID other < sparse.sparse.length then
          let sparse1 := sparse.sparse.set (ENTITY_ID other) ⟨pos, 0, 0⟩
          if pos < sparse.dense.length then
            let dense1 := sparse.dense.set pos other
            let sparse2 := sparse1.set id EcsNilEntity
            some ({ sparse := sparse2, dense := dense1.dropLast }, pos)
          else none
        else none
  | _ => none

/-- `SparseAt`: the dense position recorded for the entity's id. -/
def SparseAt (sparse : EcsSparse) (e : Entity) : Option Nat :=
  let id := ENTITY_ID e
  if id = EcsNil then none
  else
    match sparse.sparse[id]? with
    | none => none
    | some slot => some (ENTITY_ID slot)

/-! ## Component storages -/

/-- The contents of one component-sized slot of a storage's data buffer.
`uninit` is a slot fresh from `realloc`; `bytes` is what `EcsSet` copied in;
the other three are the built-in payload structs System, Prefab and Relation
of wee.h, written through a typed pointer (their storages have slots of the
size of the struct, which is not 0, so the address of such a slot is not
`NULL`). A component list and its `sizeOfComponents` are one list. -/
inductive Payload where
  | uninit : Payload
  | bytes (b : List Nat) : Payload
  | system (callback : Nat) (components : List Entity) (enabled : Bool) : Payload
  | prefab (components : List Entity) : Payload
  | relation (object relation : Entity) : Payload
deriving DecidableEq, Repr

/-- The struct `EcsStorage`; `sizeOfData` is the length of `data`. -/
structure EcsStorage where
  componentId : Entity
  sizeOfComponent : Nat
  data : List Payload
  sparse : EcsSparse
deriving DecidableEq, Repr

/-- `NewStorage`. -/
def NewStorage (id : Entity) (sz : Nat) : EcsStorage :=
  { componentId := id, sizeOfComponent := sz, data := [], sparse := NewSparse }

/-- `StorageHas`. -/
def StorageHas (storage : EcsStorage) (e : Entity) : Option Bool :=
  if ENTITY_IS_NIL e then none else SparseHas storage.sparse e

/-- `StorageEmplace`: one more slot at the end of the data buffer, then
`SparseEmplace`; returns the storage and the position of the new slot. The
pointer the source returns is the address of that slot in the reallocated
buffer (`slotIsNull` says when it is `NULL`). -/
def StorageEmplace (storage : EcsStorage) (e : Entity) : Option (EcsStorage × Nat) :=
  let data1 := storage.data ++ [Payload.uninit]
  match SparseEmplace storage.sparse e with
  | none => none
  | some sp => some ({ storage with data := data1, sparse := sp }, data1.length - 1)

/-- `StorageRemove`: `SparseRemove`, then the last data slot is moved to the
vacated position and the buffer shrinks by one slot. -/
def StorageRemove (storage : EcsStorage) (e : Entity) : Option EcsStorage :=
  match SparseRemove storage.sparse e with
  | none => none
  | some (sp, pos) =>
    match storage.data.getLast? with
    | none => none
    | some last =>
      if pos < storage.data.length then
        some { storage with data := (storage.data.set pos last).dropLast, sparse := sp }
      else none

/-- `StorageAt`: the slot position, bounds-checked. The pointer the source
returns is the address of that slot (`slotIsNull` says when it is `NULL`). -/
def StorageAt (storage : EcsStorage) (pos : Nat) : Option Nat :=
  if pos < storage.data.length then some pos else none

/-- `StorageGet`. -/
def StorageGet (storage : EcsStorage) (e : Entity) : Option Nat :=
  if ENTITY_IS_NIL e then none
  else
    match SparseAt storage.sparse e with
    | none => none
    | some pos => StorageAt storage pos

/-- The buffer pointer `storage->data` is `NULL`. The buffer starts as `NULL`
(`NewStorage`), and `StorageEmplace` and `StorageRemove` each replace it by
`realloc(data, sizeOfData * sizeOfComponent)` for the new `sizeOfData`. The
allocator is taken to be that of glibc: `realloc` to a positive size returns a
block, `realloc(NULL, 0)` returns a block as well, and `realloc(p, 0)` of a
block `p` frees it and returns `NULL`. So the buffer of a component of
positive size is `NULL` exactly when it has no slot, and the buffer of a
component of size 0, reallocated to 0 bytes once for every slot added or
removed, is `NULL` exactly when the number of slots is even. -/
def dataIsNull (storage : EcsStorage) : Bool :=
  if storage.sizeOfComponent = 0 then decide (storage.data.length % 2 = 0)
  else decide (storage.data.length = 0)

/-- The address `&data[pos * sizeOfComponent]` of a slot is `NULL`: the buffer
pointer is `NULL` and the offset is 0. -/
def slotIsNull (storage : EcsStorage) (pos : Nat) : Bool :=
  dataIsNull storage && decide (pos * storage.sizeOfComponent = 0)

/-! ## The world -/

/-- The struct `EcsWorld`: the entity table, the recycle list and the
registered storages, each with its length field. -/
structure EcsWorld where
  entities : List Entity
  recyclable : List Nat
  storages : List EcsStorage
  nextAvailableId : Nat
deriving DecidableEq, Repr

/-- The four file-level variables `EcsSystem`, `EcsPrefab`, `EcsRelation` and
`EcsChildOf` of ecs.c, passed explicitly. -/
structure Globals where
  EcsSystem : Entity
  EcsPrefab : Entity
  EcsRelation : Entity
  EcsChildOf : Entity
deriving DecidableEq, Repr

/-- The initial value of the four variables: all `EcsNilEntity`. -/
def Globals.nil : Globals := ⟨EcsNilEntity, EcsNilEntity, EcsNilEntity, EcsNilEntity⟩

/-- A pointer into the data buffer of a registered storage: the index of the
storage in `storages` and the slot position. -/
structure DataPtr where
  storage : Nat
  pos : Nat
deriving DecidableEq, Repr

/-- The pointer is `NULL`: the address of the slot it stands for is (see
`slotIsNull`). -/
def DataPtr.isNull (world : EcsWorld) (p : DataPtr) : Bool :=
  match world.storages[p.storage]? with
  | none => false
  | some storage => slotIsNull storage p.pos

/-- `EcsIsValid`. -/
def EcsIsValid (world : EcsWorld) (e : Entity) : Bool :=
  let id := ENTITY_ID e
  decide (id < world.entities.length)
    && ENTITY_CMP (world.entities.getD id EcsNilEntity) e

/-- `EcsNewEntityType`: recycles the last id of the recycle list if there is
one, otherwise appends a slot to the table. -/
def EcsNewEntityType (world : EcsWorld) (type : Nat) : Option (Entity × EcsWorld) :=
  if world.recyclable.length ≠ 0 then
    match world.recyclable.getLast? with
    | none => none
    | some idx =>
      match world.entities[idx]? with
      | none => none
      | some e =>
        let new := ECS_COMPOSE_ENTITY (ENTITY_ID e) (ENTITY_VERSION e) type
        some (new, { world with entities := world.entities.set idx new,
                                recyclable := world.recyclable.dropLast })
  else
    let size1 := world.entities.length + 1
    let e := ECS_COMPOSE_ENTITY (dec32 (u32 size1)) 0 type
    some (e, { world with entities := world.entities ++ [e] })

/-- `EcsNewEntity`. -/
def EcsNewEntity (world : EcsWorld) : Option (Entity × EcsWorld) :=
  EcsNewEntityType world EcsEntityType

/-- The loop of `EcsFind` over a list of storages: the index of the first
storage whose component id has the given id. -/
def findStorage : List EcsStorage → Nat → Option Nat
  | [], _ => none
  | s :: rest, id =>
    if ENTITY_ID s.componentId = id then some 0
    else (findStorage rest id).map (· + 1)

/-- `EcsFind`: the index of the storage found for the entity, `none` for
`NULL`. -/
def EcsFind (world : EcsWorld) (e : Entity) : Option Nat :=
  findStorage world.storages (ENTITY_ID e)

/-- `EcsAssure`: the storage found for the id, or a new one appended. -/
def EcsAssure (world : EcsWorld) (componentId : Entity) (sizeOfComponent : Nat) :
    Nat × EcsWorld :=
  match EcsFind world componentId with
  | some found => (found, world)
  | none =>
    (world.storages.length,
     { world with storages := world.storages ++ [NewStorage componentId sizeOfComponent] })

/-- `EcsHas`. A storage that is not found is a `NULL` handed to `StorageHas`,
whose assertion fails. -/
def EcsHas (world : EcsWorld) (entity component : Entity) : Option Bool :=
  if !EcsIsValid world entity then none
  else if !EcsIsValid world component then none
  else
    match EcsFind world component with
    | none => none
    | some i =>
      match world.storages[i]? with
      | none => none
      | some storage => StorageHas storage entity

/-- `EcsNewComponent`. `EcsAssure` never returns `NULL`, so the entity is
returned. -/
def EcsNewComponent (world : EcsWorld) (sizeOfComponent : Nat) :
    Option (Entity × EcsWorld) :=
  match EcsNewEntityType world EcsComponentType with
  | none => none
  | some (e, world1) => some (e, (EcsAssure world1 e sizeOfComponent).2)

/-- `EcsGet`: `none` is a failed assertion, `some none` the literal `NULL`
returned for an entity that does not have the component, `some (some p)` the
pointer `StorageGet` returns, the address of the entity's slot. For a
component of size 0 that address is the buffer pointer itself, and the
pointer returned is `NULL` when `p.isNull` says so, although the entity has
the component. -/
def EcsGet (world : EcsWorld) (entity component : Entity) : Option (Option DataPtr) :=
  if !EcsIsValid world entity then none
  else if !EcsIsValid world component then none
  else
    match EcsFind world component with
    | none => none
    | some i =>
      match world.storages[i]? with
      | none => none
      | some storage =>
        match StorageHas storage entity with
        | none => none
        | some true =>
          match StorageGet storage entity with
          | none => none
          | some pos => some (some ⟨i, pos⟩)
        | some false => some none

/-- Reading the slot a pointer points to. -/
def readPtr (world : EcsWorld) (p : DataPtr) : Option Payload :=
  match world.storages[p.storage]? with
  | none => none
  | some storage => storage.data[p.pos]?

/-- Writing the slot a pointer points to. -/
def writePtr (world : EcsWorld) (p : DataPtr) (v : Payload) : Option EcsWorld :=
  match world.storages[p.storage]? with
  | none => none
  | some storage =>
    if p.pos < storage.data.length then
      let written : EcsStorage := { storage with data := storage.data.set p.pos v }
      some { world with storages := world.storages.set p.storage written }
    else none

/-- The data buffer of the storage at index `i` was reallocated between the
two worlds. An attach changes a buffer only through `StorageEmplace`, which
reallocates it with one more slot. -/
def reallocated (world world1 : EcsWorld) (i : Nat) : Bool :=
  world.storages[i]?.map (fun st => st.data.length) !=
    world1.storages[i]?.map (fun st => st.data.length)

/-- The prefab loop of `EcsAttach`: attaches the listed components in order
and stops at the first nil entry. `attach` is the recursive call, `c` the
pointer to the Prefab payload, and the list what `c->components` holds. The
loop reads `c->sizeOfComponents` and `c->components` through `c` again after
every recursive call: when that call has reallocated the buffer `c` points
into, the read is through a dangling pointer (`some none`). -/
def attachAll (attach : EcsWorld → Entity → Option (Option EcsWorld)) (c : DataPtr) :
    List Entity → EcsWorld → Option (Option EcsWorld)
  | [], world => some (some world)
  | x :: rest, world =>
    if ENTITY_IS_NIL x then some (some world)
    else
      match attach world x with
      | some (some world1) =>
        if reallocated world world1 c.storage then some none
        else attachAll attach c rest world1
      | r => r

/-- `EcsAttach`. The recursion through nested prefabs is bounded by `fuel`:
the outer `none` is "out of fuel", `some none` a failed assertion (or a read
through `NULL` or through a dangling pointer), `some (some w)` the world after
the call. -/
def EcsAttach : Nat → Globals → EcsWorld → Entity → Entity → Option (Option EcsWorld)
  | 0, _, _, _, _ => none
  | fuel + 1, g, world, entity, component =>
    if component.flag = EcsRelationType ∨ component.flag = EcsSystemType then some none
    else if component.flag = EcsPrefabType then
      match EcsGet world component g.EcsPrefab with
      | some (some c) =>
        match readPtr world c with
        | some (Payload.prefab components) =>
          attachAll (fun w x => EcsAttach fuel g w entity x) c components world
        | _ => some none
      | _ => some none
    else
      if !EcsIsValid world entity then some none
      else if !EcsIsValid world component then some none
      else
        match EcsFind world component with
        | none => some none
        | some i =>
          match world.storages[i]? with
          | none => some none
          | some storage =>
            match StorageEmplace storage entity with
            | none => some none
            | some (storage1, _) =>
              some (some { world with storages := world.storages.set i storage1 })

/-- Modelled from the spec: the sizes of the built-in payload structs System,
Prefab and Relation (`sizeof` of types declared in wee.h, which is not among
the sources), taken as parameters of `EcsNewWorld`. In C a `sizeof` is not
0. -/
structure PayloadSizes where
  sizeOfSystem : Nat
  sizeOfPrefab : Nat
  sizeOfRelation : Nat
deriving DecidableEq, Repr

/-- `EcsNewWorld`. Modelled from the spec: the macros `ECS_COMPONENT(world, T)`
and `ECS_TAG(world)` of wee.h register a component of the payload size of `T`
and a tag-only (size 0) component. Returns the new values of the four
file-level variables and the world. -/
def EcsNewWorld (sz : PayloadSizes) (world : EcsWorld) : Option (Globals × EcsWorld) :=
  let world0 := { world with nextAvailableId := EcsNil }
  match EcsNewComponent world0 sz.sizeOfSystem with
  | none => none
  | some (system, world1) =>
    match EcsNewComponent world1 sz.sizeOfPrefab with
    | none => none
    | some (prefab, world2) =>
      match EcsNewComponent world2 sz.sizeOfRelation with
      | none => none
      | some (relation, world3) =>
        match EcsNewComponent world3 0 with
        | none => none
        | some (childOf, world4) => some (⟨system, prefab, relation, childOf⟩, world4)

/-- `EcsDestroyWorld`: everything is freed and the struct zeroed. -/
def EcsDestroyWorld (_world : EcsWorld) : EcsWorld := ⟨[], [], [], 0⟩

/-- `EcsNewSystem`; the variadic component arguments and `sizeOfComponents`
are one list. Outer `none`: out of fuel (see `EcsAttach`). -/
def EcsNewSystem (fuel : Nat) (g : Globals) (world : EcsWorld) (fn : Nat)
    (components : List Entity) : Option (Option (Entity × EcsWorld)) :=
  match EcsNewEntityType world EcsSystemType with
  | none => some none
  | some (e, world1) =>
    match EcsAttach fuel g world1 e g.EcsSystem with
    | none => none
    | some none => some none
    | some (some world2) =>
      match EcsGet world2 e g.EcsSystem with
      | some (some c) =>
        match writePtr world2 c (Payload.system fn components true) with
        | none => some none
        | some world3 => some (some (e, world3))
      | _ => some none

/-- `EcsNewPrefab`; the variadic component arguments and `sizeOfComponents`
are one list. Outer `none`: out of fuel (see `EcsAttach`). -/
def EcsNewPrefab (fuel : Nat) (g : Globals) (world : EcsWorld)
    (components : List Entity) : Option (Option (Entity × EcsWorld)) :=
  match EcsNewEntityType world EcsPrefabType with
  | none => some none
  | some (e, world1) =>
    match EcsAttach fuel g world1 e g.EcsPrefab with
    | none => none
    | some none => some none
    | some (some world2) =>
      match EcsGet world2 e g.EcsPrefab with
      | some (some c) =>
        match writePtr world2 c (Payload.prefab components) with
        | none => some none
        | some world3 => some (some (e, world3))
      | _ => some none

/-- The storage loop of `DestroyEntity`, from index `i` down to 1: a storage
that has the entity loses it. -/
def destroyLoop (e : Entity) : Nat → List EcsStorage → Option (List EcsStorage)
  | 0, storages => some storages
  | i + 1, storages =>
    match storages[i]? with
    | none => none
    | some storage =>
      match SparseHas storage.sparse e with
      | none => none
      | some true =>
        match StorageRemove storage e with
        | none => none
        | some storage1 => destroyLoop e i (storages.set i storage1)
      | some false => destroyLoop e i storages

/-- `DestroyEntity`. For an entity of kind System or Prefab the payload is
looked up with `EcsGet` (whose assertions can fail) to free its component
list; then the storage loop, the tombstone and the push on the recycle
list. The `version + 1` of the tombstone is stored into the version part and
wraps at its width. -/
def DestroyEntity (g : Globals) (world : EcsWorld) (e : Entity) : Option EcsWorld :=
  if !EcsIsValid world e then none
  else
    let looked : Option Unit :=
      if e.flag = EcsSystemType then (EcsGet world e g.EcsSystem).map (fun _ => ())
      else if e.flag = EcsPrefabType then (EcsGet world e g.EcsPrefab).map (fun _ => ())
      else some ()
    match looked with
    | none => none
    | some _ =>
      match destroyLoop e world.storages.length world.storages with
      | none => none
      | some storages1 =>
        let id := ENTITY_ID e
        some { world with
          entities := world.entities.set id
            (ECS_COMPOSE_ENTITY id (wrapVersion (ENTITY_VERSION e + 1)) 0),
          recyclable := world.recyclable ++ [id],
          storages := storages1 }

/-- `EcsAssociate`. Outer `none`: out of fuel (see `EcsAttach`). -/
def EcsAssociate (fuel : Nat) (g : Globals) (world : EcsWorld)
    (entity object relation : Entity) : Option (Option EcsWorld) :=
  if !EcsIsValid world entity then some none
  else if !EcsIsValid world object then some none
  else if !ENTITY_ISA object EcsComponentType then some none
  else if !EcsIsValid world relation then some none
  else if !ENTITY_ISA relation EcsEntityType then some none
  else
    match EcsAttach fuel g world entity g.EcsRelation with
    | none => none
    | some none => some none
    | some (some world1) =>
      match EcsGet world1 entity g.EcsRelation with
      | some (some pair) => some (writePtr world1 pair (Payload.relation object relation))
      | _ => some none

/-- `EcsDetach`. -/
def EcsDetach (world : EcsWorld) (entity component : Entity) : Option EcsWorld :=
  if !EcsIsValid world entity then none
  else if !EcsIsValid world component then none
  else
    match EcsFind world component with
    | none => none
    | some i =>
      match world.storages[i]? with
      | none => none
      | some storage =>
        match StorageHas storage entity with
        | some true =>
          match StorageRemove storage entity with
          | none => none
          | some storage1 => some { world with storages := world.storages.set i storage1 }
        | _ => none

/-- `EcsDisassociate`. -/
def EcsDisassociate (g : Globals) (world : EcsWorld) (entity : Entity) : Option EcsWorld :=
  if !EcsIsValid world entity then none
  else
    match EcsHas world entity g.EcsRelation with
    | some true => EcsDetach world entity g.EcsRelation
    | _ => none

/-- `EcsHasRelation`. `StorageGet` asserts, and the address it returns is that
of a slot of the Relation storage, whose slots have the size of the Relation
struct, not 0: it is not `NULL`, so the null test after it is never taken. A
slot that does not hold a Relation payload cannot be read as one (`none`). -/
def EcsHasRelation (g : Globals) (world : EcsWorld) (entity object : Entity) : Option Bool :=
  if !EcsIsValid world entity then none
  else if !EcsIsValid world object then none
  else
    match EcsFind world g.EcsRelation with
    | none => some false
    | some i =>
      match world.storages[i]? with
      | none => none
      | some storage =>
        match StorageGet storage entity with
        | none => none
        | some pos =>
          match storage.data[pos]? with
          | some (Payload.relation o _) => some (ENTITY_CMP o object)
          | _ => none

/-- `EcsRelated`. See `EcsHasRelation`. -/
def EcsRelated (g : Globals) (world : EcsWorld) (entity relation : Entity) : Option Bool :=
  if !EcsIsValid world entity then none
  else if !EcsIsValid world relation then none
  else
    match EcsFind world g.EcsRelation with
    | none => some false
    | some i =>
      match world.storages[i]? with
      | none => none
      | some storage =>
        match StorageGet storage entity with
        | none => none
        | some pos =>
          match storage.data[pos]? with
          | some (Payload.relation _ r) => some (ENTITY_CMP r relation)
          | _ => none

/-- `EcsSet`: the slot of the entity, emplaced first if it has none, receives
the first `sizeOfComponent` bytes of `data` (a shorter `data` would be read
past its end). `ASSERT(componentData)` fails when the address of the slot is
`NULL`. -/
def EcsSet (world : EcsWorld) (entity component : Entity) (data : List Nat) :
    Option EcsWorld :=
  if !EcsIsValid world entity then none
  else if !EcsIsValid world component then none
  else
    match EcsFind world component with
    | none => none
    | some i =>
      match world.storages[i]? with
      | none => none
      | some storage =>
        let slot : Option (EcsStorage × Nat) :=
          match StorageHas storage entity with
          | none => none
          | some true => (StorageGet storage entity).map (fun pos => (storage, pos))
          | some false => StorageEmplace storage entity
        match slot with
        | none => none
        | some (storage1, pos) =>
          if slotIsNull storage1 pos then none
          else if data.length < storage1.sizeOfComponent then none
          else if pos < storage1.data.length then
            let written : EcsStorage :=
              { storage1 with data :=
                  storage1.data.set pos (Payload.bytes (data.take storage1.sizeOfComponent)) }
            some { world with storages := world.storages.set i written }
          else none

/-! ## Queries and systems -/

/-- The struct `Query` handed to a callback. `userdata` is an opaque number,
0 for `NULL`. -/
structure Query where
  componentData : List DataPtr
  componentIndex : List Entity
  sizeOfComponentData : Nat
  entity : Entity
  userdata : Nat
deriving DecidableEq, Repr

/-- The body of the loop of `EcsRelations` for one table slot: `none` is a
failed assertion, `some none` no callback, `some (some q)` a callback with
`q`. `pairs` is the index `EcsFind` gave for the Relation storage. -/
def relationsStep (world : EcsWorld) (pairs : Option Nat) (parent relation : Entity)
    (userdata : Nat) (e : Entity) : Option (Option Query) :=
  match pairs with
  | none => none
  | some i =>
    match world.storages[i]? with
    | none => none
    | some storage =>
      match StorageHas storage e with
      | none => none
      | some false => some none
      | some true =>
        match StorageGet storage e with
        | none => none
        | some pos =>
          match storage.data[pos]? with
          | some (Payload.relation o r) =>
            if !ENTITY_CMP o relation || !ENTITY_CMP r parent then some none
            else some (some { entity := e, componentData := [⟨i, pos⟩],
                              componentIndex := [relation], sizeOfComponentData := 1,
                              userdata := userdata })
          | _ => none

/-- A loop over the table slots that records the callbacks of its body. -/
def scanTable (body : Entity → Option (Option Query)) : List Entity → Option (List Query)
  | [] => some []
  | e :: rest =>
    match body e with
    | none => none
    | some r =>
      match scanTable body rest with
      | none => none
      | some qs =>
        match r with
        | none => some qs
        | some q => some (q :: qs)

/-- `EcsRelations`: the query records passed to the callback, in order. -/
def EcsRelations (g : Globals) (world : EcsWorld) (parent relation : Entity)
    (userdata : Nat) : Option (List Query) :=
  let pairs := EcsFind world g.EcsRelation
  scanTable (relationsStep world pairs parent relation userdata) world.entities

/-- The inner loop of `EcsQuery` for one table slot, over the components still
to test; `q` is the query record built so far. `some none`: a component is
missing (`hasComponents` false). The pointer recorded for a component is the
one `StorageGet` returns, `NULL` when `DataPtr.isNull` says so. -/
def queryFields (world : EcsWorld) (e : Entity) : List Entity → Query → Option (Option Query)
  | [], q => some (some q)
  | c :: rest, q =>
    match EcsFind world c with
    | none => none
    | some i =>
      match world.storages[i]? with
      | none => none
      | some storage =>
        match StorageHas storage e with
        | none => none
        | some false => some none
        | some true =>
          match StorageGet storage e with
          | none => none
          | some pos =>
            queryFields world e rest
              { q with sizeOfComponentData := q.sizeOfComponentData + 1,
                       componentData := q.componentData ++ [⟨i, pos⟩],
                       componentIndex := q.componentIndex ++ [c] }

/-- `EcsQuery`: the query records passed to the callback, in order. -/
def EcsQuery (world : EcsWorld) (userdata : Nat) (components : List Entity) :
    Option (List Query) :=
  scanTable (fun e => queryFields world e components
      { componentData := [], componentIndex := [], sizeOfComponentData := 0,
        entity := e, userdata := userdata })
    world.entities

/-- `EcsQueryField`; `none` is the literal `NULL` of the source, `some p` the
recorded pointer (itself `NULL` when `p.isNull` says so). -/
def EcsQueryField (query : Query) (index : Nat) : Option DataPtr :=
  if index ≥ query.sizeOfComponentData then none
  else
    match query.componentIndex[index]? with
    | none => none
    | some c => if ENTITY_IS_NIL c then none else query.componentData[index]?

/-- The shared body of `EcsEnableSystem` and `EcsDisableSystem`: the enabled
flag of the System payload of the entity is set to `b`. -/
def setEnabled (g : Globals) (world : EcsWorld) (system : Entity) (b : Bool) :
    Option EcsWorld :=
  if !EcsIsValid world system then none
  else if !ENTITY_ISA system EcsSystemType then none
  else
    match EcsGet world system g.EcsSystem with
    | some (some s) =>
      match readPtr world s with
      | some (Payload.system cb comps _) => writePtr world s (Payload.system cb comps b)
      | _ => none
    | _ => none

/-- `EcsEnableSystem`. -/
def EcsEnableSystem (g : Globals) (world : EcsWorld) (system : Entity) : Option EcsWorld :=
  setEnabled g world system true

/-- `EcsDisableSystem`. -/
def EcsDisableSystem (g : Globals) (world : EcsWorld) (system : Entity) : Option EcsWorld :=
  setEnabled g world system false

/-- `EcsRunSystem`: the callback of the system and the query records it is
called with. -/
def EcsRunSystem (g : Globals) (world : EcsWorld) (e : Entity) :
    Option (Nat × List Query) :=
  if !EcsIsValid world e then none
  else if !ENTITY_ISA e EcsSystemType then none
  else
    match EcsGet world e g.EcsSystem with
    | some (some s) =>
      match readPtr world s with
      | some (Payload.system cb comps _) => (EcsQuery world 0 comps).map (fun qs => (cb, qs))
      | _ => none
    | _ => none

/-- The loop of `EcsStep` over the dense array of the System storage. -/
def stepLoop (world : EcsWorld) (storage : EcsStorage) :
    List Entity → Option (List (Nat × List Query))
  | [] => some []
  | e :: rest =>
    match StorageGet storage e with
    | none => none
    | some pos =>
      match storage.data[pos]? with
      | some (Payload.system cb comps enabled) =>
        let ran : Option (List (Nat × List Query)) :=
          if enabled then (EcsQuery world 0 comps).map (fun qs => [(cb, qs)]) else some []
        match ran with
        | none => none
        | some first =>
          match stepLoop world storage rest with
          | none => none
          | some more => some (first ++ more)
      | _ => none

/-- `EcsStep`: for every system run, its callback and the query records it is
called with. The System storage is taken at index `ENTITY_ID(EcsSystem)` of
`storages`. -/
def EcsStep (g : Globals) (world : EcsWorld) : Option (List (Nat × List Query)) :=
  match world.storages[ENTITY_ID g.EcsSystem]? with
  | none => none
  | some storage => stepLoop world storage storage.sparse.dense

/-! ## Invariants -/

/-- Sparse/dense consistency of a sparse set: every id whose sparse slot is
not nil points at a dense position holding that id, and every dense position
is pointed at by the sparse slot of the id it holds. -/
def SparseConsistent (s : EcsSparse) : Prop :=
  (∀ id, id < s.sparse.length → (s.sparse.getD id EcsNilEntity).id ≠ EcsNil →
    (s.sparse.getD id EcsNilEntity).id < s.dense.length ∧
    (s.dense.getD (s.sparse.getD id EcsNilEntity).id EcsNilEntity).id = id) ∧
  (∀ p, p < s.dense.length →
    (s.dense.getD p EcsNilEntity).id < s.sparse.length ∧
    (s.sparse.getD (s.dense.getD p EcsNilEntity).id EcsNilEntity).id = p)

instance (s : EcsSparse) : Decidable (SparseConsistent s) := by
  unfold SparseConsistent; infer_instance

/-- A consistent storage: its sparse set is consistent and the data buffer has
one slot per dense entry. -/
def StorageConsistent (st : EcsStorage) : Prop :=
  SparseConsistent st.sparse ∧ st.data.length = st.sparse.dense.length

instance (st : EcsStorage) : Decidable (StorageConsistent st) := by
  unfold StorageConsistent; infer_instance

/-- Every position recorded in the sparse array of the storage is a slot of
its data buffer (a consequence of `StorageConsistent`). -/
def SlotsInRange (st : EcsStorage) : Prop :=
  ∀ id, id < st.sparse.sparse.length →
    (st.sparse.sparse.getD id EcsNilEntity).id ≠ EcsNil →
    (st.sparse.sparse.getD id EcsNilEntity).id < st.data.length

instance (st : EcsStorage) : Decidable (SlotsInRange st) := by
  unfold SlotsInRange; infer_instance

/-! ## Concrete worlds

Small worlds used to evaluate the operations on explicit inputs. -/

/-- Payload sizes used in the concrete worlds. -/
def sizes0 : PayloadSizes := ⟨32, 16, 16⟩

/-- The four built-in component entities `EcsNewWorld` returns on an empty
world. -/
def freshGlobals : Globals := ⟨⟨0, 0, 1⟩, ⟨1, 0, 1⟩, ⟨2, 0, 1⟩, ⟨3, 0, 1⟩⟩

/-- The world `EcsNewWorld sizes0` makes of the empty world. -/
def freshWorld : EcsWorld :=
  { entities := [⟨0, 0, 1⟩, ⟨1, 0, 1⟩, ⟨2, 0, 1⟩, ⟨3, 0, 1⟩],
    recyclable := [],
    storages := [NewStorage ⟨0, 0, 1⟩ 32, NewStorage ⟨1, 0, 1⟩ 16,
                 NewStorage ⟨2, 0, 1⟩ 16, NewStorage ⟨3, 0, 1⟩ 0],
    nextAvailableId := EcsNil }

/-- `freshWorld` after `EcsNewSystem` with callback 7 and no components: the
system is the entity (4, 0, System). -/
def oneSystemWorld : EcsWorld :=
  { freshWorld with
    entities := [⟨0, 0, 1⟩, ⟨1, 0, 1⟩, ⟨2, 0, 1⟩, ⟨3, 0, 1⟩, ⟨4, 0, 2⟩],
    storages :=
      [{ componentId := ⟨0, 0, 1⟩, sizeOfComponent := 32,
         data := [Payload.system 7 [] true],
         sparse := { sparse := [EcsNilEntity, EcsNilEntity, EcsNilEntity, EcsNilEntity,
                                ⟨0, 0, 0⟩],
                     dense := [⟨4, 0, 2⟩] } },
       NewStorage ⟨1, 0, 1⟩ 16, NewStorage ⟨2, 0, 1⟩ 16, NewStorage ⟨3, 0, 1⟩ 0] }

/-- `oneSystemWorld` after `DestroyEntity` of the built-in System component
(0, 0, Component): its table slot is the tombstone (0, 1, 0). -/
def orphanSystemWorld : EcsWorld :=
  { oneSystemWorld with
    entities := [⟨0, 1, 0⟩, ⟨1, 0, 1⟩, ⟨2, 0, 1⟩, ⟨3, 0, 1⟩, ⟨4, 0, 2⟩],
    recyclable := [0] }

/-- `freshWorld` after three `EcsNewEntity` calls: the entities (4, 0, Entity),
(5, 0, Entity) and (6, 0, Entity). -/
def threeEntityWorld : EcsWorld :=
  { freshWorld with
    entities := [⟨0, 0, 1⟩, ⟨1, 0, 1⟩, ⟨2, 0, 1⟩, ⟨3, 0, 1⟩, ⟨4, 0, 0⟩, ⟨5, 0, 0⟩, ⟨6, 0, 0⟩] }

/-- The Relation storage in which entity 4 holds the relation
(object (3, 0, Component), relation (5, 0, Entity)). -/
def relationStorage1 : EcsStorage :=
  { componentId := ⟨2, 0, 1⟩, sizeOfComponent := 16,
    data := [Payload.relation ⟨3, 0, 1⟩ ⟨5, 0, 0⟩],
    sparse := { sparse := [EcsNilEntity, EcsNilEntity, EcsNilEntity, EcsNilEntity, ⟨0, 0, 0⟩],
                dense := [⟨4, 0, 0⟩] } }

/-- `threeEntityWorld` after `EcsAssociate` of entity 4 with object
(3, 0, Component) and relation (5, 0, Entity). -/
def relatedWorld : EcsWorld :=
  { threeEntityWorld with
    storages := [NewStorage ⟨0, 0, 1⟩ 32, NewStorage ⟨1, 0, 1⟩ 16, relationStorage1,
                 NewStorage ⟨3, 0, 1⟩ 0] }

/-- The Relation storage after a second `EcsAssociate` of entity 4: two dense
entries for entity 4. -/
def relationStorage2 : EcsStorage :=
  { componentId := ⟨2, 0, 1⟩, sizeOfComponent := 16,
    data := [Payload.relation ⟨3, 0, 1⟩ ⟨5, 0, 0⟩, Payload.relation ⟨1, 0, 1⟩ ⟨6, 0, 0⟩],
    sparse := { sparse := [EcsNilEntity, EcsNilEntity, EcsNilEntity, EcsNilEntity, ⟨1, 0, 0⟩],
                dense := [⟨4, 0, 0⟩, ⟨4, 0, 0⟩] } }

/-- `relatedWorld` after `EcsAssociate` of entity 4 with object
(1, 0, Component) and relation (6, 0, Entity). -/
def twiceRelatedWorld : EcsWorld :=
  { threeEntityWorld with
    storages := [NewStorage ⟨0, 0, 1⟩ 32, NewStorage ⟨1, 0, 1⟩ 16, relationStorage2,
                 NewStorage ⟨3, 0, 1⟩ 0] }

/-- The Relation storage after `EcsDisassociate` of entity 4 in `relatedWorld`. -/
def relationStorage0 : EcsStorage :=
  { componentId := ⟨2, 0, 1⟩, sizeOfComponent := 16, data := [],
    sparse := { sparse := [EcsNilEntity, EcsNilEntity, EcsNilEntity, EcsNilEntity,
                           EcsNilEntity],
                dense := [] } }

/-- `relatedWorld` after `EcsDisassociate` of entity 4. -/
def unrelatedWorld : EcsWorld :=
  { threeEntityWorld with
    storages := [NewStorage ⟨0, 0, 1⟩ 32, NewStorage ⟨1, 0, 1⟩ 16, relationStorage0,
                 NewStorage ⟨3, 0, 1⟩ 0] }

/-- `freshWorld` after `EcsNewComponent` of size 4: the component
(4, 0, Component) with a storage of payload size 4. -/
def componentWorld : EcsWorld :=
  { freshWorld with
    entities := [⟨0, 0, 1⟩, ⟨1, 0, 1⟩, ⟨2, 0, 1⟩, ⟨3, 0, 1⟩, ⟨4, 0, 1⟩],
    storages := [NewStorage ⟨0, 0, 1⟩ 32, NewStorage ⟨1, 0, 1⟩ 16,
                 NewStorage ⟨2, 0, 1⟩ 16, NewStorage ⟨3, 0, 1⟩ 0, NewStorage ⟨4, 0, 1⟩ 4] }

/-- `componentWorld` after `DestroyEntity` of the component (4, 0, Component):
the storage registered for id 4 stays. -/
def staleStorageWorld : EcsWorld :=
  { componentWorld with
    entities := [⟨0, 0, 1⟩, ⟨1, 0, 1⟩, ⟨2, 0, 1⟩, ⟨3, 0, 1⟩, ⟨4, 1, 0⟩],
    recyclable := [4] }

/-- `staleStorageWorld` after `EcsNewComponent` of size 8: the component
(4, 1, Component) on the recycled id 4. -/
def recycledComponentWorld : EcsWorld :=
  { componentWorld with
    entities := [⟨0, 0, 1⟩, ⟨1, 0, 1⟩, ⟨2, 0, 1⟩, ⟨3, 0, 1⟩, ⟨4, 1, 1⟩] }

/-! ## Vocabulary of the statements -/

/-- The sparse array of `SparseEmplace` after it has been grown for `id`. -/
def grownSparse (s : EcsSparse) (id : Nat) : List Entity :=
  if id ≥ s.sparse.length then
    s.sparse ++ List.replicate (id + 1 - s.sparse.length) EcsNilEntity
  else s.sparse

/-- The storage `StorageEmplace` makes of `st` for the entity `e`. -/
def emplaced (st : EcsStorage) (e : Entity) : EcsStorage :=
  { st with
    data := st.data ++ [Payload.uninit],
    sparse := { sparse := (grownSparse st.sparse e.id).set e.id ⟨u32 st.sparse.dense.length, 0, 0⟩,
                dense := st.sparse.dense ++ [e] } }

/-- Entity `e` holds the payload `v` of component `c`: the storage found for
`c` has `e`, and the data slot at the position recorded for `e` contains
`v`; `i` is the index of the storage and `pos` the slot. -/
def HoldsAt (w : EcsWorld) (c e : Entity) (v : Payload) (i pos : Nat) : Prop :=
  EcsFind w c = some i ∧
  ∃ st, w.storages[i]? = some st ∧ SparseHas st.sparse e = some true ∧
    SparseAt st.sparse e = some pos ∧ st.data[pos]? = some v

/-- Entity `e` holds, in the storage `st`, a Relation payload with the given
object and relation: the sparse slot of its id is not nil and the data slot at
the recorded position is that payload. -/
def holdsRelation (st : EcsStorage) (object relation : Entity) (e : Entity) : Bool :=
  decide (e.id < st.sparse.sparse.length) &&
  decide ((st.sparse.sparse.getD e.id EcsNilEntity).id ≠ EcsNil) &&
  decide (st.data[(st.sparse.sparse.getD e.id EcsNilEntity).id]? =
    some (Payload.relation object relation))

/-- The one-field query record for entity `e`: field 0 is the component
`relation` with a pointer to the slot recorded for `e` in storage `i`. -/
def relationQuery (i : Nat) (st : EcsStorage) (relation : Entity) (userdata : Nat)
    (e : Entity) : Query :=
  { entity := e,
    componentData := [⟨i, (st.sparse.sparse.getD e.id EcsNilEntity).id⟩],
    componentIndex := [relation],
    sizeOfComponentData := 1,
    userdata := userdata }

/-- The slot contents are a Relation payload. -/
def Payload.isRelation : Payload → Bool
  | Payload.relation _ _ => true
  | _ => false

/-- Every data slot of the storage holds a Relation payload. -/
def RelationTyped (st : EcsStorage) : Prop :=
  ∀ v ∈ st.data, v.isRelation = true

instance (st : EcsStorage) : Decidable (RelationTyped st) := by
  unfold RelationTyped; infer_instance

/-- `freshWorld` after `EcsNewComponent` of sizes 4 and 8 (the components
(4, 0, Component) and (5, 0, Component)), `EcsNewEntity` (the entity
(6, 0, Entity)) and `EcsNewPrefab` with no components (the prefab
(7, 0, Prefab)). -/
def prefabBaseWorld : EcsWorld :=
  { entities := [⟨0, 0, 1⟩, ⟨1, 0, 1⟩, ⟨2, 0, 1⟩, ⟨3, 0, 1⟩, ⟨4, 0, 1⟩, ⟨5, 0, 1⟩, ⟨6, 0, 0⟩,
                 ⟨7, 0, 4⟩],
    recyclable := [],
    storages :=
      [NewStorage ⟨0, 0, 1⟩ 32,
       { componentId := ⟨1, 0, 1⟩, sizeOfComponent := 16,
         data := [Payload.prefab []],
         sparse := { sparse := List.replicate 7 EcsNilEntity ++ [⟨0, 0, 0⟩],
                     dense := [⟨7, 0, 4⟩] } },
       NewStorage ⟨2, 0, 1⟩ 16, NewStorage ⟨3, 0, 1⟩ 0, NewStorage ⟨4, 0, 1⟩ 4,
       NewStorage ⟨5, 0, 1⟩ 8],
    nextAvailableId := EcsNil }

/-- `prefabBaseWorld` after `EcsNewPrefab` with the components
(4, 0, Component) and (5, 0, Component): the prefab (8, 0, Prefab). -/
def prefabWorld : EcsWorld :=
  { entities := [⟨0, 0, 1⟩, ⟨1, 0, 1⟩, ⟨2, 0, 1⟩, ⟨3, 0, 1⟩, ⟨4, 0, 1⟩, ⟨5, 0, 1⟩, ⟨6, 0, 0⟩,
                 ⟨7, 0, 4⟩, ⟨8, 0, 4⟩],
    recyclable := [],
    storages :=
      [NewStorage ⟨0, 0, 1⟩ 32,
       { componentId := ⟨1, 0, 1⟩, sizeOfComponent := 16,
         data := [Payload.prefab [], Payload.prefab [⟨4, 0, 1⟩, ⟨5, 0, 1⟩]],
         sparse := { sparse := List.replicate 7 EcsNilEntity ++ [⟨0, 0, 0⟩, ⟨1, 0, 0⟩],
                     dense := [⟨7, 0, 4⟩, ⟨8, 0, 4⟩] } },
       NewStorage ⟨2, 0, 1⟩ 16, NewStorage ⟨3, 0, 1⟩ 0, NewStorage ⟨4, 0, 1⟩ 4,
       NewStorage ⟨5, 0, 1⟩ 8],
    nextAvailableId := EcsNil }

/-! ## Sequences of public operations -/

/-- The payload read through `EcsGet`: `none` is a failed assertion,
`some none` the `NULL` returned for an entity that does not have the
component, `some (some v)` the contents of the slot of the entity. -/
def EcsGetPayload (w : EcsWorld) (entity component : Entity) : Option (Option Payload) :=
  match EcsGet w entity component with
  | none => none
  | some none => some none
  | some (some p) => (readPtr w p).map some

/-- The worlds reachable from `EcsNewWorld` on the empty world by the public
operations that change the world, each returning normally (its assertions
hold). The list is the bookkeeping of live entities: the entities returned by
a creation operation (the four built-in components included) and not destroyed
since. With `strict = true`, `DestroyEntity` is only called on a live entity;
with `strict = false` on any entity that passes its assertion. The last
constructor is the host writing a payload through a pointer obtained from
`EcsGet`. `EcsNewWorld` on a world in use and `EcsDestroyWorld` start another
world and are no steps. -/
inductive Reachable (strict : Bool) : Globals → EcsWorld → List Entity → Prop where
  | newWorld (sz : PayloadSizes) (n : Nat) (g : Globals) (w : EcsWorld) :
      EcsNewWorld sz ⟨[], [], [], n⟩ = some (g, w) →
      Reachable strict g w [g.EcsSystem, g.EcsPrefab, g.EcsRelation, g.EcsChildOf]
  | newEntity (g : Globals) (w w1 : EcsWorld) (live : List Entity) (e : Entity) :
      Reachable strict g w live → EcsNewEntity w = some (e, w1) →
      Reachable strict g w1 (e :: live)
  | newComponent (g : Globals) (w w1 : EcsWorld) (live : List Entity) (size : Nat)
      (e : Entity) :
      Reachable strict g w live → EcsNewComponent w size = some (e, w1) →
      Reachable strict g w1 (e :: live)
  | newSystem (g : Globals) (w w1 : EcsWorld) (live : List Entity) (fuel fn : Nat)
      (components : List Entity) (e : Entity) :
      Reachable strict g w live →
      EcsNewSystem fuel g w fn components = some (some (e, w1)) →
      Reachable strict g w1 (e :: live)
  | newPrefab (g : Globals) (w w1 : EcsWorld) (live : List Entity) (fuel : Nat)
      (components : List Entity) (e : Entity) :
      Reachable strict g w live →
      EcsNewPrefab fuel g w components = some (some (e, w1)) →
      Reachable strict g w1 (e :: live)
  | destroyEntity (g : Globals) (w w1 : EcsWorld) (live : List Entity) (e : Entity) :
      Reachable strict g w live → (strict = true → e ∈ live) →
      DestroyEntity g w e = some w1 →
      Reachable strict g w1 (live.filter (fun x => decide (x ≠ e)))
  | attach (g : Globals) (w w1 : EcsWorld) (live : List Entity) (fuel : Nat)
      (entity component : Entity) :
      Reachable strict g w live → EcsAttach fuel g w entity component = some (some w1) →
      Reachable strict g w1 live
  | detach (g : Globals) (w w1 : EcsWorld) (live : List Entity) (entity component : Entity) :
      Reachable strict g w live → EcsDetach w entity component = some w1 →
      Reachable strict g w1 live
  | set (g : Globals) (w w1 : EcsWorld) (live : List Entity) (entity component : Entity)
      (data : List Nat) :
      Reachable strict g w live → EcsSet w entity component data = some w1 →
      Reachable strict g w1 live
  | associate (g : Globals) (w w1 : EcsWorld) (live : List Entity) (fuel : Nat)
      (entity object relation : Entity) :
      Reachable strict g w live →
      EcsAssociate fuel g w entity object relation = some (some w1) →
      Reachable strict g w1 live
  | disassociate (g : Globals) (w w1 : EcsWorld) (live : List Entity) (entity : Entity) :
      Reachable strict g w live → EcsDisassociate g w entity = some w1 →
      Reachable strict g w1 live
  | enableSystem (g : Globals) (w w1 : EcsWorld) (live : List Entity) (system : Entity) :
      Reachable strict g w live → EcsEnableSystem g w system = some w1 →
      Reachable strict g w1 live
  | disableSystem (g : Globals) (w w1 : EcsWorld) (live : List Entity) (system : Entity) :
      Reachable strict g w live → EcsDisableSystem g w system = some w1 →
      Reachable strict g w1 live
  | write (g : Globals) (w w1 : EcsWorld) (live : List Entity) (entity component : Entity)
      (p : DataPtr) (v : Payload) :
      Reachable strict g w live → EcsGet w entity component = some (some p) →
      writePtr w p v = some w1 →
      Reachable strict g w1 live

/-- A world with the four built-in storages in which only the Relation storage
has entries: the given table, recycle list and Relation storage. -/
def relationWorld (entities : List Entity) (recyclable : List Nat) (rel : EcsStorage) :
    EcsWorld :=
  { entities := entities, recyclable := recyclable,
    storages := [NewStorage ⟨0, 0, 1⟩ 32, NewStorage ⟨1, 0, 1⟩ 16, rel, NewStorage ⟨3, 0, 1⟩ 0],
    nextAvailableId := EcsNil }

/-- A Relation storage with the given sparse and dense arrays, every slot
holding the relation (object (3, 0, Component), relation (6, 0, Entity)). -/
def childStorage (sparse dense : List Entity) : EcsStorage :=
  { componentId := ⟨2, 0, 1⟩, sizeOfComponent := 16,
    data := dense.map (fun _ => Payload.relation ⟨3, 0, 1⟩ ⟨6, 0, 0⟩),
    sparse := { sparse := sparse, dense := dense } }

/-- The table of `freshWorld` followed by the given entities. -/
def tableWith (rest : List Entity) : List Entity :=
  [⟨0, 0, 1⟩, ⟨1, 0, 1⟩, ⟨2, 0, 1⟩, ⟨3, 0, 1⟩] ++ rest

/-- A world with the built-in storages, all empty, the table of `freshWorld`
followed by the given entities, and the given recycle list. -/
def plainWorld (rest : List Entity) (recyclable : List Nat) : EcsWorld :=
  { freshWorld with entities := tableWith rest, recyclable := recyclable }

/-- `componentWorld` (component (4, 0, Component) of size 4) with a further
table entry and recycle list, the storage of the component holding the bytes
[1, 2, 3, 4] for the entity with id 5. -/
def heldComponentWorld (slot4 : Entity) (recyclable : List Nat) : EcsWorld :=
  { entities := tableWith [slot4, ⟨5, 0, 0⟩], recyclable := recyclable,
    storages := [NewStorage ⟨0, 0, 1⟩ 32, NewStorage ⟨1, 0, 1⟩ 16, NewStorage ⟨2, 0, 1⟩ 16,
                 NewStorage ⟨3, 0, 1⟩ 0,
                 { componentId := ⟨4, 0, 1⟩, sizeOfComponent := 4,
                   data := [Payload.bytes [1, 2, 3, 4]],
                   sparse := { sparse := List.replicate 5 EcsNilEntity ++ [⟨0, 0, 0⟩],
                               dense := [⟨5, 0, 0⟩] } }],
    nextAvailableId := EcsNil }

/-- What an operation that only works on storages leaves alone: the entity
table, the recycle list, and which component each registered storage is
for. -/
def StorageOnly (w w1 : EcsWorld) : Prop :=
  w1.entities = w.entities ∧ w1.recyclable = w.recyclable ∧
  w1.storages.map (fun st => st.componentId) = w.storages.map (fun st => st.componentId)

/-- What a creation operation does to the entity table: `EcsNewEntityType`
mints the entity `e`, and the rest of the operation leaves table and recycle
list alone and at most registers further storages. -/
def TableCreate (w : EcsWorld) (e : Entity) (w1 : EcsWorld) : Prop :=
  ∃ type w0, EcsNewEntityType w type = some (e, w0) ∧
    w1.entities = w0.entities ∧ w1.recyclable = w0.recyclable ∧
    ∃ rest, w1.storages.map (fun st => st.componentId) =
      w.storages.map (fun st => st.componentId) ++ rest

/-- The entity `e` is returned, with the world `w1`, by one of the four
creation operations on the world `w`. -/
def CreatedBy (g : Globals) (w : EcsWorld) (e : Entity) (w1 : EcsWorld) : Prop :=
  EcsNewEntity w = some (e, w1) ∨
  (∃ size, EcsNewComponent w size = some (e, w1)) ∨
  (∃ fuel fn components, EcsNewSystem fuel g w fn components = some (some (e, w1))) ∨
  (∃ fuel components, EcsNewPrefab fuel g w components = some (some (e, w1)))

/-- The bookkeeping invariant of the entity table: every live entity is stored
at its id; every recycled id is a table index and the id of no live entity; no
id is recycled twice; and every table slot holds its own index as id. -/
def TableInvariant (w : EcsWorld) (live : List Entity) : Prop :=
  (∀ x ∈ live, w.entities[x.id]? = some x) ∧
  (∀ i ∈ w.recyclable, i < w.entities.length ∧ ∀ x ∈ live, x.id ≠ i) ∧
  w.recyclable.Nodup ∧
  (∀ (i : Nat) (e : Entity), w.entities[i]? = some e → e.id = i)

/-- The storage `StorageRemove` makes of a consistent storage `st` that has
the entity `e`: the last dense entry and the last data slot are moved to the
position of `e`. -/
def removed (st : EcsStorage) (e : Entity) : EcsStorage :=
  { st with
    data := (st.data.set (st.sparse.sparse.getD e.id EcsNilEntity).id
              (st.data.getD (st.data.length - 1) Payload.uninit)).dropLast,
    sparse :=
      { sparse := (st.sparse.sparse.set
            (st.sparse.dense.getD (st.sparse.dense.length - 1) EcsNilEntity).id
            ⟨(st.sparse.sparse.getD e.id EcsNilEntity).id, 0, 0⟩).set e.id EcsNilEntity,
        dense := (st.sparse.dense.set (st.sparse.sparse.getD e.id EcsNilEntity).id
            (st.sparse.dense.getD (st.sparse.dense.length - 1) EcsNilEntity)).dropLast } }

/-- The payload an entity holds in a storage, as `EcsGet` finds it: `none` is
a failed assertion, `some none` no entry, `some (some v)` the contents of the
slot recorded for the entity. -/
def StoragePayload (st : EcsStorage) (e : Entity) : Option (Option Payload) :=
  match StorageHas st e with
  | none => none
  | some true =>
    match StorageGet st e with
    | none => none
    | some pos => (st.data[pos]?).map some
  | some false => some none

/-- A world with the component (4, 0, Component) of size 4 and two entities,
ids 5 and 6, both holding it: entity 5 in slot 0 with bytes [1, 2, 3, 4],
entity 6 in slot 1 with bytes [5, 6, 7, 8]. -/
def sharedStorageWorld : EcsWorld :=
  { entities := tableWith [⟨4, 0, 1⟩, ⟨5, 0, 0⟩, ⟨6, 0, 0⟩], recyclable := [],
    storages := [NewStorage ⟨0, 0, 1⟩ 32, NewStorage ⟨1, 0, 1⟩ 16, NewStorage ⟨2, 0, 1⟩ 16,
                 NewStorage ⟨3, 0, 1⟩ 0,
                 { componentId := ⟨4, 0, 1⟩, sizeOfComponent := 4,
                   data := [Payload.bytes [1, 2, 3, 4], Payload.bytes [5, 6, 7, 8]],
                   sparse := { sparse := List.replicate 5 EcsNilEntity ++ [⟨0, 0, 0⟩, ⟨1, 0, 0⟩],
                               dense := [⟨5, 0, 0⟩, ⟨6, 0, 0⟩] } }],
    nextAvailableId := EcsNil }

/-- The statement of `step` in the words of the specification, for the
entities of a dense array in order: the enabled flag is read from the System
payload `get` returns for the entity, and an enabled entity is run by
`EcsRunSystem`. -/
def runEnabled (g : Globals) (w : EcsWorld) : List Entity → Option (List (Nat × List Query))
  | [] => some []
  | e :: rest =>
    match EcsGetPayload w e g.EcsSystem with
    | some (some (Payload.system _ _ enabled)) =>
      if enabled then
        match EcsRunSystem g w e with
        | none => none
        | some r => (runEnabled g w rest).map (fun more => r :: more)
      else runEnabled g w rest
    | _ => none

/-- The statement of `step` in the words of the specification: every entity
of the dense array of the storage registered for the built-in System
component, in dense order, is run as `EcsRunSystem` does if it is enabled. -/
def stepBySpec (g : Globals) (w : EcsWorld) : Option (List (Nat × List Query)) :=
  match EcsFind w g.EcsSystem with
  | none => none
  | some i =>
    match w.storages[i]? with
    | none => none
    | some st => runEnabled g w st.sparse.dense

/-- The dense array of the storage at index `ENTITY_ID(EcsSystem)`, the one
`EcsStep` iterates. -/
def systemsOf (g : Globals) (w : EcsWorld) : List Entity :=
  match w.storages[ENTITY_ID g.EcsSystem]? with
  | none => []
  | some st => st.sparse.dense

/-- The systems of the world are well formed: the built-in System component
is a valid entity, the storage `EcsStep` iterates is consistent with fewer
than `EcsNil` + 1 entries, and every entity of its dense array is a valid
entity of kind System other than the nil entity. -/
def SystemsWellFormed (g : Globals) (w : EcsWorld) : Prop :=
  EcsIsValid w g.EcsSystem = true ∧
  ∃ st, w.storages[ENTITY_ID g.EcsSystem]? = some st ∧ StorageConsistent st ∧
    st.sparse.dense.length ≤ EcsNil ∧
    ∀ e ∈ st.sparse.dense, EcsIsValid w e = true ∧ e.flag = EcsSystemType ∧ e.id ≠ EcsNil

/-- `oneSystemWorld` after a second `EcsNewSystem`, with callback 8 and the
component list [(1, 0, Component)]: the system is the entity (5, 0, System);
`enabled4` is the enabled flag of the first system. -/
def twoSystemWorld (enabled4 : Bool) : EcsWorld :=
  { freshWorld with
    entities := [⟨0, 0, 1⟩, ⟨1, 0, 1⟩, ⟨2, 0, 1⟩, ⟨3, 0, 1⟩, ⟨4, 0, 2⟩, ⟨5, 0, 2⟩],
    storages :=
      [{ componentId := ⟨0, 0, 1⟩, sizeOfComponent := 32,
         data := [Payload.system 7 [] enabled4, Payload.system 8 [⟨0, 0, 1⟩] true],
         sparse := { sparse := [EcsNilEntity, EcsNilEntity, EcsNilEntity, EcsNilEntity,
                                ⟨0, 0, 0⟩, ⟨1, 0, 0⟩],
                     dense := [⟨4, 0, 2⟩, ⟨5, 0, 2⟩] } },
       NewStorage ⟨1, 0, 1⟩ 16, NewStorage ⟨2, 0, 1⟩ 16, NewStorage ⟨3, 0, 1⟩ 0] }

/-- The worlds reached from a given world by a finite sequence of the public
operations that change the world, each returning normally: `Later g id w w1 n`
says that `w1` is reached from `w` by a sequence in which `destroyEntity` is
called `n` times on an entity whose id is `id`. -/
inductive Later (g : Globals) (id : Nat) : EcsWorld → EcsWorld → Nat → Prop where
  | refl (w : EcsWorld) : Later g id w w 0
  | newEntity (w w1 w2 : EcsWorld) (n : Nat) (e : Entity) :
      Later g id w w1 n → EcsNewEntity w1 = some (e, w2) → Later g id w w2 n
  | newComponent (w w1 w2 : EcsWorld) (n size : Nat) (e : Entity) :
      Later g id w w1 n → EcsNewComponent w1 size = some (e, w2) → Later g id w w2 n
  | newSystem (w w1 w2 : EcsWorld) (n fuel fn : Nat) (components : List Entity)
      (e : Entity) :
      Later g id w w1 n → EcsNewSystem fuel g w1 fn components = some (some (e, w2)) →
      Later g id w w2 n
  | newPrefab (w w1 w2 : EcsWorld) (n fuel : Nat) (components : List Entity) (e : Entity) :
      Later g id w w1 n → EcsNewPrefab fuel g w1 components = some (some (e, w2)) →
      Later g id w w2 n
  | destroyEntity (w w1 w2 : EcsWorld) (n : Nat) (e : Entity) :
      Later g id w w1 n → DestroyEntity g w1 e = some w2 →
      Later g id w w2 (if e.id = id then n + 1 else n)
  | attach (w w1 w2 : EcsWorld) (n fuel : Nat) (entity component : Entity) :
      Later g id w w1 n → EcsAttach fuel g w1 entity component = some (some w2) →
      Later g id w w2 n
  | detach (w w1 w2 : EcsWorld) (n : Nat) (entity component : Entity) :
      Later g id w w1 n → EcsDetach w1 entity component = some w2 → Later g id w w2 n
  | set (w w1 w2 : EcsWorld) (n : Nat) (entity component : Entity) (data : List Nat) :
      Later g id w w1 n → EcsSet w1 entity component data = some w2 → Later g id w w2 n
  | associate (w w1 w2 : EcsWorld) (n fuel : Nat) (entity object relation : Entity) :
      Later g id w w1 n →
      EcsAssociate fuel g w1 entity object relation = some (some w2) →
      Later g id w w2 n
  | disassociate (w w1 w2 : EcsWorld) (n : Nat) (entity : Entity) :
      Later g id w w1 n → EcsDisassociate g w1 entity = some w2 → Later g id w w2 n
  | enableSystem (w w1 w2 : EcsWorld) (n : Nat) (system : Entity) :
      Later g id w w1 n → EcsEnableSystem g w1 system = some w2 → Later g id w w2 n
  | disableSystem (w w1 w2 : EcsWorld) (n : Nat) (system : Entity) :
      Later g id w w1 n → EcsDisableSystem g w1 system = some w2 → Later g id w w2 n
  | write (w w1 w2 : EcsWorld) (n : Nat) (entity component : Entity) (p : DataPtr)
      (v : Payload) :
      Later g id w w1 n → EcsGet w1 entity component = some (some p) →
      writePtr w1 p v = some w2 → Later g id w w2 n

/-- Every slot of the entity table holds an entity whose id is the index of
the slot. -/
def TableIds (w : EcsWorld) : Prop :=
  ∀ (i : Nat) (e : Entity), w.entities[i]? = some e → e.id = i

instance (w : EcsWorld) : Decidable (TableIds w) :=
  decidable_of_iff (∀ i, i < w.entities.length → (w.entities.getD i EcsNilEntity).id = i)
    (by
      unfold TableIds
      constructor
      · intro h i e he
        have hl : i < w.entities.length := by
          rcases Nat.lt_or_ge i w.entities.length with h1 | h1
          · exact h1
          · rw [List.getElem?_eq_none h1] at he; cases he
        have := h i hl
        rw [List.getD_eq_getElem?_getD, he] at this
        exact this
      · intro h i hi
        apply h i
        rw [List.getD_eq_getElem?_getD, List.getElem?_eq_getElem hi]
        rfl)

/-- The table slot at the id of `e` holds the version `version(e) + 1 + n`,
wrapped at the width of the version part: what the slot of a destroyed entity
`e` holds after `n` further `destroyEntity` calls on its id. -/
def SlotVersion (w : EcsWorld) (e : Entity) (n : Nat) : Prop :=
  ∃ x, w.entities[e.id]? = some x ∧ x.version = wrapVersion (e.version + 1 + n)

/-- The storage of the component (4, 0, Component) after the entity with id 5
has been emplaced twice: two dense entries for it, the sparse slot pointing at
the second. -/
def twiceEmplacedStorage : EcsStorage :=
  { componentId := ⟨4, 0, 1⟩, sizeOfComponent := 4,
    data := [Payload.bytes [1, 2, 3, 4], Payload.uninit],
    sparse := { sparse := List.replicate 5 EcsNilEntity ++ [⟨1, 0, 0⟩],
                dense := [⟨5, 0, 0⟩, ⟨5, 0, 0⟩] } }

/-- `heldComponentWorld` after a second `EcsAttach` of the component
(4, 0, Component) to the entity with id 5. -/
def twiceAttachedWorld : EcsWorld :=
  { entities := tableWith [⟨4, 0, 1⟩, ⟨5, 0, 0⟩], recyclable := [],
    storages := [NewStorage ⟨0, 0, 1⟩ 32, NewStorage ⟨1, 0, 1⟩ 16, NewStorage ⟨2, 0, 1⟩ 16,
                 NewStorage ⟨3, 0, 1⟩ 0, twiceEmplacedStorage],
    nextAvailableId := EcsNil }

/-- The sparse set `SparseRemove` makes of a consistent set `s` that has the
entity `e`: the last dense entry is moved to the position of `e`. -/
def removedSparse (s : EcsSparse) (e : Entity) : EcsSparse :=
  { sparse := (s.sparse.set (s.dense.getD (s.dense.length - 1) EcsNilEntity).id
        ⟨(s.sparse.getD e.id EcsNilEntity).id, 0, 0⟩).set e.id EcsNilEntity,
    dense := (s.dense.set (s.sparse.getD e.id EcsNilEntity).id
        (s.dense.getD (s.dense.length - 1) EcsNilEntity)).dropLast }

/-- The sparse set `SparseEmplace` makes of `s` for the entity `e`. -/
def emplacedSparse (s : EcsSparse) (e : Entity) : EcsSparse :=
  { sparse := (grownSparse s e.id).set e.id ⟨u32 s.dense.length, 0, 0⟩,
    dense := s.dense ++ [e] }

/-- The sparse sets built from the empty one by `SparseEmplace` on entities
that are not present (the set holding fewer than `EcsNil` entries) and
`SparseRemove` on entities that are present. -/
inductive SparseReach : EcsSparse → Prop where
  | new : SparseReach NewSparse
  | emplace (s s1 : EcsSparse) (e : Entity) :
      SparseReach s → SparseHas s e = some false → s.dense.length < EcsNil →
      SparseEmplace s e = some s1 → SparseReach s1
  | remove (s s1 : EcsSparse) (e : Entity) (pos : Nat) :
      SparseReach s → SparseHas s e = some true →
      SparseRemove s e = some (s1, pos) → SparseReach s1

/-- The pair list of a query record in the words of the specification: for
each component of the list, in order, the data pointer `get` returns for the
entity; `none` when a component is absent (or `get` fails). -/
def getPointers (w : EcsWorld) (e : Entity) : List Entity → Option (List DataPtr)
  | [] => some []
  | c :: rest =>
    match EcsGet w e c with
    | some (some p) => (getPointers w e rest).map (fun ps => p :: ps)
    | _ => none

/-- The query record for an entity, a component list and the data pointers of
the components. -/
def queryRecord (e : Entity) (userdata : Nat) (components : List Entity)
    (ps : List DataPtr) : Query :=
  { componentData := ps, componentIndex := components,
    sizeOfComponentData := components.length, entity := e, userdata := userdata }

/-- The filter of a query in the words of the specification: `has(e, c)` is
true for every component `c` of the list. -/
def hasAll (w : EcsWorld) (components : List Entity) (e : Entity) : Bool :=
  components.all (fun c => EcsHas w e c == some true)

/-- The components of a query are usable: each is a valid entity with a
registered storage whose recorded positions lie inside its data buffer. -/
def Queryable (w : EcsWorld) (components : List Entity) : Prop :=
  ∀ c ∈ components, EcsIsValid w c = true ∧
    ∃ i st, EcsFind w c = some i ∧ w.storages[i]? = some st ∧ SlotsInRange st

/-- The world `plainWorld [(4, 0, Entity), (5, 0, Entity)] []` in which the
entity (4, 0, Entity) holds the tag-only component ChildOf (3, 0, Component),
of size 0, with the given slot contents. -/
def oneTagWorld (slot : Payload) : EcsWorld :=
  { entities := tableWith [⟨4, 0, 0⟩, ⟨5, 0, 0⟩], recyclable := [],
    storages := [NewStorage ⟨0, 0, 1⟩ 32, NewStorage ⟨1, 0, 1⟩ 16, NewStorage ⟨2, 0, 1⟩ 16,
                 { componentId := ⟨3, 0, 1⟩, sizeOfComponent := 0, data := [slot],
                   sparse := { sparse := List.replicate 4 EcsNilEntity ++ [⟨0, 0, 0⟩],
                               dense := [⟨4, 0, 0⟩] } }],
    nextAvailableId := EcsNil }

/-- The world `oneTagWorld Payload.uninit` after `EcsAttach` of the tag-only
component ChildOf to the entity (5, 0, Entity) as well. -/
def twoTagWorld : EcsWorld :=
  { entities := tableWith [⟨4, 0, 0⟩, ⟨5, 0, 0⟩], recyclable := [],
    storages := [NewStorage ⟨0, 0, 1⟩ 32, NewStorage ⟨1, 0, 1⟩ 16, NewStorage ⟨2, 0, 1⟩ 16,
                 { componentId := ⟨3, 0, 1⟩, sizeOfComponent := 0,
                   data := [Payload.uninit, Payload.uninit],
                   sparse := { sparse := List.replicate 4 EcsNilEntity ++
                                 [⟨0, 0, 0⟩, ⟨1, 0, 0⟩],
                               dense := [⟨4, 0, 0⟩, ⟨5, 0, 0⟩] } }],
    nextAvailableId := EcsNil }

/-- The world made by `newWorld`, `newEntity` (the entity (4, 0, Entity)) and
`attach` of the built-in System component (0, 0, Component) to that entity:
the System storage holds the entity with an uninitialised slot. -/
def attachedSystemWorld : EcsWorld :=
  { freshWorld with
    entities := tableWith [⟨4, 0, 0⟩],
    storages :=
      [{ componentId := ⟨0, 0, 1⟩, sizeOfComponent := 32,
         data := [Payload.uninit],
         sparse := { sparse := List.replicate 4 EcsNilEntity ++ [⟨0, 0, 0⟩],
                     dense := [⟨4, 0, 0⟩] } },
       NewStorage ⟨1, 0, 1⟩ 16, NewStorage ⟨2, 0, 1⟩ 16, NewStorage ⟨3, 0, 1⟩ 0] }

/-- The storage of a component of the given id and size in which entity 6 is
the only entry, with the given slot contents. -/
def soleStorage (id size : Nat) (v : Payload) : EcsStorage :=
  { componentId := ⟨id, 0, 1⟩, sizeOfComponent := size, data := [v],
    sparse := { sparse := List.replicate 6 EcsNilEntity ++ [⟨0, 0, 0⟩],
                dense := [⟨6, 0, 0⟩] } }

/-- The storage of a component of the given id and size after its only entry,
entity 6, was removed. -/
def vacatedStorage (id size : Nat) : EcsStorage :=
  { componentId := ⟨id, 0, 1⟩, sizeOfComponent := size, data := [],
    sparse := { sparse := List.replicate 7 EcsNilEntity, dense := [] } }

/-- The example scenario: `freshWorld` with the components A = (4, 0, Component)
of size 4 and B = (5, 0, Component) of size 8 and the entity E1 = (6, 0, Entity),
the storages of A and B being the given ones. -/
def scenarioWorld (stA stB : EcsStorage) : EcsWorld :=
  { entities := [⟨0, 0, 1⟩, ⟨1, 0, 1⟩, ⟨2, 0, 1⟩, ⟨3, 0, 1⟩, ⟨4, 0, 1⟩, ⟨5, 0, 1⟩, ⟨6, 0, 0⟩],
    recyclable := [],
    storages := [NewStorage ⟨0, 0, 1⟩ 32, NewStorage ⟨1, 0, 1⟩ 16, NewStorage ⟨2, 0, 1⟩ 16,
                 NewStorage ⟨3, 0, 1⟩ 0, stA, stB],
    nextAvailableId := EcsNil }

/-- The storage with every data slot replaced by an uninitialised one: what
`StorageHas` and `StorageGet` depend on. -/
def eraseStorage (st : EcsStorage) : EcsStorage :=
  { st with data := st.data.map (fun _ => Payload.uninit) }

/-- The world with the payloads of every storage erased. -/
def erasePayloads (w : EcsWorld) : EcsWorld :=
  { w with storages := w.storages.map eraseStorage }

/-! ## Lemmas and theorems -/

/-! ## Basic lemmas -/

@[simp] theorem ENTITY_ID_eq (e : Entity) : ENTITY_ID e = e.id := rfl

@[simp] theorem ENTITY_VERSION_eq (e : Entity) : ENTITY_VERSION e = e.version := rfl

theorem EcsNil_val : EcsNil = 4294967295 := rfl

theorem u32_of_lt {n : Nat} (h : n < 4294967296) : u32 n = n := by
  unfold u32; omega

theorem dec32_succ (n : Nat) : dec32 (n + 1) = n := by
  simp [dec32]

theorem findStorage_some {ss : List EcsStorage} {id i : Nat} (h : findStorage ss id = some i) :
    ∃ st, ss[i]? = some st ∧ st.componentId.id = id := by
  induction ss generalizing i with
  | nil => simp [findStorage] at h
  | cons s rest ih =>
    simp only [findStorage, ENTITY_ID_eq] at h
    split at h
    · cases h; exact ⟨s, by simp, by assumption⟩
    · cases hr : findStorage rest id with
      | none => simp [hr] at h
      | some j =>
        simp [hr] at h
        subst h
        obtain ⟨st, h1, h2⟩ := ih hr
        exact ⟨st, by simpa using h1, h2⟩

theorem EcsIsValid_iff (w : EcsWorld) (e : Entity) :
    EcsIsValid w e = true ↔ w.entities[e.id]? = some e := by
  unfold EcsIsValid ENTITY_CMP
  simp only [ENTITY_ID_eq, Bool.and_eq_true, decide_eq_true_eq]
  constructor
  · rintro ⟨h1, h2⟩
    rw [List.getD_eq_getElem?_getD, List.getElem?_eq_getElem h1] at h2
    rw [List.getElem?_eq_getElem h1]
    simpa using h2
  · intro h
    have hlt : e.id < w.entities.length := by
      rcases Nat.lt_or_ge e.id w.entities.length with h' | h'
      · exact h'
      · rw [List.getElem?_eq_none h'] at h; cases h
    refine ⟨hlt, ?_⟩
    rw [List.getD_eq_getElem?_getD, h]; rfl

/-- The result of `EcsNewWorld` on the empty world, for all payload sizes. -/
theorem EcsNewWorld_empty (sz : PayloadSizes) (n : Nat) :
    EcsNewWorld sz ⟨[], [], [], n⟩ =
      some (⟨⟨0, 0, EcsComponentType⟩, ⟨1, 0, EcsComponentType⟩,
             ⟨2, 0, EcsComponentType⟩, ⟨3, 0, EcsComponentType⟩⟩,
            { entities := [⟨0, 0, EcsComponentType⟩, ⟨1, 0, EcsComponentType⟩,
                           ⟨2, 0, EcsComponentType⟩, ⟨3, 0, EcsComponentType⟩],
              recyclable := [],
              storages := [NewStorage ⟨0, 0, EcsComponentType⟩ sz.sizeOfSystem,
                           NewStorage ⟨1, 0, EcsComponentType⟩ sz.sizeOfPrefab,
                           NewStorage ⟨2, 0, EcsComponentType⟩ sz.sizeOfRelation,
                           NewStorage ⟨3, 0, EcsComponentType⟩ 0],
              nextAvailableId := EcsNil }) := by
  rfl

/-- C20: `newWorld` on a world with empty entity table, empty recycle list and
no storages gives four table entries and four storages: System, Prefab,
Relation and ChildOf are the entities with ids 0, 1, 2, 3 (version 0, kind
Component), storage i has component id i, and the recycle list is empty. -/
theorem EcsNewWorld_fresh (sz : PayloadSizes) (n : Nat) :
    EcsNewWorld sz ⟨[], [], [], n⟩ =
      some (⟨⟨0, 0, EcsComponentType⟩, ⟨1, 0, EcsComponentType⟩,
             ⟨2, 0, EcsComponentType⟩, ⟨3, 0, EcsComponentType⟩⟩,
            { entities := [⟨0, 0, EcsComponentType⟩, ⟨1, 0, EcsComponentType⟩,
                           ⟨2, 0, EcsComponentType⟩, ⟨3, 0, EcsComponentType⟩],
              recyclable := [],
              storages := [NewStorage ⟨0, 0, EcsComponentType⟩ sz.sizeOfSystem,
                           NewStorage ⟨1, 0, EcsComponentType⟩ sz.sizeOfPrefab,
                           NewStorage ⟨2, 0, EcsComponentType⟩ sz.sizeOfRelation,
                           NewStorage ⟨3, 0, EcsComponentType⟩ 0],
              nextAvailableId := EcsNil }) :=
  EcsNewWorld_empty sz n

/-- C12: `newEntity`. If the recycle list ends in `idx` and the table slot at
`idx` holds `(idx, v, k)`, the entity `(idx, v, Entity)` is returned, `idx`
leaves the recycle list and the table keeps its length. If the recycle list is
empty (and the table length `n` is a 32-bit number), `(n, 0, Entity)` is
returned and the table grows by exactly one. In both cases the returned entity
is stored at its id in the table and is valid. -/
theorem EcsNewEntity_recycles_or_grows (w : EcsWorld) :
    (∀ idx v k, w.recyclable.getLast? = some idx → w.entities[idx]? = some ⟨idx, v, k⟩ →
      ∃ w1, EcsNewEntity w = some (⟨idx, v, EcsEntityType⟩, w1) ∧
        w1.recyclable = w.recyclable.dropLast ∧
        w1.entities.length = w.entities.length ∧
        w1.entities[idx]? = some ⟨idx, v, EcsEntityType⟩ ∧
        EcsIsValid w1 ⟨idx, v, EcsEntityType⟩ = true) ∧
    (w.recyclable = [] → w.entities.length < 4294967296 →
      ∃ w1, EcsNewEntity w = some (⟨w.entities.length, 0, EcsEntityType⟩, w1) ∧
        w1.recyclable = [] ∧
        w1.entities.length = w.entities.length + 1 ∧
        w1.entities[w.entities.length]? = some ⟨w.entities.length, 0, EcsEntityType⟩ ∧
        EcsIsValid w1 ⟨w.entities.length, 0, EcsEntityType⟩ = true) := by
  constructor
  · intro idx v k hlast hslot
    have hne : w.recyclable.length ≠ 0 := by
      intro h0
      have : w.recyclable = [] := List.length_eq_zero.mp h0
      rw [this] at hlast; cases hlast
    have hlt : idx < w.entities.length := by
      rcases Nat.lt_or_ge idx w.entities.length with h' | h'
      · exact h'
      · rw [List.getElem?_eq_none h'] at hslot; cases hslot
    have hget : (w.entities.set idx ⟨idx, v, EcsEntityType⟩)[idx]? =
        some ⟨idx, v, EcsEntityType⟩ := by
      rw [List.getElem?_set_self hlt]
    refine ⟨{ w with entities := w.entities.set idx ⟨idx, v, EcsEntityType⟩,
                      recyclable := w.recyclable.dropLast }, ?_, rfl, ?_, hget, ?_⟩
    · simp [EcsNewEntity, EcsNewEntityType, hne, hlast, hslot, ECS_COMPOSE_ENTITY]
    · simp
    · rw [EcsIsValid_iff]; exact hget
  · intro hrec hsize
    have hid : dec32 (u32 (w.entities.length + 1)) = w.entities.length := by
      rcases Nat.lt_or_ge (w.entities.length + 1) 4294967296 with h' | h'
      · rw [u32_of_lt h', dec32_succ]
      · have : w.entities.length = 4294967295 := by omega
        rw [this]; rfl
    have hget : (w.entities ++ [(⟨w.entities.length, 0, EcsEntityType⟩ : Entity)])[w.entities.length]?
        = some ⟨w.entities.length, 0, EcsEntityType⟩ := by
      simp
    refine ⟨{ w with entities := w.entities ++ [⟨w.entities.length, 0, EcsEntityType⟩] },
      ?_, hrec, ?_, hget, ?_⟩
    · simp [EcsNewEntity, EcsNewEntityType, hrec, ECS_COMPOSE_ENTITY, hid]
    · simp
    · rw [EcsIsValid_iff]; exact hget

theorem StorageConsistent.slotsInRange {st : EcsStorage} (h : StorageConsistent st) :
    SlotsInRange st := by
  intro id hid hne
  rw [h.2]
  exact (h.1.1 id hid hne).1

theorem getD_eq_of_getElem? {α : Type} {l : List α} {i : Nat} {a d : α}
    (h : l[i]? = some a) : l.getD i d = a := by
  rw [List.getD_eq_getElem?_getD, h]; rfl

theorem lt_length_of_getElem? {α : Type} {l : List α} {i : Nat} {a : α}
    (h : l[i]? = some a) : i < l.length := by
  rcases Nat.lt_or_ge i l.length with h' | h'
  · exact h'
  · rw [List.getElem?_eq_none h'] at h; cases h

theorem SparseHas_of_ne_nil (s : EcsSparse) (e : Entity) (h : e.id ≠ EcsNil) :
    SparseHas s e = some (decide (e.id < s.sparse.length)
      && decide ((s.sparse.getD e.id EcsNilEntity).id ≠ EcsNil)) := by
  simp [SparseHas, h]

theorem StorageHas_of_ne_nil (st : EcsStorage) (e : Entity) (h : e.id ≠ EcsNil) :
    StorageHas st e = SparseHas st.sparse e := by
  simp [StorageHas, ENTITY_IS_NIL, h]

/-- The two outcomes of `EcsGet` on a valid entity and a valid component whose
storage is registered: the pointer to the recorded slot, or `NULL`. -/
theorem EcsGet_cases (w : EcsWorld) (E C : Entity) (i : Nat) (st : EcsStorage)
    (hE : EcsIsValid w E = true) (hC : EcsIsValid w C = true)
    (hfind : EcsFind w C = some i) (hst : w.storages[i]? = some st)
    (hnil : E.id ≠ EcsNil) (hrange : SlotsInRange st) :
    (EcsHas w E C = some true ∧
      ∃ pos, SparseAt st.sparse E = some pos ∧ pos < st.data.length ∧
        EcsGet w E C = some (some ⟨i, pos⟩) ∧
        readPtr w ⟨i, pos⟩ = st.data[pos]?) ∨
    (EcsHas w E C = some false ∧ EcsGet w E C = some none) := by
  have hhas : EcsHas w E C = SparseHas st.sparse E := by
    simp [EcsHas, hE, hC, hfind, hst, StorageHas_of_ne_nil _ _ hnil]
  cases hb : SparseHas st.sparse E with
  | none => simp [SparseHas, hnil] at hb
  | some b =>
    cases b with
    | false =>
      right
      refine ⟨by rw [hhas, hb], ?_⟩
      simp [EcsGet, hE, hC, hfind, hst, StorageHas_of_ne_nil _ _ hnil, hb]
    | true =>
      left
      refine ⟨by rw [hhas, hb], ?_⟩
      rw [SparseHas_of_ne_nil _ _ hnil] at hb
      simp only [Option.some.injEq, Bool.and_eq_true, decide_eq_true_eq] at hb
      obtain ⟨hlt, hne⟩ := hb
      have hpos := hrange E.id hlt hne
      have hslot : st.sparse.sparse[E.id]? = some (st.sparse.sparse.getD E.id EcsNilEntity) := by
        rw [List.getD_eq_getElem?_getD, List.getElem?_eq_getElem hlt]; rfl
      have hat : SparseAt st.sparse E = some (st.sparse.sparse.getD E.id EcsNilEntity).id := by
        simp only [SparseAt, ENTITY_ID_eq, hnil, if_false, hslot]
      refine ⟨_, hat, hpos, ?_, ?_⟩
      · have hh : SparseHas st.sparse E = some true := by
          rw [SparseHas_of_ne_nil _ _ hnil, decide_eq_true hlt, decide_eq_true hne]; rfl
        simp only [EcsGet, hE, hC, hfind, hst, StorageHas_of_ne_nil _ _ hnil, hh, StorageGet,
          ENTITY_IS_NIL, ENTITY_ID_eq, hnil, hat, StorageAt, hpos]
        simp
      · simp [readPtr, hst]

theorem getLast?_eq_getElem?_pred {α : Type} (l : List α) :
    l.getLast? = l[l.length - 1]? := by
  rw [List.getLast?_eq_getElem?]

theorem SparseRemove_of_consistent (s : EcsSparse) (e : Entity)
    (hc : SparseConsistent s) (hhas : SparseHas s e = some true) :
    ∃ s1 pos, SparseRemove s e = some (s1, pos) ∧ pos < s.dense.length ∧
      SparseHas s1 e = some false := by
  have hnil : e.id ≠ EcsNil := by
    intro h; simp [SparseHas, h] at hhas
  rw [SparseHas_of_ne_nil _ _ hnil] at hhas
  simp only [Option.some.injEq, Bool.and_eq_true, decide_eq_true_eq] at hhas
  obtain ⟨hlt, hne⟩ := hhas
  obtain ⟨hpos, _⟩ := hc.1 e.id hlt hne
  have hslot : s.sparse[e.id]? = some (s.sparse.getD e.id EcsNilEntity) := by
    rw [List.getD_eq_getElem?_getD, List.getElem?_eq_getElem hlt]; rfl
  have hdpos : 0 < s.dense.length := by omega
  have hlastlt : s.dense.length - 1 < s.dense.length := by omega
  have hlast : s.dense.getLast? = some (s.dense.getD (s.dense.length - 1) EcsNilEntity) := by
    rw [List.getLast?_eq_getElem?, List.getD_eq_getElem?_getD, List.getElem?_eq_getElem hlastlt]
    rfl
  obtain ⟨hother, _⟩ := hc.2 (s.dense.length - 1) hlastlt
  have hh : SparseHas s e = some true := by
    rw [SparseHas_of_ne_nil _ _ hnil, decide_eq_true hlt, decide_eq_true hne]; rfl
  have hrem : SparseRemove s e = some
      ({ sparse := (s.sparse.set (s.dense.getD (s.dense.length - 1) EcsNilEntity).id
            ⟨(s.sparse.getD e.id EcsNilEntity).id, 0, 0⟩).set e.id EcsNilEntity,
         dense := (s.dense.set (s.sparse.getD e.id EcsNilEntity).id
            (s.dense.getD (s.dense.length - 1) EcsNilEntity)).dropLast },
       (s.sparse.getD e.id EcsNilEntity).id) := by
    simp only [SparseRemove, hh, ENTITY_ID_eq, hslot, hlast, hother, hpos, if_true]
  refine ⟨_, _, hrem, hpos, ?_⟩
  rw [SparseHas_of_ne_nil _ _ hnil]
  have hget : ((s.sparse.set (s.dense.getD (s.dense.length - 1) EcsNilEntity).id
      ⟨(s.sparse.getD e.id EcsNilEntity).id, 0, 0⟩).set e.id EcsNilEntity).getD e.id EcsNilEntity
      = EcsNilEntity := by
    rw [List.getD_eq_getElem?_getD, List.getElem?_set_self (by simpa using hlt)]; rfl
  simp only [hget]
  simp [EcsNilEntity]

theorem StorageRemove_of_consistent (st : EcsStorage) (e : Entity)
    (hc : StorageConsistent st) (hhas : SparseHas st.sparse e = some true) :
    ∃ st1, StorageRemove st e = some st1 ∧ SparseHas st1.sparse e = some false ∧
      st1.componentId = st.componentId ∧ st1.sizeOfComponent = st.sizeOfComponent := by
  obtain ⟨s1, pos, hrem, hpos, hhas1⟩ := SparseRemove_of_consistent st.sparse e hc.1 hhas
  have hposd : pos < st.data.length := by rw [hc.2]; exact hpos
  have hlastlt : st.data.length - 1 < st.data.length := by omega
  have hlast : st.data.getLast? = some (st.data[st.data.length - 1]) := by
    rw [List.getLast?_eq_getElem?, List.getElem?_eq_getElem hlastlt]
  have hr : StorageRemove st e = some
      { st with data := (st.data.set pos (st.data[st.data.length - 1])).dropLast, sparse := s1 } := by
    simp only [StorageRemove, hrem, hlast, hposd, if_true]
  exact ⟨_, hr, hhas1, rfl, rfl⟩

theorem destroyLoop_of_consistent (e : Entity) (hnil : e.id ≠ EcsNil) :
    ∀ (k : Nat) (ss : List EcsStorage), k ≤ ss.length →
      (∀ i st, i < k → ss[i]? = some st → StorageConsistent st) →
      ∃ ss1, destroyLoop e k ss = some ss1 ∧ ss1.length = ss.length ∧
        (∀ i, k ≤ i → ss1[i]? = ss[i]?) ∧
        (∀ i st1, i < k → ss1[i]? = some st1 → SparseHas st1.sparse e = some false) := by
  intro k
  induction k with
  | zero =>
    intro ss _ _
    exact ⟨ss, rfl, rfl, fun _ _ => rfl, fun i _ hi => absurd hi (Nat.not_lt_zero i)⟩
  | succ k ih =>
    intro ss hk hcons
    have hklt : k < ss.length := hk
    have hst : ss[k]? = some ss[k] := List.getElem?_eq_getElem hklt
    have hc := hcons k ss[k] (Nat.lt_succ_self k) hst
    cases hb : SparseHas ss[k].sparse e with
    | none => simp [SparseHas, hnil] at hb
    | some b =>
      cases b with
      | false =>
        obtain ⟨ss1, h1, h2, h3, h4⟩ := ih ss (Nat.le_of_lt hklt)
          (fun i st hi h => hcons i st (Nat.lt_succ_of_lt hi) h)
        refine ⟨ss1, ?_, h2, fun i hi => h3 i (Nat.le_of_succ_le hi), ?_⟩
        · simp only [destroyLoop, hst, hb]; exact h1
        · intro i st1 hi hs
          rcases Nat.lt_succ_iff_lt_or_eq.mp hi with hlt | heq
          · exact h4 i st1 hlt hs
          · subst heq
            rw [h3 i (Nat.le_refl i), hst] at hs
            cases hs; exact hb
      | true =>
        obtain ⟨st1, hrem, hhas1, _, _⟩ := StorageRemove_of_consistent ss[k] e hc hb
        have hlen : (ss.set k st1).length = ss.length := by simp
        obtain ⟨ss1, h1, h2, h3, h4⟩ := ih (ss.set k st1) (by rw [hlen]; exact Nat.le_of_lt hklt)
          (fun i st hi h => hcons i st (Nat.lt_succ_of_lt hi) (by
            rw [List.getElem?_set_ne (by omega)] at h; exact h))
        refine ⟨ss1, ?_, by rw [h2, hlen], ?_, ?_⟩
        · simp only [destroyLoop, hst, hb, hrem]; exact h1
        · intro i hi
          rw [h3 i (Nat.le_of_succ_le hi), List.getElem?_set_ne (by omega)]
        · intro i st2 hi hs
          rcases Nat.lt_succ_iff_lt_or_eq.mp hi with hlt | heq
          · exact h4 i st2 hlt hs
          · subst heq
            rw [h3 i (Nat.le_refl i), List.getElem?_set_self hklt] at hs
            cases hs; exact hhas1

theorem EcsGet_isSome (w : EcsWorld) (E C : Entity)
    (hE : EcsIsValid w E = true) (hC : EcsIsValid w C = true)
    (hfind : (EcsFind w C).isSome = true) (hnil : E.id ≠ EcsNil)
    (hcons : ∀ st ∈ w.storages, StorageConsistent st) :
    (EcsGet w E C).isSome = true := by
  obtain ⟨i, hi⟩ := Option.isSome_iff_exists.mp hfind
  obtain ⟨st, hst, _⟩ := findStorage_some hi
  have hmem : st ∈ w.storages := List.getElem?_mem hst
  rcases EcsGet_cases w E C i st hE hC hi hst hnil (hcons st hmem).slotsInRange with
    ⟨_, _, _, _, h, _⟩ | ⟨_, h⟩
  · rw [h]; rfl
  · rw [h]; rfl

/-- C11 (amended): in a world whose storages are consistent, for a valid
entity `e` (not the nil entity) such that, when `e` is of kind System
(Prefab), the built-in System (Prefab) component is a valid entity with a
registered storage: `destroyEntity(e)` succeeds; afterwards no registered
storage has `e`, the table slot at `id(e)` holds `(id(e), version(e)+1, 0)`
(the `version(e)+1` wrapped at the width of the version part), `id(e)` is the
last element of the recycle list, which grew by one, and the table length is
unchanged. `destroyEntity` fails on an entity that is not valid. -/
theorem DestroyEntity_tombstones (g : Globals) (w : EcsWorld) (e : Entity)
    (hv : EcsIsValid w e = true) (hnil : e.id ≠ EcsNil)
    (hcons : ∀ st ∈ w.storages, StorageConsistent st)
    (hsys : e.flag = EcsSystemType →
      EcsIsValid w g.EcsSystem = true ∧ (EcsFind w g.EcsSystem).isSome = true)
    (hpre : e.flag = EcsPrefabType →
      EcsIsValid w g.EcsPrefab = true ∧ (EcsFind w g.EcsPrefab).isSome = true) :
    (∃ w1, DestroyEntity g w e = some w1 ∧
      (∀ st ∈ w1.storages, SparseHas st.sparse e = some false) ∧
      w1.storages.length = w.storages.length ∧
      w1.entities[e.id]? = some ⟨e.id, wrapVersion (e.version + 1), 0⟩ ∧
      w1.recyclable = w.recyclable ++ [e.id] ∧
      w1.entities.length = w.entities.length) ∧
    (∀ x, EcsIsValid w x = false → DestroyEntity g w x = none) := by
  constructor
  · have hlook : (if e.flag = EcsSystemType then (EcsGet w e g.EcsSystem).map (fun _ => ())
        else if e.flag = EcsPrefabType then (EcsGet w e g.EcsPrefab).map (fun _ => ())
        else some ()) = some () := by
      by_cases h1 : e.flag = EcsSystemType
      · obtain ⟨ha, hb⟩ := hsys h1
        have := EcsGet_isSome w e g.EcsSystem hv ha hb hnil hcons
        obtain ⟨p, hp⟩ := Option.isSome_iff_exists.mp this
        rw [if_pos h1, hp]; rfl
      · by_cases h2 : e.flag = EcsPrefabType
        · obtain ⟨ha, hb⟩ := hpre h2
          have := EcsGet_isSome w e g.EcsPrefab hv ha hb hnil hcons
          obtain ⟨p, hp⟩ := Option.isSome_iff_exists.mp this
          rw [if_neg h1, if_pos h2, hp]; rfl
        · simp [h1, h2]
    obtain ⟨ss1, hloop, hlen, _, hnone⟩ :=
      destroyLoop_of_consistent e hnil w.storages.length w.storages (Nat.le_refl _)
        (fun i st _ h => hcons st (List.getElem?_mem h))
    have hlt : e.id < w.entities.length :=
      lt_length_of_getElem? ((EcsIsValid_iff w e).mp hv)
    refine ⟨{ w with
        entities := w.entities.set e.id (ECS_COMPOSE_ENTITY e.id (wrapVersion (e.version + 1)) 0),
        recyclable := w.recyclable ++ [e.id],
        storages := ss1 }, ?_, ?_, hlen, ?_, rfl, ?_⟩
    · simp only [DestroyEntity, hv, hlook, hloop, ENTITY_ID_eq, ENTITY_VERSION_eq]
      rfl
    · intro st hst
      obtain ⟨i, hi⟩ := List.getElem?_of_mem hst
      have hil : i < ss1.length := lt_length_of_getElem? hi
      exact hnone i st (by rw [← hlen]; exact hil) hi
    · show (w.entities.set e.id (ECS_COMPOSE_ENTITY e.id (wrapVersion (e.version + 1)) 0))[e.id]? = _
      rw [List.getElem?_set_self hlt]; rfl
    · simp
  · intro x hx
    simp [DestroyEntity, hx]

/-- C11, counterexample: after `newWorld`, `newSystem` and `destroyEntity` of
the built-in System component, every storage is consistent and the system
entity (4, 0, System) is valid, yet `destroyEntity` of it fails: `EcsGet`
asserts that the System component is valid. -/
theorem DestroyEntity_orphan_system_fails :
    EcsNewWorld sizes0 ⟨[], [], [], 0⟩ = some (freshGlobals, freshWorld) ∧
    EcsNewSystem 1 freshGlobals freshWorld 7 [] = some (some (⟨4, 0, 2⟩, oneSystemWorld)) ∧
    DestroyEntity freshGlobals oneSystemWorld ⟨0, 0, 1⟩ = some orphanSystemWorld ∧
    (∀ st ∈ orphanSystemWorld.storages, StorageConsistent st) ∧
    EcsIsValid orphanSystemWorld ⟨4, 0, 2⟩ = true ∧
    DestroyEntity freshGlobals orphanSystemWorld ⟨4, 0, 2⟩ = none := by
  decide

/-- C11, witness: destroying the system entity of `oneSystemWorld`. -/
theorem DestroyEntity_tombstones_witness :
    (∃ w1, DestroyEntity freshGlobals oneSystemWorld ⟨4, 0, 2⟩ = some w1 ∧
      (∀ st ∈ w1.storages, SparseHas st.sparse ⟨4, 0, 2⟩ = some false) ∧
      w1.storages.length = oneSystemWorld.storages.length ∧
      w1.entities[4]? = some ⟨4, 1, 0⟩ ∧
      w1.recyclable = oneSystemWorld.recyclable ++ [4] ∧
      w1.entities.length = oneSystemWorld.entities.length) ∧
    (∀ x, EcsIsValid oneSystemWorld x = false →
      DestroyEntity freshGlobals oneSystemWorld x = none) :=
  DestroyEntity_tombstones freshGlobals oneSystemWorld ⟨4, 0, 2⟩ (by decide) (by decide)
    (by decide) (by decide) (by decide)

/-- C12, witness: `freshWorld` has an empty recycle list and grows;
`orphanSystemWorld` has the recycle list `[0]` and recycles slot 0. -/
theorem EcsNewEntity_recycles_or_grows_witness :
    (∃ w1, EcsNewEntity orphanSystemWorld = some (⟨0, 1, EcsEntityType⟩, w1) ∧
      w1.recyclable = orphanSystemWorld.recyclable.dropLast ∧
      w1.entities.length = orphanSystemWorld.entities.length ∧
      w1.entities[0]? = some ⟨0, 1, EcsEntityType⟩ ∧
      EcsIsValid w1 ⟨0, 1, EcsEntityType⟩ = true) ∧
    (∃ w1, EcsNewEntity freshWorld = some (⟨freshWorld.entities.length, 0, EcsEntityType⟩, w1) ∧
      w1.recyclable = [] ∧
      w1.entities.length = freshWorld.entities.length + 1 ∧
      w1.entities[freshWorld.entities.length]? =
        some ⟨freshWorld.entities.length, 0, EcsEntityType⟩ ∧
      EcsIsValid w1 ⟨freshWorld.entities.length, 0, EcsEntityType⟩ = true) :=
  ⟨(EcsNewEntity_recycles_or_grows orphanSystemWorld).1 0 1 0 (by decide) (by decide),
   (EcsNewEntity_recycles_or_grows freshWorld).2 (by decide) (by decide)⟩

/-- C15, evaluation: in the world made by `newWorld` and three `newEntity`
calls, entity 4 holds no relation and `hasRelation` and `related` on it fail
(the read of its sparse slot is outside the empty sparse array); after
`associate` and `disassociate` they fail as well (`StorageAt` asserts on the
nil position). Neither returns false. -/
theorem EcsHasRelation_no_relation_fails :
    EcsNewWorld sizes0 ⟨[], [], [], 0⟩ = some (freshGlobals, freshWorld) ∧
    EcsHas threeEntityWorld ⟨4, 0, 0⟩ freshGlobals.EcsRelation = some false ∧
    EcsHasRelation freshGlobals threeEntityWorld ⟨4, 0, 0⟩ ⟨3, 0, 1⟩ = none ∧
    EcsRelated freshGlobals threeEntityWorld ⟨4, 0, 0⟩ ⟨5, 0, 0⟩ = none ∧
    EcsAssociate 1 freshGlobals threeEntityWorld ⟨4, 0, 0⟩ ⟨3, 0, 1⟩ ⟨5, 0, 0⟩ =
      some (some relatedWorld) ∧
    EcsDisassociate freshGlobals relatedWorld ⟨4, 0, 0⟩ = some unrelatedWorld ∧
    EcsHas unrelatedWorld ⟨4, 0, 0⟩ freshGlobals.EcsRelation = some false ∧
    EcsHasRelation freshGlobals unrelatedWorld ⟨4, 0, 0⟩ ⟨3, 0, 1⟩ = none ∧
    EcsRelated freshGlobals unrelatedWorld ⟨4, 0, 0⟩ ⟨5, 0, 0⟩ = none := by
  decide

/-- C16, evaluation: entity 4 holds the relation ((3, 0, Component),
(5, 0, Entity)); a second `associate` succeeds but emplaces again: the
Relation storage grows from one dense entry to two, both for entity 4, the
first payload stays in its slot, and the storage is no longer consistent. -/
theorem EcsAssociate_twice_grows :
    EcsAssociate 1 freshGlobals threeEntityWorld ⟨4, 0, 0⟩ ⟨3, 0, 1⟩ ⟨5, 0, 0⟩ =
      some (some relatedWorld) ∧
    relatedWorld.storages[2]? = some relationStorage1 ∧
    StorageConsistent relationStorage1 ∧
    EcsAssociate 1 freshGlobals relatedWorld ⟨4, 0, 0⟩ ⟨1, 0, 1⟩ ⟨6, 0, 0⟩ =
      some (some twiceRelatedWorld) ∧
    twiceRelatedWorld.storages[2]? = some relationStorage2 ∧
    relationStorage2.sparse.dense = [⟨4, 0, 0⟩, ⟨4, 0, 0⟩] ∧
    relationStorage2.data =
      [Payload.relation ⟨3, 0, 1⟩ ⟨5, 0, 0⟩, Payload.relation ⟨1, 0, 1⟩ ⟨6, 0, 0⟩] ∧
    ¬ StorageConsistent relationStorage2 := by
  decide

/-- C19, evaluation: a component of size 4 is created and destroyed, then
`newComponent(8)` recycles its id: the new component (4, 1, Component) is
valid, and the storage found for it is the old one, of payload size 4. -/
theorem EcsNewComponent_recycled_keeps_size :
    EcsNewComponent freshWorld 4 = some (⟨4, 0, 1⟩, componentWorld) ∧
    DestroyEntity freshGlobals componentWorld ⟨4, 0, 1⟩ = some staleStorageWorld ∧
    EcsNewComponent staleStorageWorld 8 = some (⟨4, 1, 1⟩, recycledComponentWorld) ∧
    EcsIsValid recycledComponentWorld ⟨4, 1, 1⟩ = true ∧
    EcsFind recycledComponentWorld ⟨4, 1, 1⟩ = some 4 ∧
    recycledComponentWorld.storages[4]? = some (NewStorage ⟨4, 0, 1⟩ 4) ∧
    (NewStorage ⟨4, 0, 1⟩ 4).sizeOfComponent = 4 := by
  decide

theorem findStorage_set (ss : List EcsStorage) (id i : Nat) (st st1 : EcsStorage)
    (hst : ss[i]? = some st) (hid : st1.componentId = st.componentId) :
    findStorage (ss.set i st1) id = findStorage ss id := by
  induction ss generalizing i with
  | nil => simp at hst
  | cons s rest ih =>
    cases i with
    | zero =>
      simp at hst
      subst hst
      simp [findStorage, hid]
    | succ j =>
      simp at hst
      simp [findStorage, ih j hst]

theorem EcsFind_set_storage (w : EcsWorld) (c : Entity) (i : Nat) (st st1 : EcsStorage)
    (hst : w.storages[i]? = some st) (hid : st1.componentId = st.componentId) :
    EcsFind { w with storages := w.storages.set i st1 } c = EcsFind w c := by
  simp only [EcsFind]
  exact findStorage_set w.storages c.id i st st1 hst hid

theorem EcsIsValid_same_entities (w w1 : EcsWorld) (h : w1.entities = w.entities) (e : Entity) :
    EcsIsValid w1 e = EcsIsValid w e := by
  simp [EcsIsValid, h]

theorem grownSparse_lt (s : EcsSparse) (id : Nat) : id < (grownSparse s id).length := by
  unfold grownSparse
  split
  · simp; omega
  · omega

theorem StorageEmplace_eq (st : EcsStorage) (e : Entity) (hnil : e.id ≠ EcsNil) :
    StorageEmplace st e = some (emplaced st e, st.data.length) := by
  simp [StorageEmplace, SparseEmplace, hnil, emplaced, grownSparse]

theorem emplaced_slot (st : EcsStorage) (e : Entity) :
    (emplaced st e).sparse.sparse[e.id]? = some ⟨u32 st.sparse.dense.length, 0, 0⟩ := by
  simp only [emplaced]
  rw [List.getElem?_set_self (grownSparse_lt st.sparse e.id)]

theorem emplaced_has (st : EcsStorage) (e : Entity) (hnil : e.id ≠ EcsNil)
    (hlen : st.sparse.dense.length < EcsNil) :
    SparseHas (emplaced st e).sparse e = some true := by
  have hu : u32 st.sparse.dense.length = st.sparse.dense.length :=
    u32_of_lt (by rw [EcsNil_val] at hlen; omega)
  have hslot := emplaced_slot st e
  have hlt := lt_length_of_getElem? hslot
  have hne : (⟨u32 st.sparse.dense.length, 0, 0⟩ : Entity).id ≠ EcsNil := by
    show u32 st.sparse.dense.length ≠ EcsNil
    rw [hu]; omega
  rw [SparseHas_of_ne_nil _ _ hnil, decide_eq_true hlt, getD_eq_of_getElem? hslot,
    decide_eq_true hne]
  rfl

theorem emplaced_at (st : EcsStorage) (e : Entity) (hnil : e.id ≠ EcsNil)
    (hlen : st.sparse.dense.length < EcsNil) :
    SparseAt (emplaced st e).sparse e = some st.sparse.dense.length := by
  have hu : u32 st.sparse.dense.length = st.sparse.dense.length :=
    u32_of_lt (by rw [EcsNil_val] at hlen; omega)
  simp only [SparseAt, ENTITY_ID_eq, hnil, if_false, emplaced_slot st e, hu]

theorem EcsAttach_component (fuel : Nat) (g : Globals) (w : EcsWorld) (E C : Entity)
    (i : Nat) (st : EcsStorage)
    (hk1 : C.flag ≠ EcsRelationType) (hk2 : C.flag ≠ EcsSystemType)
    (hk3 : C.flag ≠ EcsPrefabType)
    (hE : EcsIsValid w E = true) (hC : EcsIsValid w C = true)
    (hfind : EcsFind w C = some i) (hst : w.storages[i]? = some st)
    (hnil : E.id ≠ EcsNil) :
    EcsAttach (fuel + 1) g w E C =
      some (some { w with storages := w.storages.set i (emplaced st E) }) := by
  simp [EcsAttach, hk1, hk2, hk3, hE, hC, hfind, hst, StorageEmplace_eq st E hnil]

theorem HoldsAt_after_write (w : EcsWorld) (C E : Entity) (i : Nat) (st : EcsStorage)
    (v : Payload)
    (hfind : EcsFind w C = some i) (hst : w.storages[i]? = some st)
    (hnil : E.id ≠ EcsNil) (hlen : st.sparse.dense.length < EcsNil)
    (hdata : st.sparse.dense.length ≤ st.data.length) :
    ∃ w2, writePtr { w with storages := w.storages.set i (emplaced st E) }
        ⟨i, st.sparse.dense.length⟩ v = some w2 ∧
      w2.entities = w.entities ∧ w2.recyclable = w.recyclable ∧
      w2.storages.length = w.storages.length ∧
      (∀ j, j ≠ i → w2.storages[j]? = w.storages[j]?) ∧
      HoldsAt w2 C E v i st.sparse.dense.length := by
  have hi : i < w.storages.length := lt_length_of_getElem? hst
  have hpos : st.sparse.dense.length < (emplaced st E).data.length := by
    simp [emplaced]; omega
  have hst1 : (w.storages.set i (emplaced st E))[i]? = some (emplaced st E) :=
    List.getElem?_set_self hi
  refine ⟨⟨w.entities, w.recyclable,
      (w.storages.set i (emplaced st E)).set i
        ({ emplaced st E with data := (emplaced st E).data.set st.sparse.dense.length v }),
      w.nextAvailableId⟩,
    ?_, rfl, rfl, by simp, ?_, ?_, ?_⟩
  · simp only [writePtr, hst1, hpos, if_true]
  · intro j hj
    show ((w.storages.set i _).set i _)[j]? = _
    rw [List.getElem?_set_ne (Ne.symm hj), List.getElem?_set_ne (Ne.symm hj)]
  · have h1 : EcsFind { w with storages := w.storages.set i (emplaced st E) } C = some i := by
      rw [EcsFind_set_storage w C i st (emplaced st E) hst rfl]; exact hfind
    rw [← h1]
    exact EcsFind_set_storage { w with storages := w.storages.set i (emplaced st E) } C i
      (emplaced st E) _ hst1 rfl
  · refine ⟨_, List.getElem?_set_self (by simpa using hi), emplaced_has st E hnil hlen,
      emplaced_at st E hnil hlen, ?_⟩
    show ((emplaced st E).data.set st.sparse.dense.length v)[st.sparse.dense.length]? = some v
    rw [List.getElem?_set_self hpos]

theorem EcsGet_of_HoldsAt (w : EcsWorld) (C E : Entity) (v : Payload) (i pos : Nat)
    (hE : EcsIsValid w E = true) (hC : EcsIsValid w C = true)
    (h : HoldsAt w C E v i pos) :
    EcsGet w E C = some (some ⟨i, pos⟩) ∧ readPtr w ⟨i, pos⟩ = some v := by
  obtain ⟨hfind, st, hst, hhas, hat, hdata⟩ := h
  have hnil : E.id ≠ EcsNil := by
    intro hh; simp [SparseHas, hh] at hhas
  have hpos : pos < st.data.length := lt_length_of_getElem? hdata
  constructor
  · simp only [EcsGet, hE, hC, hfind, hst, StorageHas_of_ne_nil _ _ hnil, hhas, StorageGet,
      ENTITY_IS_NIL, ENTITY_ID_eq, hnil, hat, StorageAt, hpos]
    simp
  · simp [readPtr, hst, hdata]

theorem EcsHas_of_HoldsAt (w : EcsWorld) (C E : Entity) (v : Payload) (i pos : Nat)
    (hE : EcsIsValid w E = true) (hC : EcsIsValid w C = true)
    (h : HoldsAt w C E v i pos) : EcsHas w E C = some true := by
  obtain ⟨hfind, st, hst, hhas, _, _⟩ := h
  have hnil : E.id ≠ EcsNil := by
    intro hh; simp [SparseHas, hh] at hhas
  simp [EcsHas, hE, hC, hfind, hst, StorageHas_of_ne_nil _ _ hnil, hhas]

theorem EcsHasRelation_of_HoldsAt (g : Globals) (w : EcsWorld) (E x o r : Entity)
    (i pos : Nat) (hE : EcsIsValid w E = true) (hx : EcsIsValid w x = true)
    (h : HoldsAt w g.EcsRelation E (Payload.relation o r) i pos) :
    EcsHasRelation g w E x = some (ENTITY_CMP o x) ∧
    EcsRelated g w E x = some (ENTITY_CMP r x) := by
  obtain ⟨hfind, st, hst, hhas, hat, hdata⟩ := h
  have hnil : E.id ≠ EcsNil := by
    intro hh; simp [SparseHas, hh] at hhas
  have hpos : pos < st.data.length := lt_length_of_getElem? hdata
  constructor
  · simp only [EcsHasRelation, hE, hx, hfind, hst, StorageGet, ENTITY_IS_NIL, ENTITY_ID_eq,
      hnil, hat, StorageAt, hpos]
    simp [hdata]
  · simp only [EcsRelated, hE, hx, hfind, hst, StorageGet, ENTITY_IS_NIL, ENTITY_ID_eq,
      hnil, hat, StorageAt, hpos]
    simp [hdata]

theorem EcsAssociate_holds (fuel : Nat) (g : Globals) (w : EcsWorld) (E Obj Rel : Entity)
    (i : Nat) (st : EcsStorage)
    (hE : EcsIsValid w E = true) (hO : EcsIsValid w Obj = true)
    (hOk : Obj.flag = EcsComponentType)
    (hR : EcsIsValid w Rel = true) (hRk : Rel.flag = EcsEntityType)
    (hG : EcsIsValid w g.EcsRelation = true) (hGk : g.EcsRelation.flag = EcsComponentType)
    (hfind : EcsFind w g.EcsRelation = some i) (hst : w.storages[i]? = some st)
    (hnil : E.id ≠ EcsNil) (hlen : st.sparse.dense.length < EcsNil)
    (hdata : st.sparse.dense.length ≤ st.data.length) :
    ∃ w2, EcsAssociate (fuel + 1) g w E Obj Rel = some (some w2) ∧
      w2.entities = w.entities ∧ w2.recyclable = w.recyclable ∧
      w2.storages.length = w.storages.length ∧
      (∀ j, j ≠ i → w2.storages[j]? = w.storages[j]?) ∧
      HoldsAt w2 g.EcsRelation E (Payload.relation Obj Rel) i st.sparse.dense.length := by
  obtain ⟨w2, hw, he, hr, hl, hj, hh⟩ :=
    HoldsAt_after_write w g.EcsRelation E i st (Payload.relation Obj Rel) hfind hst hnil hlen hdata
  refine ⟨w2, ?_, he, hr, hl, hj, hh⟩
  have hk1 : g.EcsRelation.flag ≠ EcsRelationType := by rw [hGk]; decide
  have hk2 : g.EcsRelation.flag ≠ EcsSystemType := by rw [hGk]; decide
  have hk3 : g.EcsRelation.flag ≠ EcsPrefabType := by rw [hGk]; decide
  have hatt := EcsAttach_component fuel g w E g.EcsRelation i st hk1 hk2 hk3 hE hG hfind hst hnil
  have hi : i < w.storages.length := lt_length_of_getElem? hst
  have hpos : st.sparse.dense.length < (emplaced st E).data.length := by
    simp [emplaced]; omega
  obtain ⟨v0, hv0⟩ : ∃ v0, (emplaced st E).data[st.sparse.dense.length]? = some v0 :=
    ⟨_, List.getElem?_eq_getElem hpos⟩
  have hholds1 : HoldsAt { w with storages := w.storages.set i (emplaced st E) } g.EcsRelation E
      v0 i st.sparse.dense.length := by
    refine ⟨?_, emplaced st E, List.getElem?_set_self hi, emplaced_has st E hnil hlen,
      emplaced_at st E hnil hlen, hv0⟩
    rw [EcsFind_set_storage w _ i st (emplaced st E) hst rfl]; exact hfind
  have hget := (EcsGet_of_HoldsAt _ g.EcsRelation E v0 i st.sparse.dense.length
    (by simpa [EcsIsValid] using hE) (by simpa [EcsIsValid] using hG) hholds1).1
  simp only [EcsAssociate, hE, hO, hR, ENTITY_ISA, hOk, hRk, hatt, hget, hw]
  simp

theorem ENTITY_CMP_self (e : Entity) : ENTITY_CMP e e = true := by
  simp [ENTITY_CMP]

/-- C14: for a valid entity `E` (not the nil entity), a valid `Obj` of kind
Component and a valid `Rel` of kind Entity, in a world whose built-in Relation
component is a valid entity of kind Component with a registered storage (with
a data slot for every dense entry, fewer than `EcsNil` of them):
`associate(E, Obj, Rel)` succeeds, and afterwards `hasRelation(E, Obj)` is true
and `related(E, Rel)` is true. -/
theorem EcsAssociate_then_related (fuel : Nat) (g : Globals) (w : EcsWorld)
    (E Obj Rel : Entity) (i : Nat) (st : EcsStorage)
    (hE : EcsIsValid w E = true) (hO : EcsIsValid w Obj = true)
    (hOk : Obj.flag = EcsComponentType)
    (hR : EcsIsValid w Rel = true) (hRk : Rel.flag = EcsEntityType)
    (hG : EcsIsValid w g.EcsRelation = true) (hGk : g.EcsRelation.flag = EcsComponentType)
    (hfind : EcsFind w g.EcsRelation = some i) (hst : w.storages[i]? = some st)
    (hnil : E.id ≠ EcsNil) (hlen : st.sparse.dense.length < EcsNil)
    (hdata : st.sparse.dense.length ≤ st.data.length) :
    ∃ w2, EcsAssociate (fuel + 1) g w E Obj Rel = some (some w2) ∧
      EcsHasRelation g w2 E Obj = some true ∧
      EcsRelated g w2 E Rel = some true := by
  obtain ⟨w2, hassoc, hent, _, _, _, hh⟩ :=
    EcsAssociate_holds fuel g w E Obj Rel i st hE hO hOk hR hRk hG hGk hfind hst hnil hlen hdata
  have hE2 : EcsIsValid w2 E = true := by rw [EcsIsValid_same_entities w w2 hent]; exact hE
  have hO2 : EcsIsValid w2 Obj = true := by rw [EcsIsValid_same_entities w w2 hent]; exact hO
  have hR2 : EcsIsValid w2 Rel = true := by rw [EcsIsValid_same_entities w w2 hent]; exact hR
  refine ⟨w2, hassoc, ?_, ?_⟩
  · rw [(EcsHasRelation_of_HoldsAt g w2 E Obj Obj Rel i _ hE2 hO2 hh).1, ENTITY_CMP_self]
  · rw [(EcsHasRelation_of_HoldsAt g w2 E Rel Obj Rel i _ hE2 hR2 hh).2, ENTITY_CMP_self]

/-- C14, witness: entity 4 of `threeEntityWorld` is associated with object
(3, 0, Component) and relation (5, 0, Entity). -/
theorem EcsAssociate_then_related_witness :
    ∃ w2, EcsAssociate 1 freshGlobals threeEntityWorld ⟨4, 0, 0⟩ ⟨3, 0, 1⟩ ⟨5, 0, 0⟩ =
        some (some w2) ∧
      EcsHasRelation freshGlobals w2 ⟨4, 0, 0⟩ ⟨3, 0, 1⟩ = some true ∧
      EcsRelated freshGlobals w2 ⟨4, 0, 0⟩ ⟨5, 0, 0⟩ = some true :=
  EcsAssociate_then_related 0 freshGlobals threeEntityWorld ⟨4, 0, 0⟩ ⟨3, 0, 1⟩ ⟨5, 0, 0⟩ 2
    (NewStorage ⟨2, 0, 1⟩ 16) (by decide) (by decide) (by decide) (by decide) (by decide)
    (by decide) (by decide) (by decide) (by decide) (by decide) (by decide) (by decide)

theorem scanTable_filter_map (body : Entity → Option (Option Query)) (p : Entity → Bool)
    (f : Entity → Query) (l : List Entity)
    (h : ∀ e ∈ l, body e = some (if p e then some (f e) else none)) :
    scanTable body l = some ((l.filter p).map f) := by
  induction l with
  | nil => rfl
  | cons e rest ih =>
    have he := h e (List.mem_cons_self e rest)
    have hrest := ih (fun x hx => h x (List.mem_cons_of_mem e hx))
    simp only [scanTable, he, hrest]
    cases hp : p e with
    | false => simp [List.filter, hp]
    | true => simp [List.filter, hp]

theorem relationsStep_eq (w : EcsWorld) (i : Nat) (st : EcsStorage)
    (parent tag : Entity) (ud : Nat) (e : Entity)
    (hst : w.storages[i]? = some st) (hnil : e.id ≠ EcsNil)
    (hrange : SlotsInRange st) (htyped : RelationTyped st) :
    relationsStep w (some i) parent tag ud e =
      some (if holdsRelation st tag parent e then some (relationQuery i st tag ud e)
            else none) := by
  simp only [relationsStep, hst, StorageHas_of_ne_nil _ _ hnil, SparseHas_of_ne_nil _ _ hnil]
  by_cases hlt : e.id < st.sparse.sparse.length
  · by_cases hne : (st.sparse.sparse.getD e.id EcsNilEntity).id ≠ EcsNil
    · have hpos := hrange e.id hlt hne
      have hslot : st.sparse.sparse[e.id]? = some (st.sparse.sparse.getD e.id EcsNilEntity) := by
        rw [List.getD_eq_getElem?_getD, List.getElem?_eq_getElem hlt]; rfl
      have hat : StorageGet st e = some (st.sparse.sparse.getD e.id EcsNilEntity).id := by
        simp only [StorageGet, ENTITY_IS_NIL, ENTITY_ID_eq, hnil, SparseAt, hslot, StorageAt,
          decide_False, Bool.false_eq_true, if_false]
        rw [if_pos hpos]
      have hd : st.data[(st.sparse.sparse.getD e.id EcsNilEntity).id]? =
          some st.data[(st.sparse.sparse.getD e.id EcsNilEntity).id] :=
        List.getElem?_eq_getElem hpos
      obtain ⟨o, r, hor⟩ : ∃ o r, st.data[(st.sparse.sparse.getD e.id EcsNilEntity).id] =
          Payload.relation o r := by
        have := htyped _ (List.getElem?_mem hd)
        cases hv : st.data[(st.sparse.sparse.getD e.id EcsNilEntity).id] with
        | relation o r => exact ⟨o, r, rfl⟩
        | uninit => rw [hv] at this; cases this
        | bytes b => rw [hv] at this; cases this
        | system a b c => rw [hv] at this; cases this
        | prefab a => rw [hv] at this; cases this
      rw [hor] at hd
      rw [decide_eq_true hlt, decide_eq_true hne]
      simp only [Bool.and_self, hat, hd, holdsRelation, decide_eq_true hlt, decide_eq_true hne,
        Bool.true_and, ENTITY_CMP]
      by_cases ho : o = tag
      · by_cases hr : r = parent
        · subst ho; subst hr; simp [relationQuery]
        · simp [hr]
      · simp [ho]
    · rw [decide_eq_true hlt, decide_eq_false hne]
      have hh : holdsRelation st tag parent e = false := by
        simp only [holdsRelation, decide_eq_true hlt, decide_eq_false hne]; rfl
      rw [hh]; rfl
  · rw [decide_eq_false hlt]
    have hh : holdsRelation st tag parent e = false := by
      simp only [holdsRelation, decide_eq_false hlt]; rfl
    rw [hh]; rfl

theorem EcsGet_some_inv (w : EcsWorld) (E C : Entity) (p : DataPtr)
    (h : EcsGet w E C = some (some p)) :
    EcsIsValid w E = true ∧ EcsIsValid w C = true ∧ EcsFind w C = some p.storage ∧
    ∃ st, w.storages[p.storage]? = some st ∧ SparseHas st.sparse E = some true ∧
      SparseAt st.sparse E = some p.pos ∧ p.pos < st.data.length := by
  unfold EcsGet at h
  by_cases hE : EcsIsValid w E = true
  · by_cases hC : EcsIsValid w C = true
    · simp only [hE, hC, Bool.not_true, Bool.false_eq_true, if_false] at h
      cases hf : EcsFind w C with
      | none => simp [hf] at h
      | some i =>
        simp only [hf] at h
        cases hs : w.storages[i]? with
        | none => simp [hs] at h
        | some st =>
          simp only [hs] at h
          have hnil : E.id ≠ EcsNil := by
            intro hh
            simp [StorageHas, ENTITY_IS_NIL, hh] at h
          rw [StorageHas_of_ne_nil _ _ hnil] at h
          cases hh : SparseHas st.sparse E with
          | none => simp [hh] at h
          | some b =>
            cases b with
            | false => simp [hh] at h
            | true =>
              simp only [hh, StorageGet, ENTITY_IS_NIL, ENTITY_ID_eq, hnil, decide_False,
                Bool.false_eq_true, if_false] at h
              cases ha : SparseAt st.sparse E with
              | none => simp [ha] at h
              | some pos =>
                simp only [ha, StorageAt] at h
                by_cases hp : pos < st.data.length
                · rw [if_pos hp] at h
                  simp only [Option.some.injEq] at h
                  subst h
                  exact ⟨hE, hC, rfl, st, hs, hh, ha, hp⟩
                · rw [if_neg hp] at h; simp at h
    · simp [hE, hC] at h
  · simp [hE] at h

theorem EcsAssociate_inv (fuel : Nat) (g : Globals) (w0 w : EcsWorld) (E Obj Rel : Entity)
    (h : EcsAssociate fuel g w0 E Obj Rel = some (some w)) :
    EcsIsValid w E = true ∧
    ∃ i pos, HoldsAt w g.EcsRelation E (Payload.relation Obj Rel) i pos := by
  unfold EcsAssociate at h
  split at h
  · cases h
  split at h
  · cases h
  split at h
  · cases h
  split at h
  · cases h
  split at h
  · cases h
  cases ha : EcsAttach fuel g w0 E g.EcsRelation with
  | none => simp [ha] at h
  | some r =>
    cases r with
    | none => simp [ha] at h
    | some w1 =>
      simp only [ha] at h
      cases hg : EcsGet w1 E g.EcsRelation with
      | none => simp [hg] at h
      | some q =>
        cases q with
        | none => simp [hg] at h
        | some p =>
          simp only [hg, Option.some.injEq] at h
          obtain ⟨hE1, _, hf, st, hs, hhas, hat, hp⟩ := EcsGet_some_inv w1 E g.EcsRelation p hg
          simp only [writePtr, hs, hp, if_true, Option.some.injEq] at h
          subst h
          have hi : p.storage < w1.storages.length := lt_length_of_getElem? hs
          refine ⟨by simpa [EcsIsValid] using hE1, p.storage, p.pos, ?_, _,
            List.getElem?_set_self hi, hhas, hat, ?_⟩
          · rw [← hf]
            exact EcsFind_set_storage w1 g.EcsRelation p.storage st _ hs rfl
          · show (st.data.set p.pos _)[p.pos]? = _
            rw [List.getElem?_set_self hp]

theorem holdsRelation_of_HoldsAt (w : EcsWorld) (C E o r : Entity) (i pos : Nat)
    (st : EcsStorage) (hst : w.storages[i]? = some st)
    (h : HoldsAt w C E (Payload.relation o r) i pos) :
    holdsRelation st o r E = true := by
  obtain ⟨_, st1, hst1, hhas, hat, hdata⟩ := h
  rw [hst] at hst1
  cases hst1
  have hnil : E.id ≠ EcsNil := by
    intro hh; simp [SparseHas, hh] at hhas
  rw [SparseHas_of_ne_nil _ _ hnil] at hhas
  simp only [Option.some.injEq, Bool.and_eq_true, decide_eq_true_eq] at hhas
  obtain ⟨hlt, hne⟩ := hhas
  have hslot : st.sparse.sparse[E.id]? = some (st.sparse.sparse.getD E.id EcsNilEntity) := by
    rw [List.getD_eq_getElem?_getD, List.getElem?_eq_getElem hlt]; rfl
  simp only [SparseAt, ENTITY_ID_eq, hnil, if_false, hslot, Option.some.injEq] at hat
  rw [hat] at hne
  simp only [holdsRelation, decide_eq_true hlt, hat, hdata, decide_eq_true hne]
  simp

theorem EcsNewEntityType_flag (w w1 : EcsWorld) (type : Nat) (e : Entity)
    (h : EcsNewEntityType w type = some (e, w1)) : e.flag = type := by
  unfold EcsNewEntityType at h
  split at h
  · cases hl : w.recyclable.getLast? with
    | none => simp [hl] at h
    | some idx =>
      cases hx : w.entities[idx]? with
      | none => simp [hl, hx] at h
      | some x =>
        simp only [hl, hx, Option.some.injEq, Prod.mk.injEq] at h
        rw [← h.1]; rfl
  · simp only [Option.some.injEq, Prod.mk.injEq] at h
    rw [← h.1]; rfl

theorem HoldsAt_of_get_write (w1 w : EcsWorld) (E C : Entity) (p : DataPtr) (v : Payload)
    (hg : EcsGet w1 E C = some (some p)) (hw : writePtr w1 p v = some w) :
    EcsIsValid w E = true ∧ EcsIsValid w C = true ∧ w.entities = w1.entities ∧
    HoldsAt w C E v p.storage p.pos := by
  obtain ⟨hE1, hC1, hf, st, hs, hhas, hat, hp⟩ := EcsGet_some_inv w1 E C p hg
  simp only [writePtr, hs, hp, if_true, Option.some.injEq] at hw
  subst hw
  have hi : p.storage < w1.storages.length := lt_length_of_getElem? hs
  refine ⟨by simpa [EcsIsValid] using hE1, by simpa [EcsIsValid] using hC1, rfl, ?_, _,
    List.getElem?_set_self hi, hhas, hat, ?_⟩
  · rw [← hf]
    exact EcsFind_set_storage w1 C p.storage st _ hs rfl
  · show (st.data.set p.pos _)[p.pos]? = _
    rw [List.getElem?_set_self hp]

theorem EcsNewPrefab_inv (fuel : Nat) (g : Globals) (w0 w : EcsWorld) (comps : List Entity)
    (P : Entity) (h : EcsNewPrefab fuel g w0 comps = some (some (P, w))) :
    P.flag = EcsPrefabType ∧ EcsIsValid w P = true ∧ EcsIsValid w g.EcsPrefab = true ∧
    ∃ i pos, HoldsAt w g.EcsPrefab P (Payload.prefab comps) i pos := by
  unfold EcsNewPrefab at h
  cases hn : EcsNewEntityType w0 EcsPrefabType with
  | none => simp [hn] at h
  | some r =>
    obtain ⟨e, w1⟩ := r
    simp only [hn] at h
    cases ha : EcsAttach fuel g w1 e g.EcsPrefab with
    | none => simp [ha] at h
    | some r2 =>
      cases r2 with
      | none => simp [ha] at h
      | some w2 =>
        simp only [ha] at h
        cases hg : EcsGet w2 e g.EcsPrefab with
        | none => simp [hg] at h
        | some q =>
          cases q with
          | none => simp [hg] at h
          | some p =>
            simp only [hg] at h
            cases hw : writePtr w2 p (Payload.prefab comps) with
            | none => simp [hw] at h
            | some w3 =>
              simp only [hw, Option.some.injEq, Prod.mk.injEq] at h
              obtain ⟨h1, h2⟩ := h
              subst h1; subst h2
              obtain ⟨hE, hC, _, hh⟩ := HoldsAt_of_get_write w2 w3 e g.EcsPrefab p _ hg hw
              exact ⟨EcsNewEntityType_flag w0 w1 _ e hn, hE, hC, _, _, hh⟩

theorem EcsHas_eq_SparseHas (w : EcsWorld) (E C : Entity) (i : Nat) (st : EcsStorage)
    (hE : EcsIsValid w E = true) (hC : EcsIsValid w C = true)
    (hfind : EcsFind w C = some i) (hst : w.storages[i]? = some st) (hnil : E.id ≠ EcsNil) :
    EcsHas w E C = SparseHas st.sparse E := by
  simp [EcsHas, hE, hC, hfind, hst, StorageHas_of_ne_nil _ _ hnil]

theorem emplaced_dense_length (st : EcsStorage) (e : Entity) :
    (emplaced st e).sparse.dense.length = st.sparse.dense.length + 1 := by
  simp [emplaced]

theorem EcsAttach_prefab (fuel : Nat) (g : Globals) (w : EcsWorld) (E P : Entity)
    (c : DataPtr) (comps : List Entity) (hPk : P.flag = EcsPrefabType)
    (hget : EcsGet w P g.EcsPrefab = some (some c))
    (hread : readPtr w c = some (Payload.prefab comps)) :
    EcsAttach (fuel + 1) g w E P =
      attachAll (fun w1 x => EcsAttach fuel g w1 E x) c comps w := by
  have hPk1 : ¬ (P.flag = EcsRelationType ∨ P.flag = EcsSystemType) := by
    rw [hPk]; decide
  rw [EcsAttach, if_neg hPk1, if_pos hPk]
  simp only [hget, hread]

theorem attachAll_two (f : EcsWorld → Entity → Option (Option EcsWorld)) (c : DataPtr)
    (w wA wB : EcsWorld)
    (A B : Entity) (hAnil : A.id ≠ EcsNil) (hBnil : B.id ≠ EcsNil)
    (hA : f w A = some (some wA)) (hB : f wA B = some (some wB))
    (hrA : reallocated w wA c.storage = false) (hrB : reallocated wA wB c.storage = false) :
    attachAll f c [A, B] w = some (some wB) := by
  simp [attachAll, ENTITY_IS_NIL, hAnil, hBnil, hA, hB, hrA, hrB]

/-- C22: `attach(entity, component)` fails, for every world and entity, when
the kind of `component` is Relation or System (with fuel for the call itself). -/
theorem EcsAttach_relation_or_system_fails (fuel : Nat) (g : Globals) (w : EcsWorld)
    (entity component : Entity)
    (hkind : component.flag = EcsRelationType ∨ component.flag = EcsSystemType) :
    EcsAttach (fuel + 1) g w entity component = some none := by
  rw [EcsAttach, if_pos hkind]

/-- C22, witness: attaching the system entity (4, 0, System) of
`oneSystemWorld` to itself fails. -/
theorem EcsAttach_relation_or_system_fails_witness :
    EcsAttach 1 freshGlobals oneSystemWorld ⟨4, 0, 2⟩ ⟨4, 0, 2⟩ = some none :=
  EcsAttach_relation_or_system_fails 0 freshGlobals oneSystemWorld ⟨4, 0, 2⟩ ⟨4, 0, 2⟩
    (Or.inr (by decide))

/-- C24, evaluation: entities 4, 5, 6 are created after `newWorld`; entity 4 is
associated once and entity 5 twice (the second `associate` emplaces a second
dense entry); `destroyEntity` of entity 5 removes one entry and leaves the
other behind; `disassociate` of entity 4 swaps that stale entry to position 0
and records it in the sparse array again; `newEntity` then recycles id 5, and
the new entity (5, 1, Entity) has the Relation component. -/
theorem EcsNewEntity_recycled_has_component :
    EcsAssociate 1 freshGlobals (plainWorld [⟨4, 0, 0⟩, ⟨5, 0, 0⟩, ⟨6, 0, 0⟩] [])
        ⟨4, 0, 0⟩ ⟨3, 0, 1⟩ ⟨6, 0, 0⟩ =
      some (some (relationWorld (tableWith [⟨4, 0, 0⟩, ⟨5, 0, 0⟩, ⟨6, 0, 0⟩]) []
        (childStorage (List.replicate 4 EcsNilEntity ++ [⟨0, 0, 0⟩]) [⟨4, 0, 0⟩]))) ∧
    EcsAssociate 1 freshGlobals
        (relationWorld (tableWith [⟨4, 0, 0⟩, ⟨5, 0, 0⟩, ⟨6, 0, 0⟩]) []
          (childStorage (List.replicate 4 EcsNilEntity ++ [⟨0, 0, 0⟩]) [⟨4, 0, 0⟩]))
        ⟨5, 0, 0⟩ ⟨3, 0, 1⟩ ⟨6, 0, 0⟩ =
      some (some (relationWorld (tableWith [⟨4, 0, 0⟩, ⟨5, 0, 0⟩, ⟨6, 0, 0⟩]) []
        (childStorage (List.replicate 4 EcsNilEntity ++ [⟨0, 0, 0⟩, ⟨1, 0, 0⟩])
          [⟨4, 0, 0⟩, ⟨5, 0, 0⟩]))) ∧
    EcsAssociate 1 freshGlobals
        (relationWorld (tableWith [⟨4, 0, 0⟩, ⟨5, 0, 0⟩, ⟨6, 0, 0⟩]) []
          (childStorage (List.replicate 4 EcsNilEntity ++ [⟨0, 0, 0⟩, ⟨1, 0, 0⟩])
            [⟨4, 0, 0⟩, ⟨5, 0, 0⟩]))
        ⟨5, 0, 0⟩ ⟨3, 0, 1⟩ ⟨6, 0, 0⟩ =
      some (some (relationWorld (tableWith [⟨4, 0, 0⟩, ⟨5, 0, 0⟩, ⟨6, 0, 0⟩]) []
        (childStorage (List.replicate 4 EcsNilEntity ++ [⟨0, 0, 0⟩, ⟨2, 0, 0⟩])
          [⟨4, 0, 0⟩, ⟨5, 0, 0⟩, ⟨5, 0, 0⟩]))) ∧
    DestroyEntity freshGlobals
        (relationWorld (tableWith [⟨4, 0, 0⟩, ⟨5, 0, 0⟩, ⟨6, 0, 0⟩]) []
          (childStorage (List.replicate 4 EcsNilEntity ++ [⟨0, 0, 0⟩, ⟨2, 0, 0⟩])
            [⟨4, 0, 0⟩, ⟨5, 0, 0⟩, ⟨5, 0, 0⟩]))
        ⟨5, 0, 0⟩ =
      some (relationWorld (tableWith [⟨4, 0, 0⟩, ⟨5, 1, 0⟩, ⟨6, 0, 0⟩]) [5]
        (childStorage (List.replicate 4 EcsNilEntity ++ [⟨0, 0, 0⟩, EcsNilEntity])
          [⟨4, 0, 0⟩, ⟨5, 0, 0⟩])) ∧
    EcsDisassociate freshGlobals
        (relationWorld (tableWith [⟨4, 0, 0⟩, ⟨5, 1, 0⟩, ⟨6, 0, 0⟩]) [5]
          (childStorage (List.replicate 4 EcsNilEntity ++ [⟨0, 0, 0⟩, EcsNilEntity])
            [⟨4, 0, 0⟩, ⟨5, 0, 0⟩]))
        ⟨4, 0, 0⟩ =
      some (relationWorld (tableWith [⟨4, 0, 0⟩, ⟨5, 1, 0⟩, ⟨6, 0, 0⟩]) [5]
        (childStorage (List.replicate 4 EcsNilEntity ++ [EcsNilEntity, ⟨0, 0, 0⟩])
          [⟨5, 0, 0⟩])) ∧
    EcsNewEntity
        (relationWorld (tableWith [⟨4, 0, 0⟩, ⟨5, 1, 0⟩, ⟨6, 0, 0⟩]) [5]
          (childStorage (List.replicate 4 EcsNilEntity ++ [EcsNilEntity, ⟨0, 0, 0⟩])
            [⟨5, 0, 0⟩])) =
      some (⟨5, 1, 0⟩,
        relationWorld (tableWith [⟨4, 0, 0⟩, ⟨5, 1, 0⟩, ⟨6, 0, 0⟩]) []
          (childStorage (List.replicate 4 EcsNilEntity ++ [EcsNilEntity, ⟨0, 0, 0⟩])
            [⟨5, 0, 0⟩])) ∧
    EcsHas
        (relationWorld (tableWith [⟨4, 0, 0⟩, ⟨5, 1, 0⟩, ⟨6, 0, 0⟩]) []
          (childStorage (List.replicate 4 EcsNilEntity ++ [EcsNilEntity, ⟨0, 0, 0⟩])
            [⟨5, 0, 0⟩]))
        ⟨5, 1, 0⟩ freshGlobals.EcsRelation = some true := by
  decide

/-- C27, evaluation: the component (4, 0, Component) of size 4 holds the bytes
[1, 2, 3, 4] for entity 5; after `destroyEntity` of the component,
`newComponent(8)` recycles id 4 and finds the old storage: the valid entity 5
has the new component (4, 1, Component), whose storage is not empty. -/
theorem EcsNewComponent_recycled_has_entries :
    EcsNewComponent freshWorld 4 = some (⟨4, 0, 1⟩, componentWorld) ∧
    EcsNewEntity componentWorld =
      some (⟨5, 0, 0⟩, { componentWorld with entities := tableWith [⟨4, 0, 1⟩, ⟨5, 0, 0⟩] }) ∧
    EcsSet { componentWorld with entities := tableWith [⟨4, 0, 1⟩, ⟨5, 0, 0⟩] }
        ⟨5, 0, 0⟩ ⟨4, 0, 1⟩ [1, 2, 3, 4] = some (heldComponentWorld ⟨4, 0, 1⟩ []) ∧
    DestroyEntity freshGlobals (heldComponentWorld ⟨4, 0, 1⟩ []) ⟨4, 0, 1⟩ =
      some (heldComponentWorld ⟨4, 1, 0⟩ [4]) ∧
    EcsNewComponent (heldComponentWorld ⟨4, 1, 0⟩ [4]) 8 =
      some (⟨4, 1, 1⟩, heldComponentWorld ⟨4, 1, 1⟩ []) ∧
    EcsIsValid (heldComponentWorld ⟨4, 1, 1⟩ []) ⟨5, 0, 0⟩ = true ∧
    EcsHas (heldComponentWorld ⟨4, 1, 1⟩ []) ⟨5, 0, 0⟩ ⟨4, 1, 1⟩ = some true ∧
    EcsFind (heldComponentWorld ⟨4, 1, 1⟩ []) ⟨4, 1, 1⟩ = some 4 ∧
    ((heldComponentWorld ⟨4, 1, 1⟩ []).storages[4]?.map (fun st => st.sparse.dense)) =
      some [⟨5, 0, 0⟩] := by
  decide

/-- C26, counterexample: after `newWorld`, `newEntity` (the entity
(4, 0, Entity)) and `destroyEntity` of it, the id 4 is in the recycle list and
not yet recycled, and the tombstone value (4, 1, 0) stored in the slot passes
`isValid`. -/
theorem EcsIsValid_tombstone :
    EcsNewEntity freshWorld = some (⟨4, 0, 0⟩, plainWorld [⟨4, 0, 0⟩] []) ∧
    DestroyEntity freshGlobals (plainWorld [⟨4, 0, 0⟩] []) ⟨4, 0, 0⟩ =
      some (plainWorld [⟨4, 1, 0⟩] [4]) ∧
    EcsIsValid (plainWorld [⟨4, 1, 0⟩] [4]) ⟨4, 1, 0⟩ = true := by
  decide

/-- C25, counterexample: after `newEntity` and `destroyEntity` of the entity
(4, 0, Entity), `destroyEntity` of the tombstone value (4, 1, 0) passes its
assertion and pushes id 4 a second time; two successive `newEntity` calls then
both return the entity (4, 2, Entity). -/
theorem EcsNewEntity_twice_same_entity :
    EcsNewEntity freshWorld = some (⟨4, 0, 0⟩, plainWorld [⟨4, 0, 0⟩] []) ∧
    DestroyEntity freshGlobals (plainWorld [⟨4, 0, 0⟩] []) ⟨4, 0, 0⟩ =
      some (plainWorld [⟨4, 1, 0⟩] [4]) ∧
    EcsIsValid (plainWorld [⟨4, 1, 0⟩] [4]) ⟨4, 1, 0⟩ = true ∧
    DestroyEntity freshGlobals (plainWorld [⟨4, 1, 0⟩] [4]) ⟨4, 1, 0⟩ =
      some (plainWorld [⟨4, 2, 0⟩] [4, 4]) ∧
    EcsNewEntity (plainWorld [⟨4, 2, 0⟩] [4, 4]) =
      some (⟨4, 2, 0⟩, plainWorld [⟨4, 2, 0⟩] [4]) ∧
    EcsNewEntity (plainWorld [⟨4, 2, 0⟩] [4]) =
      some (⟨4, 2, 0⟩, plainWorld [⟨4, 2, 0⟩] []) := by
  decide

/-- C23, counterexample: entity 5 holds the component (4, 0, Component); both
are valid and every storage is consistent. After `destroyEntity` of the
component, `has` of entity 5 and that component fails (the component is no
longer valid) where it was true before. -/
theorem DestroyEntity_component_has_fails :
    (∀ st ∈ (heldComponentWorld ⟨4, 0, 1⟩ []).storages, StorageConsistent st) ∧
    EcsIsValid (heldComponentWorld ⟨4, 0, 1⟩ []) ⟨4, 0, 1⟩ = true ∧
    EcsIsValid (heldComponentWorld ⟨4, 0, 1⟩ []) ⟨5, 0, 0⟩ = true ∧
    EcsFind (heldComponentWorld ⟨4, 0, 1⟩ []) ⟨4, 0, 1⟩ = some 4 ∧
    EcsHas (heldComponentWorld ⟨4, 0, 1⟩ []) ⟨5, 0, 0⟩ ⟨4, 0, 1⟩ = some true ∧
    DestroyEntity freshGlobals (heldComponentWorld ⟨4, 0, 1⟩ []) ⟨4, 0, 1⟩ =
      some (heldComponentWorld ⟨4, 1, 0⟩ [4]) ∧
    EcsIsValid (heldComponentWorld ⟨4, 1, 0⟩ [4]) ⟨5, 0, 0⟩ = true ∧
    EcsHas (heldComponentWorld ⟨4, 1, 0⟩ [4]) ⟨5, 0, 0⟩ ⟨4, 0, 1⟩ = none := by
  decide

theorem StorageOnly.refl (w : EcsWorld) : StorageOnly w w := ⟨rfl, rfl, rfl⟩

theorem StorageOnly.trans {w w1 w2 : EcsWorld} (h1 : StorageOnly w w1)
    (h2 : StorageOnly w1 w2) : StorageOnly w w2 :=
  ⟨h2.1.trans h1.1, h2.2.1.trans h1.2.1, h2.2.2.trans h1.2.2⟩

theorem map_componentId_set (ss : List EcsStorage) (i : Nat) (st st1 : EcsStorage)
    (hst : ss[i]? = some st) (hid : st1.componentId = st.componentId) :
    (ss.set i st1).map (fun s => s.componentId) = ss.map (fun s => s.componentId) := by
  induction ss generalizing i with
  | nil => simp at hst
  | cons s rest ih =>
    cases i with
    | zero =>
      simp at hst
      subst hst
      simp [hid]
    | succ j =>
      simp at hst
      simp [ih j hst]

theorem StorageOnly_set (w : EcsWorld) (i : Nat) (st st1 : EcsStorage)
    (hst : w.storages[i]? = some st) (hid : st1.componentId = st.componentId) :
    StorageOnly w { w with storages := w.storages.set i st1 } :=
  ⟨rfl, rfl, map_componentId_set w.storages i st st1 hst hid⟩

theorem writePtr_storageOnly (w w1 : EcsWorld) (p : DataPtr) (v : Payload)
    (h : writePtr w p v = some w1) : StorageOnly w w1 := by
  unfold writePtr at h
  cases hs : w.storages[p.storage]? with
  | none => simp [hs] at h
  | some st =>
    simp only [hs] at h
    split at h
    · simp only [Option.some.injEq] at h
      subst h
      exact StorageOnly_set w p.storage st _ hs rfl
    · cases h

theorem StorageEmplace_componentId (st st1 : EcsStorage) (e : Entity) (pos : Nat)
    (h : StorageEmplace st e = some (st1, pos)) : st1.componentId = st.componentId := by
  unfold StorageEmplace at h
  cases hs : SparseEmplace st.sparse e with
  | none => simp [hs] at h
  | some sp =>
    simp only [hs, Option.some.injEq, Prod.mk.injEq] at h
    rw [← h.1]

theorem StorageRemove_componentId (st st1 : EcsStorage) (e : Entity)
    (h : StorageRemove st e = some st1) : st1.componentId = st.componentId := by
  unfold StorageRemove at h
  cases hs : SparseRemove st.sparse e with
  | none => simp [hs] at h
  | some r =>
    obtain ⟨sp, pos⟩ := r
    simp only [hs] at h
    cases hl : st.data.getLast? with
    | none => simp [hl] at h
    | some last =>
      simp only [hl] at h
      split at h
      · simp only [Option.some.injEq] at h
        rw [← h]
      · cases h

theorem attachAll_storageOnly (f : EcsWorld → Entity → Option (Option EcsWorld))
    (p : DataPtr)
    (hf : ∀ w c w1, f w c = some (some w1) → StorageOnly w w1) :
    ∀ (cs : List Entity) (w w1 : EcsWorld), attachAll f p cs w = some (some w1) →
      StorageOnly w w1 := by
  intro cs
  induction cs with
  | nil =>
    intro w w1 h
    simp only [attachAll, Option.some.injEq] at h
    subst h; exact StorageOnly.refl w
  | cons c rest ih =>
    intro w w1 h
    simp only [attachAll] at h
    split at h
    · simp only [Option.some.injEq] at h
      subst h; exact StorageOnly.refl w
    · cases hc : f w c with
      | none => simp [hc] at h
      | some r =>
        cases r with
        | none => simp [hc] at h
        | some w2 =>
          simp only [hc] at h
          split at h
          · cases h
          · exact (hf w c w2 hc).trans (ih w2 w1 h)

theorem EcsAttach_storageOnly (g : Globals) (entity : Entity) :
    ∀ (fuel : Nat) (w : EcsWorld) (component : Entity) (w1 : EcsWorld),
      EcsAttach fuel g w entity component = some (some w1) → StorageOnly w w1 := by
  intro fuel
  induction fuel with
  | zero => intro w c w1 h; simp [EcsAttach] at h
  | succ n ih =>
    intro w c w1 h
    rw [EcsAttach] at h
    split at h
    · cases h
    split at h
    · cases hg : EcsGet w c g.EcsPrefab with
      | none => simp [hg] at h
      | some q =>
        cases q with
        | none => simp [hg] at h
        | some p =>
          simp only [hg] at h
          cases hr : readPtr w p with
          | none => simp [hr] at h
          | some v =>
            cases v with
            | prefab comps =>
              simp only [hr] at h
              exact attachAll_storageOnly _ p (fun w2 x w3 hx => ih w2 x w3 hx) comps w w1 h
            | uninit => simp [hr] at h
            | bytes b => simp [hr] at h
            | system a b c => simp [hr] at h
            | relation a b => simp [hr] at h
    · split at h
      · cases h
      split at h
      · cases h
      cases hf : EcsFind w c with
      | none => simp [hf] at h
      | some i =>
        simp only [hf] at h
        cases hs : w.storages[i]? with
        | none => simp [hs] at h
        | some st =>
          simp only [hs] at h
          cases he : StorageEmplace st entity with
          | none => simp [he] at h
          | some r =>
            obtain ⟨st1, pos⟩ := r
            simp only [he, Option.some.injEq] at h
            subst h
            exact StorageOnly_set w i st st1 hs (StorageEmplace_componentId st st1 entity pos he)

theorem EcsDetach_storageOnly (w w1 : EcsWorld) (entity component : Entity)
    (h : EcsDetach w entity component = some w1) : StorageOnly w w1 := by
  unfold EcsDetach at h
  split at h
  · cases h
  split at h
  · cases h
  cases hf : EcsFind w component with
  | none => simp [hf] at h
  | some i =>
    simp only [hf] at h
    cases hs : w.storages[i]? with
    | none => simp [hs] at h
    | some st =>
      simp only [hs] at h
      cases hh : StorageHas st entity with
      | none => simp [hh] at h
      | some b =>
        cases b with
        | false => simp [hh] at h
        | true =>
          simp only [hh] at h
          cases hr : StorageRemove st entity with
          | none => simp [hr] at h
          | some st1 =>
            simp only [hr, Option.some.injEq] at h
            subst h
            exact StorageOnly_set w i st st1 hs (StorageRemove_componentId st st1 entity hr)

theorem EcsDisassociate_storageOnly (g : Globals) (w w1 : EcsWorld) (entity : Entity)
    (h : EcsDisassociate g w entity = some w1) : StorageOnly w w1 := by
  unfold EcsDisassociate at h
  split at h
  · cases h
  cases hh : EcsHas w entity g.EcsRelation with
  | none => simp [hh] at h
  | some b =>
    cases b with
    | false => simp [hh] at h
    | true =>
      simp only [hh] at h
      exact EcsDetach_storageOnly w w1 entity g.EcsRelation h

theorem EcsSet_storageOnly (w w1 : EcsWorld) (entity component : Entity) (data : List Nat)
    (h : EcsSet w entity component data = some w1) : StorageOnly w w1 := by
  unfold EcsSet at h
  split at h
  · cases h
  split at h
  · cases h
  cases hf : EcsFind w component with
  | none => simp [hf] at h
  | some i =>
    simp only [hf] at h
    cases hs : w.storages[i]? with
    | none => simp [hs] at h
    | some st =>
      simp only [hs] at h
      cases hh : StorageHas st entity with
      | none => simp [hh] at h
      | some b =>
        cases b with
        | true =>
          simp only [hh] at h
          cases hg : StorageGet st entity with
          | none => simp [hg] at h
          | some pos =>
            simp only [hg, Option.map_some'] at h
            split at h
            · cases h
            split at h
            · cases h
            split at h
            · simp only [Option.some.injEq] at h
              subst h
              exact StorageOnly_set w i st _ hs rfl
            · cases h
        | false =>
          simp only [hh] at h
          cases he : StorageEmplace st entity with
          | none => simp [he] at h
          | some r =>
            obtain ⟨st1, pos⟩ := r
            simp only [he] at h
            split at h
            · cases h
            split at h
            · cases h
            split at h
            · simp only [Option.some.injEq] at h
              subst h
              exact StorageOnly_set w i st _ hs (StorageEmplace_componentId st st1 entity pos he)
            · cases h

theorem EcsAssociate_storageOnly (fuel : Nat) (g : Globals) (w w1 : EcsWorld)
    (entity object relation : Entity)
    (h : EcsAssociate fuel g w entity object relation = some (some w1)) :
    StorageOnly w w1 := by
  unfold EcsAssociate at h
  split at h
  · cases h
  split at h
  · cases h
  split at h
  · cases h
  split at h
  · cases h
  split at h
  · cases h
  cases ha : EcsAttach fuel g w entity g.EcsRelation with
  | none => simp [ha] at h
  | some r =>
    cases r with
    | none => simp [ha] at h
    | some w2 =>
      simp only [ha] at h
      cases hg : EcsGet w2 entity g.EcsRelation with
      | none => simp [hg] at h
      | some q =>
        cases q with
        | none => simp [hg] at h
        | some p =>
          simp only [hg, Option.some.injEq] at h
          exact (EcsAttach_storageOnly g entity fuel w g.EcsRelation w2 ha).trans
            (writePtr_storageOnly w2 w1 p _ h)

theorem setEnabled_storageOnly (g : Globals) (w w1 : EcsWorld) (system : Entity) (b : Bool)
    (h : setEnabled g w system b = some w1) : StorageOnly w w1 := by
  unfold setEnabled at h
  split at h
  · cases h
  split at h
  · cases h
  cases hg : EcsGet w system g.EcsSystem with
  | none => simp [hg] at h
  | some q =>
    cases q with
    | none => simp [hg] at h
    | some p =>
      simp only [hg] at h
      cases hr : readPtr w p with
      | none => simp [hr] at h
      | some v =>
        cases v with
        | system cb comps en =>
          simp only [hr] at h
          exact writePtr_storageOnly w w1 p _ h
        | uninit => simp [hr] at h
        | bytes b => simp [hr] at h
        | prefab a => simp [hr] at h
        | relation a b => simp [hr] at h

theorem EcsNewEntityType_storages (w w1 : EcsWorld) (type : Nat) (e : Entity)
    (h : EcsNewEntityType w type = some (e, w1)) : w1.storages = w.storages := by
  unfold EcsNewEntityType at h
  split at h
  · cases hl : w.recyclable.getLast? with
    | none => simp [hl] at h
    | some idx =>
      cases hx : w.entities[idx]? with
      | none => simp [hl, hx] at h
      | some x =>
        simp only [hl, hx, Option.some.injEq, Prod.mk.injEq] at h
        rw [← h.2]
  · simp only [Option.some.injEq, Prod.mk.injEq] at h
    rw [← h.2]

theorem EcsNewEntityType_cases (w w1 : EcsWorld) (type : Nat) (e : Entity)
    (h : EcsNewEntityType w type = some (e, w1)) :
    (∃ idx x, w.recyclable.getLast? = some idx ∧ w.entities[idx]? = some x ∧
      e = ⟨x.id, x.version, type⟩ ∧ w1.entities = w.entities.set idx e ∧
      w1.recyclable = w.recyclable.dropLast) ∨
    (w.recyclable = [] ∧ e = ⟨dec32 (u32 (w.entities.length + 1)), 0, type⟩ ∧
      w1.entities = w.entities ++ [e] ∧ w1.recyclable = []) := by
  unfold EcsNewEntityType at h
  split at h
  · left
    cases hl : w.recyclable.getLast? with
    | none => simp [hl] at h
    | some idx =>
      cases hx : w.entities[idx]? with
      | none => simp [hl, hx] at h
      | some x =>
        simp only [hl, hx, Option.some.injEq, Prod.mk.injEq] at h
        obtain ⟨h1, h2⟩ := h
        subst h2
        refine ⟨idx, x, rfl, hx, h1.symm, ?_, rfl⟩
        rw [← h1]
  · right
    rename_i hne
    have hnil : w.recyclable = [] := by
      simp only [ne_eq, Decidable.not_not] at hne
      exact List.length_eq_zero.mp hne
    simp only [Option.some.injEq, Prod.mk.injEq] at h
    obtain ⟨h1, h2⟩ := h
    subst h2
    refine ⟨hnil, h1.symm, ?_, hnil⟩
    rw [← h1]

theorem TableCreate_of_storageOnly (w w0 w1 : EcsWorld) (type : Nat) (e : Entity)
    (h0 : EcsNewEntityType w type = some (e, w0)) (h1 : StorageOnly w0 w1) :
    TableCreate w e w1 :=
  ⟨type, w0, h0, h1.1, h1.2.1, [], by
    rw [h1.2.2, EcsNewEntityType_storages w w0 type e h0]; simp⟩

theorem TableCreate_newEntity (w w1 : EcsWorld) (e : Entity)
    (h : EcsNewEntity w = some (e, w1)) : TableCreate w e w1 :=
  TableCreate_of_storageOnly w w1 w1 EcsEntityType e h (StorageOnly.refl w1)

theorem TableCreate_newComponent (w w1 : EcsWorld) (size : Nat) (e : Entity)
    (h : EcsNewComponent w size = some (e, w1)) : TableCreate w e w1 := by
  unfold EcsNewComponent at h
  cases hn : EcsNewEntityType w EcsComponentType with
  | none => simp [hn] at h
  | some r =>
    obtain ⟨e0, w0⟩ := r
    simp only [hn, Option.some.injEq, Prod.mk.injEq] at h
    obtain ⟨h1, h2⟩ := h
    subst h1
    have hst := EcsNewEntityType_storages w w0 _ e0 hn
    refine ⟨_, w0, hn, ?_, ?_, ?_⟩
    · rw [← h2]; unfold EcsAssure; split <;> rfl
    · rw [← h2]; unfold EcsAssure; split <;> rfl
    · rw [← h2, ← hst]
      unfold EcsAssure
      split
      · exact ⟨[], by simp⟩
      · exact ⟨[(NewStorage e0 size).componentId], by simp⟩

theorem TableCreate_newSystem (fuel : Nat) (g : Globals) (w w1 : EcsWorld) (fn : Nat)
    (comps : List Entity) (e : Entity)
    (h : EcsNewSystem fuel g w fn comps = some (some (e, w1))) : TableCreate w e w1 := by
  unfold EcsNewSystem at h
  cases hn : EcsNewEntityType w EcsSystemType with
  | none => simp [hn] at h
  | some r =>
    obtain ⟨e0, w0⟩ := r
    simp only [hn] at h
    cases ha : EcsAttach fuel g w0 e0 g.EcsSystem with
    | none => simp [ha] at h
    | some r2 =>
      cases r2 with
      | none => simp [ha] at h
      | some w2 =>
        simp only [ha] at h
        cases hg : EcsGet w2 e0 g.EcsSystem with
        | none => simp [hg] at h
        | some q =>
          cases q with
          | none => simp [hg] at h
          | some p =>
            simp only [hg] at h
            cases hw : writePtr w2 p (Payload.system fn comps true) with
            | none => simp [hw] at h
            | some w3 =>
              simp only [hw, Option.some.injEq, Prod.mk.injEq] at h
              obtain ⟨h1, h2⟩ := h
              subst h1; subst h2
              exact TableCreate_of_storageOnly w w0 w3 _ e0 hn
                ((EcsAttach_storageOnly g e0 fuel w0 g.EcsSystem w2 ha).trans
                  (writePtr_storageOnly w2 w3 p _ hw))

theorem TableCreate_newPrefab (fuel : Nat) (g : Globals) (w w1 : EcsWorld)
    (comps : List Entity) (e : Entity)
    (h : EcsNewPrefab fuel g w comps = some (some (e, w1))) : TableCreate w e w1 := by
  unfold EcsNewPrefab at h
  cases hn : EcsNewEntityType w EcsPrefabType with
  | none => simp [hn] at h
  | some r =>
    obtain ⟨e0, w0⟩ := r
    simp only [hn] at h
    cases ha : EcsAttach fuel g w0 e0 g.EcsPrefab with
    | none => simp [ha] at h
    | some r2 =>
      cases r2 with
      | none => simp [ha] at h
      | some w2 =>
        simp only [ha] at h
        cases hg : EcsGet w2 e0 g.EcsPrefab with
        | none => simp [hg] at h
        | some q =>
          cases q with
          | none => simp [hg] at h
          | some p =>
            simp only [hg] at h
            cases hw : writePtr w2 p (Payload.prefab comps) with
            | none => simp [hw] at h
            | some w3 =>
              simp only [hw, Option.some.injEq, Prod.mk.injEq] at h
              obtain ⟨h1, h2⟩ := h
              subst h1; subst h2
              exact TableCreate_of_storageOnly w w0 w3 _ e0 hn
                ((EcsAttach_storageOnly g e0 fuel w0 g.EcsPrefab w2 ha).trans
                  (writePtr_storageOnly w2 w3 p _ hw))

theorem TableCreate_of_createdBy (g : Globals) (w w1 : EcsWorld) (e : Entity)
    (h : CreatedBy g w e w1) : TableCreate w e w1 := by
  rcases h with h | ⟨size, h⟩ | ⟨fuel, fn, comps, h⟩ | ⟨fuel, comps, h⟩
  · exact TableCreate_newEntity w w1 e h
  · exact TableCreate_newComponent w w1 size e h
  · exact TableCreate_newSystem fuel g w w1 fn comps e h
  · exact TableCreate_newPrefab fuel g w w1 comps e h

theorem destroyLoop_componentIds (e : Entity) :
    ∀ (k : Nat) (ss ss1 : List EcsStorage), destroyLoop e k ss = some ss1 →
      ss1.map (fun st => st.componentId) = ss.map (fun st => st.componentId) := by
  intro k
  induction k with
  | zero =>
    intro ss ss1 h
    simp only [destroyLoop, Option.some.injEq] at h
    rw [h]
  | succ k ih =>
    intro ss ss1 h
    simp only [destroyLoop] at h
    cases hs : ss[k]? with
    | none => simp [hs] at h
    | some st =>
      simp only [hs] at h
      cases hb : SparseHas st.sparse e with
      | none => simp [hb] at h
      | some b =>
        cases b with
        | false =>
          simp only [hb] at h
          exact ih ss ss1 h
        | true =>
          simp only [hb] at h
          cases hr : StorageRemove st e with
          | none => simp [hr] at h
          | some st1 =>
            simp only [hr] at h
            rw [ih _ ss1 h]
            exact map_componentId_set ss k st st1 hs (StorageRemove_componentId st st1 e hr)

theorem DestroyEntity_inv (g : Globals) (w w1 : EcsWorld) (e : Entity)
    (h : DestroyEntity g w e = some w1) :
    EcsIsValid w e = true ∧
    w1.entities = w.entities.set e.id ⟨e.id, wrapVersion (e.version + 1), 0⟩ ∧
    w1.recyclable = w.recyclable ++ [e.id] ∧
    w1.storages.map (fun st => st.componentId) = w.storages.map (fun st => st.componentId) ∧
    destroyLoop e w.storages.length w.storages = some w1.storages := by
  unfold DestroyEntity at h
  by_cases hv : EcsIsValid w e = true
  · simp only [hv, Bool.not_true, Bool.false_eq_true, if_false] at h
    generalize (if e.flag = EcsSystemType then (EcsGet w e g.EcsSystem).map (fun _ => ())
        else if e.flag = EcsPrefabType then (EcsGet w e g.EcsPrefab).map (fun _ => ())
        else some ()) = looked at h
    cases looked with
    | none => cases h
    | some u =>
      simp only at h
      cases hl : destroyLoop e w.storages.length w.storages with
      | none => simp [hl] at h
      | some ss1 =>
        simp only [hl, Option.some.injEq] at h
        subst h
        exact ⟨hv, rfl, rfl, destroyLoop_componentIds e _ _ _ hl, rfl⟩
  · simp [hv] at h

theorem getLast?_split {α : Type} {l : List α} {a : α} (h : l.getLast? = some a) :
    l = l.dropLast ++ [a] :=
  (List.dropLast_append_getLast? a (by rw [h]; exact rfl)).symm

theorem TableCreate_length (w w1 : EcsWorld) (e : Entity) (h : TableCreate w e w1) :
    w.entities.length ≤ w1.entities.length := by
  obtain ⟨type, w0, h0, he, _, _⟩ := h
  rcases EcsNewEntityType_cases w w0 type e h0 with
    ⟨idx, x, _, _, _, hent, _⟩ | ⟨_, _, hent, _⟩
  · rw [he, hent]; simp
  · rw [he, hent]; simp

theorem TableInvariant_create (w w1 : EcsWorld) (live : List Entity) (e : Entity)
    (hinv : TableInvariant w live) (h : TableCreate w e w1)
    (hsize : w1.entities.length ≤ 4294967296) :
    TableInvariant w1 (e :: live) ∧ ∀ x ∈ live, x.id ≠ e.id := by
  obtain ⟨hlive, hrec, hnodup, hids⟩ := hinv
  obtain ⟨type, w0, h0, he, hr, _⟩ := h
  rcases EcsNewEntityType_cases w w0 type e h0 with
    ⟨idx, x, hlast, hx, heq, hent, hrc⟩ | ⟨hnil, heq, hent, hrc⟩
  · -- an id is recycled
    have hxid : x.id = idx := hids idx x hx
    have heid : e.id = idx := by rw [heq]; exact hxid
    have hidx : idx < w.entities.length := lt_length_of_getElem? hx
    have hmem : idx ∈ w.recyclable := List.mem_of_getLast?_eq_some hlast
    have hsplit := getLast?_split hlast
    have hnd : (w.recyclable.dropLast ++ [idx]).Nodup := by rw [← hsplit]; exact hnodup
    have hnotin : idx ∉ w.recyclable.dropLast := by
      intro hin
      have := (List.nodup_append.mp hnd).2.2
      exact this hin (List.mem_singleton_self idx) 
    have hfresh : ∀ y ∈ live, y.id ≠ e.id := by
      intro y hy; rw [heid]; exact (hrec idx hmem).2 y hy
    refine ⟨⟨?_, ?_, ?_, ?_⟩, hfresh⟩
    · intro y hy
      rw [he, hent]
      rcases List.mem_cons.mp hy with rfl | hy
      · rw [heid]; exact List.getElem?_set_self hidx
      · rw [List.getElem?_set_ne (by rw [← heid]; exact Ne.symm (hfresh y hy))]
        exact hlive y hy
    · intro i hi
      rw [hr, hrc] at hi
      have hi' : i ∈ w.recyclable := List.mem_of_mem_dropLast hi
      refine ⟨by rw [he, hent]; simpa using (hrec i hi').1, ?_⟩
      intro y hy
      rcases List.mem_cons.mp hy with rfl | hy
      · rw [heid]; intro hh; exact hnotin (hh ▸ hi)
      · exact (hrec i hi').2 y hy
    · rw [hr, hrc]
      exact hnodup.sublist (List.dropLast_sublist _)
    · intro i z hz
      rw [he, hent] at hz
      by_cases hi : idx = i
      · subst hi
        rw [List.getElem?_set_self hidx] at hz
        cases hz; exact heid
      · rw [List.getElem?_set_ne hi] at hz
        exact hids i z hz
  · -- the table grows
    have hlen : w1.entities.length = w.entities.length + 1 := by rw [he, hent]; simp
    have heid : e.id = w.entities.length := by
      rw [heq]
      show dec32 (u32 (w.entities.length + 1)) = w.entities.length
      rcases Nat.lt_or_ge (w.entities.length + 1) 4294967296 with h' | h'
      · rw [u32_of_lt h', dec32_succ]
      · have : w.entities.length = 4294967295 := by omega
        rw [this]; rfl
    have hfresh : ∀ y ∈ live, y.id ≠ e.id := by
      intro y hy
      have := lt_length_of_getElem? (hlive y hy)
      rw [heid]; omega
    refine ⟨⟨?_, ?_, ?_, ?_⟩, hfresh⟩
    · intro y hy
      rw [he, hent]
      rcases List.mem_cons.mp hy with rfl | hy
      · rw [heid]; simp
      · have := lt_length_of_getElem? (hlive y hy)
        rw [List.getElem?_append_left this]
        exact hlive y hy
    · intro i hi
      rw [hr, hrc] at hi
      cases hi
    · rw [hr, hrc]; exact List.nodup_nil
    · intro i z hz
      rw [he, hent] at hz
      rcases Nat.lt_or_ge i w.entities.length with hi | hi
      · rw [List.getElem?_append_left hi] at hz
        exact hids i z hz
      · have hi2 : i < (w.entities ++ [e]).length := lt_length_of_getElem? hz
        have : i = w.entities.length := by simp at hi2; omega
        subst this
        simp at hz
        rw [← hz]; exact heid

theorem TableInvariant_storageOnly (w w1 : EcsWorld) (live : List Entity)
    (hinv : TableInvariant w live) (h : StorageOnly w w1) : TableInvariant w1 live := by
  obtain ⟨he, hr, _⟩ := h
  unfold TableInvariant
  rw [he, hr]
  exact hinv

theorem TableInvariant_destroy (g : Globals) (w w1 : EcsWorld) (live : List Entity)
    (e : Entity) (hinv : TableInvariant w live) (hlive : e ∈ live)
    (h : DestroyEntity g w e = some w1) :
    TableInvariant w1 (live.filter (fun x => decide (x ≠ e))) := by
  obtain ⟨hl, hrec, hnodup, hids⟩ := hinv
  obtain ⟨hv, he, hr, _, _⟩ := DestroyEntity_inv g w w1 e h
  have hidx : e.id < w.entities.length := lt_length_of_getElem? (hl e hlive)
  have hother : ∀ y ∈ live.filter (fun x => decide (x ≠ e)), y ∈ live ∧ y.id ≠ e.id := by
    intro y hy
    obtain ⟨hy1, hy2⟩ := List.mem_filter.mp hy
    simp only [ne_eq, decide_not, Bool.not_eq_true', decide_eq_false_iff_not] at hy2
    refine ⟨hy1, ?_⟩
    intro hid
    have h1 := hl y hy1
    have h2 := hl e hlive
    rw [hid, h2] at h1
    exact hy2 (Option.some.inj h1).symm
  refine ⟨?_, ?_, ?_, ?_⟩
  · intro y hy
    obtain ⟨hy1, hy2⟩ := hother y hy
    rw [he, List.getElem?_set_ne (Ne.symm hy2)]
    exact hl y hy1
  · intro i hi
    rw [hr] at hi
    rcases List.mem_append.mp hi with hi | hi
    · refine ⟨by rw [he]; simpa using (hrec i hi).1, ?_⟩
      intro y hy
      exact (hrec i hi).2 y (hother y hy).1
    · have : i = e.id := by simpa using hi
      subst this
      refine ⟨by rw [he]; simpa using hidx, ?_⟩
      intro y hy
      exact (hother y hy).2
  · rw [hr]
    refine List.nodup_append.mpr ⟨hnodup, List.nodup_singleton _, ?_⟩
    intro a ha hb
    have : a = e.id := by simpa using hb
    subst this
    exact (hrec _ ha).2 e hlive rfl
  · intro i z hz
    rw [he] at hz
    by_cases hi : e.id = i
    · subst hi
      rw [List.getElem?_set_self hidx] at hz
      cases hz; rfl
    · rw [List.getElem?_set_ne hi] at hz
      exact hids i z hz

/-- Induction over the reachable worlds by the effect of each step: the
initial world, a creation, a destruction, or a step that works on storages
only. -/
theorem Reachable.by_effect {strict : Bool} (P : Globals → EcsWorld → List Entity → Prop)
    (hinit : ∀ sz n g w, EcsNewWorld sz ⟨[], [], [], n⟩ = some (g, w) →
      P g w [g.EcsSystem, g.EcsPrefab, g.EcsRelation, g.EcsChildOf])
    (hcreate : ∀ g w w1 live e, Reachable strict g w live → P g w live →
      CreatedBy g w e w1 → P g w1 (e :: live))
    (hdestroy : ∀ g w w1 live e, Reachable strict g w live → P g w live →
      (strict = true → e ∈ live) → DestroyEntity g w e = some w1 →
      P g w1 (live.filter (fun x => decide (x ≠ e))))
    (hstorage : ∀ g w w1 live, Reachable strict g w live → P g w live →
      StorageOnly w w1 → P g w1 live) :
    ∀ g w live, Reachable strict g w live → P g w live := by
  intro g w live h
  induction h with
  | newWorld sz n g w h0 => exact hinit sz n g w h0
  | newEntity g w w1 live e hr h1 ih => exact hcreate g w w1 live e hr ih (Or.inl h1)
  | newComponent g w w1 live size e hr h1 ih =>
    exact hcreate g w w1 live e hr ih (Or.inr (Or.inl ⟨size, h1⟩))
  | newSystem g w w1 live fuel fn comps e hr h1 ih =>
    exact hcreate g w w1 live e hr ih (Or.inr (Or.inr (Or.inl ⟨fuel, fn, comps, h1⟩)))
  | newPrefab g w w1 live fuel comps e hr h1 ih =>
    exact hcreate g w w1 live e hr ih (Or.inr (Or.inr (Or.inr ⟨fuel, comps, h1⟩)))
  | destroyEntity g w w1 live e hr hs h1 ih => exact hdestroy g w w1 live e hr ih hs h1
  | attach g w w1 live fuel entity component hr h1 ih =>
    exact hstorage g w w1 live hr ih (EcsAttach_storageOnly g entity fuel w component w1 h1)
  | detach g w w1 live entity component hr h1 ih =>
    exact hstorage g w w1 live hr ih (EcsDetach_storageOnly w w1 entity component h1)
  | set g w w1 live entity component data hr h1 ih =>
    exact hstorage g w w1 live hr ih (EcsSet_storageOnly w w1 entity component data h1)
  | associate g w w1 live fuel entity object relation hr h1 ih =>
    exact hstorage g w w1 live hr ih
      (EcsAssociate_storageOnly fuel g w w1 entity object relation h1)
  | disassociate g w w1 live entity hr h1 ih =>
    exact hstorage g w w1 live hr ih (EcsDisassociate_storageOnly g w w1 entity h1)
  | enableSystem g w w1 live system hr h1 ih =>
    exact hstorage g w w1 live hr ih (setEnabled_storageOnly g w w1 system true h1)
  | disableSystem g w w1 live system hr h1 ih =>
    exact hstorage g w w1 live hr ih (setEnabled_storageOnly g w w1 system false h1)
  | write g w w1 live entity component p v hr _ h2 ih =>
    exact hstorage g w w1 live hr ih (writePtr_storageOnly w w1 p v h2)

theorem EcsNewWorld_inv (sz : PayloadSizes) (n : Nat) (g : Globals) (w : EcsWorld)
    (h : EcsNewWorld sz ⟨[], [], [], n⟩ = some (g, w)) :
    g = ⟨⟨0, 0, EcsComponentType⟩, ⟨1, 0, EcsComponentType⟩, ⟨2, 0, EcsComponentType⟩,
         ⟨3, 0, EcsComponentType⟩⟩ ∧
    w.entities = [⟨0, 0, EcsComponentType⟩, ⟨1, 0, EcsComponentType⟩,
                  ⟨2, 0, EcsComponentType⟩, ⟨3, 0, EcsComponentType⟩] ∧
    w.recyclable = [] ∧
    w.storages.map (fun st => st.componentId) =
      [⟨0, 0, EcsComponentType⟩, ⟨1, 0, EcsComponentType⟩, ⟨2, 0, EcsComponentType⟩,
       ⟨3, 0, EcsComponentType⟩] := by
  rw [EcsNewWorld_empty sz n] at h
  simp only [Option.some.injEq, Prod.mk.injEq] at h
  obtain ⟨h1, h2⟩ := h
  subst h1; subst h2
  exact ⟨rfl, rfl, rfl, rfl⟩

theorem TableInvariant_init (sz : PayloadSizes) (n : Nat) (g : Globals) (w : EcsWorld)
    (h : EcsNewWorld sz ⟨[], [], [], n⟩ = some (g, w)) :
    TableInvariant w [g.EcsSystem, g.EcsPrefab, g.EcsRelation, g.EcsChildOf] := by
  obtain ⟨hg, he, hr, _⟩ := EcsNewWorld_inv sz n g w h
  subst hg
  refine ⟨?_, ?_, ?_, ?_⟩
  · intro x hx
    rw [he]
    simp only [List.mem_cons, List.mem_singleton, List.not_mem_nil, or_false] at hx
    rcases hx with rfl | rfl | rfl | rfl <;> rfl
  · intro i hi; rw [hr] at hi; cases hi
  · rw [hr]; exact List.nodup_nil
  · intro i e hz
    rw [he] at hz
    match i, hz with
    | 0, hz => simp at hz; rw [← hz]
    | 1, hz => simp at hz; rw [← hz]
    | 2, hz => simp at hz; rw [← hz]
    | 3, hz => simp at hz; rw [← hz]
    | i + 4, hz => simp at hz

theorem Reachable.tableInvariant (g : Globals) (w : EcsWorld) (live : List Entity)
    (h : Reachable true g w live) :
    w.entities.length ≤ 4294967296 → TableInvariant w live := by
  refine Reachable.by_effect
    (fun _ w live => w.entities.length ≤ 4294967296 → TableInvariant w live)
    ?_ ?_ ?_ ?_ g w live h
  · intro sz n g w h0 _
    exact TableInvariant_init sz n g w h0
  · intro g w w1 live e _ ih hc hsize
    have hcr := TableCreate_of_createdBy g w w1 e hc
    have hlen := TableCreate_length w w1 e hcr
    exact (TableInvariant_create w w1 live e (ih (by omega)) hcr hsize).1
  · intro g w w1 live e _ ih hs hd hsize
    have hlen : w1.entities.length = w.entities.length := by
      rw [(DestroyEntity_inv g w w1 e hd).2.1]; simp
    exact TableInvariant_destroy g w w1 live e (ih (by omega)) (hs rfl) hd
  · intro g w w1 live _ ih hso hsize
    exact TableInvariant_storageOnly w w1 live (ih (by rw [← hso.1]; exact hsize)) hso

theorem EcsIsValid_of_getElem? (w : EcsWorld) (x : Entity) (h : w.entities[x.id]? = some x) :
    EcsIsValid w x = true := (EcsIsValid_iff w x).mpr h

theorem valid_live_or_tombstone_create (w w1 : EcsWorld) (live : List Entity) (e : Entity)
    (hinv : ∀ x, EcsIsValid w x = true → x ∈ live ∨ (x.flag = 0 ∧ x.id ∈ w.recyclable))
    (h : TableCreate w e w1) :
    ∀ x, EcsIsValid w1 x = true → x ∈ e :: live ∨ (x.flag = 0 ∧ x.id ∈ w1.recyclable) := by
  obtain ⟨type, w0, h0, he, hr, _⟩ := h
  intro x hx
  have hx1 := (EcsIsValid_iff w1 x).mp hx
  rw [he] at hx1
  rcases EcsNewEntityType_cases w w0 type e h0 with
    ⟨idx, y, hlast, hy, _, hent, hrc⟩ | ⟨hnil, _, hent, hrc⟩
  · have hidx : idx < w.entities.length := lt_length_of_getElem? hy
    rw [hent] at hx1
    by_cases hi : idx = x.id
    · rw [← hi, List.getElem?_set_self hidx] at hx1
      left; rw [← Option.some.inj hx1]; exact List.mem_cons_self _ _
    · rw [List.getElem?_set_ne hi] at hx1
      rcases hinv x (EcsIsValid_of_getElem? w x hx1) with hl | ⟨hf, hm⟩
      · left; exact List.mem_cons_of_mem _ hl
      · right
        refine ⟨hf, ?_⟩
        rw [hr, hrc]
        rw [getLast?_split hlast] at hm
        rcases List.mem_append.mp hm with hm | hm
        · exact hm
        · exact absurd (by simpa using hm : x.id = idx).symm hi
  · rw [hent] at hx1
    rcases Nat.lt_or_ge x.id w.entities.length with hi | hi
    · rw [List.getElem?_append_left hi] at hx1
      rcases hinv x (EcsIsValid_of_getElem? w x hx1) with hl | ⟨_, hm⟩
      · left; exact List.mem_cons_of_mem _ hl
      · rw [hnil] at hm; cases hm
    · have hi2 := lt_length_of_getElem? hx1
      have : x.id = w.entities.length := by simp at hi2; omega
      rw [this] at hx1
      simp at hx1
      left; rw [← hx1]; exact List.mem_cons_self _ _

theorem valid_after_destroy (g : Globals) (w w1 : EcsWorld) (e : Entity)
    (h : DestroyEntity g w e = some w1) :
    EcsIsValid w1 e = false ∧
    (∀ x, x.id = e.id → (EcsIsValid w1 x = true ↔ x = ⟨e.id, wrapVersion (e.version + 1), 0⟩)) ∧
    (∀ x, x.id ≠ e.id → EcsIsValid w1 x = EcsIsValid w x) := by
  obtain ⟨hv, he, _, _, _⟩ := DestroyEntity_inv g w w1 e h
  have hidx : e.id < w.entities.length := lt_length_of_getElem? ((EcsIsValid_iff w e).mp hv)
  have hslot : w1.entities[e.id]? = some ⟨e.id, wrapVersion (e.version + 1), 0⟩ := by
    rw [he]; exact List.getElem?_set_self hidx
  have hsame : ∀ x, x.id = e.id → (EcsIsValid w1 x = true ↔ x = ⟨e.id, wrapVersion (e.version + 1), 0⟩) := by
    intro x hx
    rw [EcsIsValid_iff, hx, hslot]
    constructor
    · intro h1; exact (Option.some.inj h1).symm
    · intro h1; rw [h1]
  refine ⟨?_, hsame, ?_⟩
  · cases hb : EcsIsValid w1 e with
    | false => rfl
    | true =>
      have := (hsame e rfl).mp hb
      have hver : e.version = wrapVersion (e.version + 1) := congrArg Entity.version this
      unfold wrapVersion VersionModulus at hver
      omega
  · intro x hx
    have : w1.entities[x.id]? = w.entities[x.id]? := by
      rw [he, List.getElem?_set_ne (Ne.symm hx)]
    cases hb : EcsIsValid w x with
    | true =>
      rw [EcsIsValid_iff] at hb ⊢
      rw [this]; exact hb
    | false =>
      cases hb1 : EcsIsValid w1 x with
      | false => rfl
      | true =>
        rw [EcsIsValid_iff, this, ← EcsIsValid_iff, hb] at hb1
        cases hb1

theorem valid_live_or_tombstone_destroy (g : Globals) (w w1 : EcsWorld) (live : List Entity)
    (e : Entity)
    (hinv : ∀ x, EcsIsValid w x = true → x ∈ live ∨ (x.flag = 0 ∧ x.id ∈ w.recyclable))
    (h : DestroyEntity g w e = some w1) :
    ∀ x, EcsIsValid w1 x = true →
      x ∈ live.filter (fun y => decide (y ≠ e)) ∨ (x.flag = 0 ∧ x.id ∈ w1.recyclable) := by
  obtain ⟨_, _, hr, _, _⟩ := DestroyEntity_inv g w w1 e h
  obtain ⟨_, hsame, hother⟩ := valid_after_destroy g w w1 e h
  intro x hx
  by_cases hi : x.id = e.id
  · right
    have := (hsame x hi).mp hx
    refine ⟨by rw [this], ?_⟩
    rw [hr, hi]; simp
  · rw [hother x hi] at hx
    rcases hinv x hx with hl | ⟨hf, hm⟩
    · left
      refine List.mem_filter.mpr ⟨hl, ?_⟩
      simp only [ne_eq, decide_not, Bool.not_eq_true', decide_eq_false_iff_not]
      intro hxe; exact hi (by rw [hxe])
    · right; exact ⟨hf, by rw [hr]; exact List.mem_append_left _ hm⟩

/-- C26 (amended): in every world reachable from `newWorld` by public
operations, an entity value passes `isValid` only if it is live (returned by a
creation operation and not destroyed since) or it is the tombstone of a
destroyed slot (kind 0, its id in the recycle list); and right after
`destroyEntity(e)` the value `e` does not pass `isValid`, while the one value
with the id of `e` that passes is the stored tombstone
`(id(e), version(e)+1, 0)`, the `version(e)+1` wrapped at the width of the
version part. -/
theorem EcsIsValid_live_or_tombstone (strict : Bool) (g : Globals) (w : EcsWorld)
    (live : List Entity) (h : Reachable strict g w live) :
    (∀ x, EcsIsValid w x = true → x ∈ live ∨ (x.flag = 0 ∧ x.id ∈ w.recyclable)) ∧
    (∀ e w1, DestroyEntity g w e = some w1 →
      EcsIsValid w1 e = false ∧
      ∀ x, x.id = e.id → (EcsIsValid w1 x = true ↔ x = ⟨e.id, wrapVersion (e.version + 1), 0⟩)) := by
  constructor
  · refine Reachable.by_effect
      (fun _ w live =>
        ∀ x, EcsIsValid w x = true → x ∈ live ∨ (x.flag = 0 ∧ x.id ∈ w.recyclable))
      ?_ ?_ ?_ ?_ g w live h
    · intro sz n g w h0 x hx
      obtain ⟨hg, he, _, _⟩ := EcsNewWorld_inv sz n g w h0
      subst hg
      left
      have := List.getElem?_mem ((EcsIsValid_iff w x).mp hx)
      rw [he] at this
      exact this
    · intro g w w1 live e _ ih hc
      exact valid_live_or_tombstone_create w w1 live e ih (TableCreate_of_createdBy g w w1 e hc)
    · intro g w w1 live e _ ih _ hd
      exact valid_live_or_tombstone_destroy g w w1 live e ih hd
    · intro g w w1 live _ ih hso x hx
      have hx' : EcsIsValid w x = true := by
        rw [← EcsIsValid_same_entities w w1 hso.1 x]; exact hx
      rw [hso.2.1]
      exact ih x hx'
  · intro e w1 hd
    obtain ⟨h1, h2, _⟩ := valid_after_destroy g w w1 e hd
    exact ⟨h1, h2⟩

/-- C26, witness: `newWorld`, `newEntity` (the entity (4, 0, Entity)), then
`destroyEntity` of it. -/
theorem EcsIsValid_live_or_tombstone_witness :
    EcsIsValid (plainWorld [⟨4, 1, 0⟩] [4]) ⟨4, 0, 0⟩ = false ∧
    ∀ x : Entity, x.id = 4 →
      (EcsIsValid (plainWorld [⟨4, 1, 0⟩] [4]) x = true ↔ x = ⟨4, 1, 0⟩) :=
  (EcsIsValid_live_or_tombstone false freshGlobals (plainWorld [⟨4, 0, 0⟩] [])
    (⟨4, 0, 0⟩ ::
      [freshGlobals.EcsSystem, freshGlobals.EcsPrefab, freshGlobals.EcsRelation,
       freshGlobals.EcsChildOf])
    (Reachable.newEntity freshGlobals freshWorld (plainWorld [⟨4, 0, 0⟩] []) _ ⟨4, 0, 0⟩
      (Reachable.newWorld sizes0 0 freshGlobals freshWorld (by decide)) (by decide))).2
    ⟨4, 0, 0⟩ (plainWorld [⟨4, 1, 0⟩] [4]) (by decide)

/-- C25 (amended): in every world reachable from `newWorld` by public
operations in which `destroyEntity` is only called on live entities (returned
by a creation operation and not destroyed since), with 32-bit table indices:
the recycle list contains no id twice and no id of a live entity (live
entities are valid); a creation operation never returns an entity whose id is
the id of a live entity; and two successive `newEntity` calls never return the
same entity value. -/
theorem recycle_list_no_duplicates (g : Globals) (w : EcsWorld) (live : List Entity)
    (h : Reachable true g w live) (hsize : w.entities.length ≤ 4294967296) :
    w.recyclable.Nodup ∧
    (∀ x ∈ live, EcsIsValid w x = true ∧ x.id ∉ w.recyclable) ∧
    (∀ e w1, CreatedBy g w e w1 → w1.entities.length ≤ 4294967296 →
      ∀ x ∈ live, e.id ≠ x.id) ∧
    (∀ e1 w1 e2 w2, EcsNewEntity w = some (e1, w1) → EcsNewEntity w1 = some (e2, w2) →
      w2.entities.length ≤ 4294967296 → e1 ≠ e2) := by
  have hinv := Reachable.tableInvariant g w live h hsize
  refine ⟨hinv.2.2.1, ?_, ?_, ?_⟩
  · intro x hx
    refine ⟨EcsIsValid_of_getElem? w x (hinv.1 x hx), ?_⟩
    intro hm
    exact (hinv.2.1 x.id hm).2 x hx rfl
  · intro e w1 hc hs1 x hx
    exact Ne.symm ((TableInvariant_create w w1 live e hinv
      (TableCreate_of_createdBy g w w1 e hc) hs1).2 x hx)
  · intro e1 w1 e2 w2 h1 h2 hs2 heq
    have hc2 := TableCreate_newEntity w1 w2 e2 h2
    have hlen := TableCreate_length w1 w2 e2 hc2
    have hr1 : Reachable true g w1 (e1 :: live) := Reachable.newEntity g w w1 live e1 h h1
    have hinv1 := Reachable.tableInvariant g w1 (e1 :: live) hr1 (by omega)
    have := (TableInvariant_create w1 w2 (e1 :: live) e2 hinv1 hc2 hs2).2 e1
      (List.mem_cons_self _ _)
    exact this (by rw [heq])

/-- C25, witness: `newWorld`, `newEntity`, then `destroyEntity` of the live
entity (4, 0, Entity): the recycle list is `[4]`; the next two `newEntity`
calls return different entities. -/
theorem recycle_list_no_duplicates_witness :
    (plainWorld [⟨4, 1, 0⟩] [4]).recyclable.Nodup ∧
    (∀ e1 w1 e2 w2, EcsNewEntity (plainWorld [⟨4, 1, 0⟩] [4]) = some (e1, w1) →
      EcsNewEntity w1 = some (e2, w2) → w2.entities.length ≤ 4294967296 → e1 ≠ e2) :=
  have h := recycle_list_no_duplicates freshGlobals (plainWorld [⟨4, 1, 0⟩] [4])
    ((⟨4, 0, 0⟩ ::
      [freshGlobals.EcsSystem, freshGlobals.EcsPrefab, freshGlobals.EcsRelation,
       freshGlobals.EcsChildOf]).filter (fun x => decide (x ≠ ⟨4, 0, 0⟩)))
    (Reachable.destroyEntity freshGlobals (plainWorld [⟨4, 0, 0⟩] [])
      (plainWorld [⟨4, 1, 0⟩] [4]) _ ⟨4, 0, 0⟩
      (Reachable.newEntity freshGlobals freshWorld (plainWorld [⟨4, 0, 0⟩] []) _ ⟨4, 0, 0⟩
        (Reachable.newWorld sizes0 0 freshGlobals freshWorld (by decide)) (by decide))
      (fun _ => by decide) (by decide))
    (by decide)
  ⟨h.1, h.2.2.2⟩

theorem StorageRemove_eq_removed (st : EcsStorage) (e : Entity)
    (hc : StorageConsistent st) (hhas : SparseHas st.sparse e = some true) :
    StorageRemove st e = some (removed st e) := by
  have hnil : e.id ≠ EcsNil := by
    intro h; simp [SparseHas, h] at hhas
  have hhas' := hhas
  rw [SparseHas_of_ne_nil _ _ hnil] at hhas'
  simp only [Option.some.injEq, Bool.and_eq_true, decide_eq_true_eq] at hhas'
  obtain ⟨hlt, hne⟩ := hhas'
  obtain ⟨hpos, _⟩ := hc.1.1 e.id hlt hne
  have hslot : st.sparse.sparse[e.id]? = some (st.sparse.sparse.getD e.id EcsNilEntity) := by
    rw [List.getD_eq_getElem?_getD, List.getElem?_eq_getElem hlt]; rfl
  have hlastlt : st.sparse.dense.length - 1 < st.sparse.dense.length := by omega
  have hlast : st.sparse.dense.getLast? =
      some (st.sparse.dense.getD (st.sparse.dense.length - 1) EcsNilEntity) := by
    rw [List.getLast?_eq_getElem?, List.getD_eq_getElem?_getD, List.getElem?_eq_getElem hlastlt]
    rfl
  obtain ⟨hother, _⟩ := hc.1.2 (st.sparse.dense.length - 1) hlastlt
  have hrem : SparseRemove st.sparse e = some ((removed st e).sparse,
      (st.sparse.sparse.getD e.id EcsNilEntity).id) := by
    simp only [SparseRemove, hhas, ENTITY_ID_eq, hslot, hlast, hother, hpos, if_true, removed]
  have hposd : (st.sparse.sparse.getD e.id EcsNilEntity).id < st.data.length := by
    rw [hc.2]; exact hpos
  have hdlast : st.data.length - 1 < st.data.length := by omega
  have hlastd : st.data.getLast? = some (st.data.getD (st.data.length - 1) Payload.uninit) := by
    rw [List.getLast?_eq_getElem?, List.getD_eq_getElem?_getD, List.getElem?_eq_getElem hdlast]
    rfl
  simp only [StorageRemove, hrem, hlastd, hposd, if_true, removed]

theorem SparseHas_slot (s : EcsSparse) (x : Entity) (hnil : x.id ≠ EcsNil) :
    SparseHas s x = some (match s.sparse[x.id]? with
      | some slot => decide (slot.id ≠ EcsNil)
      | none => false) := by
  rw [SparseHas_of_ne_nil _ _ hnil]
  rcases Nat.lt_or_ge x.id s.sparse.length with h | h
  · rw [List.getD_eq_getElem?_getD, List.getElem?_eq_getElem h, decide_eq_true h]
    rfl
  · rw [List.getElem?_eq_none h, decide_eq_false (by omega)]
    rfl

theorem SparseAt_slot (s : EcsSparse) (x : Entity) (hnil : x.id ≠ EcsNil) :
    SparseAt s x = (s.sparse[x.id]?).map (fun slot => slot.id) := by
  simp only [SparseAt, ENTITY_ID_eq, hnil, if_false]
  cases s.sparse[x.id]? <;> rfl

theorem StoragePayload_slot (st : EcsStorage) (x : Entity) (hnil : x.id ≠ EcsNil) :
    StoragePayload st x =
      match st.sparse.sparse[x.id]? with
      | none => some none
      | some slot =>
        if slot.id ≠ EcsNil then
          if slot.id < st.data.length then (st.data[slot.id]?).map some else none
        else some none := by
  simp only [StoragePayload, StorageHas_of_ne_nil _ _ hnil, SparseHas_slot _ _ hnil, StorageGet,
    ENTITY_IS_NIL, ENTITY_ID_eq, hnil, decide_False, Bool.false_eq_true, if_false,
    SparseAt_slot _ _ hnil, StorageAt]
  cases hs : st.sparse.sparse[x.id]? with
  | none => rfl
  | some slot =>
    by_cases h1 : slot.id ≠ EcsNil
    · simp only [decide_eq_true h1, Option.map_some', if_pos h1]
      by_cases h2 : slot.id < st.data.length
      · simp only [if_pos h2]
      · simp only [if_neg h2]
    · simp only [decide_eq_false h1, if_neg h1]

theorem removed_frame (st : EcsStorage) (e x : Entity)
    (hc : StorageConsistent st) (hlen : st.sparse.dense.length ≤ EcsNil)
    (hhas : SparseHas st.sparse e = some true) (hxe : x.id ≠ e.id) :
    StorageHas (removed st e) x = StorageHas st x ∧
    StoragePayload (removed st e) x = StoragePayload st x := by
  by_cases hxnil : x.id = EcsNil
  · simp [StorageHas, StoragePayload, ENTITY_IS_NIL, hxnil]
  have hnil : e.id ≠ EcsNil := by
    intro h; simp [SparseHas, h] at hhas
  rw [SparseHas_of_ne_nil _ _ hnil] at hhas
  simp only [Option.some.injEq, Bool.and_eq_true, decide_eq_true_eq] at hhas
  obtain ⟨hlt, hne⟩ := hhas
  obtain ⟨hpos, hdpos⟩ := hc.1.1 e.id hlt hne
  have hlastlt : st.sparse.dense.length - 1 < st.sparse.dense.length := by omega
  obtain ⟨hother, hsother⟩ := hc.1.2 (st.sparse.dense.length - 1) hlastlt
  have hdata := hc.2
  -- the sparse slot of x and the data slots after the removal
  have hslot1 : (removed st e).sparse.sparse[x.id]? =
      if (st.sparse.dense.getD (st.sparse.dense.length - 1) EcsNilEntity).id = x.id then
        some ⟨(st.sparse.sparse.getD e.id EcsNilEntity).id, 0, 0⟩
      else st.sparse.sparse[x.id]? := by
    show ((st.sparse.sparse.set _ _).set e.id EcsNilEntity)[x.id]? = _
    rw [List.getElem?_set_ne (Ne.symm hxe), List.getElem?_set]
    split
    · rfl
    · rfl
  have hdlen1 : (removed st e).data.length = st.data.length - 1 := by
    simp [removed]
  have hdata1 : ∀ p, p < st.data.length - 1 →
      (removed st e).data[p]? =
        if (st.sparse.sparse.getD e.id EcsNilEntity).id = p then st.data[st.data.length - 1]?
        else st.data[p]? := by
    intro p hp
    show ((st.data.set _ _).dropLast)[p]? = _
    rw [List.getElem?_dropLast, List.length_set, if_pos hp, List.getElem?_set]
    split
    · rw [if_pos (by omega), List.getD_eq_getElem?_getD,
        List.getElem?_eq_getElem (by omega : st.data.length - 1 < st.data.length)]
      rfl
    · rfl
  have hboth : StoragePayload (removed st e) x = StoragePayload st x ∧
      SparseHas (removed st e).sparse x = SparseHas st.sparse x := by
    rw [StoragePayload_slot _ _ hxnil, StoragePayload_slot _ _ hxnil,
      SparseHas_slot _ _ hxnil, SparseHas_slot _ _ hxnil, hslot1, hdlen1]
    by_cases hxo : (st.sparse.dense.getD (st.sparse.dense.length - 1) EcsNilEntity).id = x.id
    · -- x is the entity that is moved
      rw [if_pos hxo]
      have hxlt : x.id < st.sparse.sparse.length := by rw [← hxo]; exact hother
      have hsx : st.sparse.sparse[x.id]? = some (st.sparse.sparse.getD x.id EcsNilEntity) := by
        rw [List.getD_eq_getElem?_getD, List.getElem?_eq_getElem hxlt]; rfl
      have hsxid : (st.sparse.sparse.getD x.id EcsNilEntity).id = st.sparse.dense.length - 1 := by
        rw [← hxo]; exact hsother
      have hposne : (st.sparse.sparse.getD e.id EcsNilEntity).id ≠ st.sparse.dense.length - 1 := by
        intro h
        rw [h, hxo] at hdpos
        exact hxe hdpos
      have hlastne : st.sparse.dense.length - 1 ≠ EcsNil := by omega
      have hp1 : (st.sparse.sparse.getD e.id EcsNilEntity).id < st.data.length - 1 := by omega
      rw [hsx]
      simp only [hsxid, if_pos hne, if_pos hp1, if_pos hlastne, decide_eq_true hne,
        decide_eq_true hlastne]
      rw [hdata1 _ hp1, if_pos rfl, hdata, if_pos hlastlt]
      exact ⟨rfl, trivial⟩
    · rw [if_neg hxo]
      cases hsx : st.sparse.sparse[x.id]? with
      | none => exact ⟨rfl, rfl⟩
      | some slot =>
        refine ⟨?_, rfl⟩
        by_cases hsn : slot.id ≠ EcsNil
        · simp only [if_pos hsn]
          have hxlt : x.id < st.sparse.sparse.length := lt_length_of_getElem? hsx
          have hgd : st.sparse.sparse.getD x.id EcsNilEntity = slot := getD_eq_of_getElem? hsx
          obtain ⟨hp, hd⟩ := hc.1.1 x.id hxlt (by rw [hgd]; exact hsn)
          rw [hgd] at hp hd
          have hne1 : slot.id ≠ st.sparse.dense.length - 1 := by
            intro h; rw [h] at hd; exact hxo hd
          have hne2 : (st.sparse.sparse.getD e.id EcsNilEntity).id ≠ slot.id := by
            intro h; rw [← h, hdpos] at hd; exact hxe hd.symm
          have hp1 : slot.id < st.data.length - 1 := by omega
          rw [if_pos hp1, if_pos (by omega : slot.id < st.data.length), hdata1 _ hp1,
            if_neg hne2]
        · simp only [if_neg hsn]
  refine ⟨?_, hboth.1⟩
  rw [StorageHas_of_ne_nil _ _ hxnil, StorageHas_of_ne_nil _ _ hxnil]
  exact hboth.2

theorem destroyLoop_effect (e : Entity) :
    ∀ (k : Nat) (ss ss1 : List EcsStorage), destroyLoop e k ss = some ss1 →
      ∀ (i : Nat) (st : EcsStorage), ss[i]? = some st → ∃ st1, ss1[i]? = some st1 ∧
        (st1 = st ∨
          (i < k ∧ SparseHas st.sparse e = some true ∧ StorageRemove st e = some st1)) := by
  intro k
  induction k with
  | zero =>
    intro ss ss1 h i st hst
    simp only [destroyLoop, Option.some.injEq] at h
    subst h
    exact ⟨st, hst, Or.inl rfl⟩
  | succ k ih =>
    intro ss ss1 h i st hst
    simp only [destroyLoop] at h
    cases hs : ss[k]? with
    | none => simp [hs] at h
    | some stk =>
      simp only [hs] at h
      cases hb : SparseHas stk.sparse e with
      | none => simp [hb] at h
      | some b =>
        cases b with
        | false =>
          simp only [hb] at h
          obtain ⟨st1, h1, h2⟩ := ih ss ss1 h i st hst
          refine ⟨st1, h1, ?_⟩
          rcases h2 with h2 | ⟨h2, h3, h4⟩
          · exact Or.inl h2
          · exact Or.inr ⟨Nat.lt_succ_of_lt h2, h3, h4⟩
        | true =>
          simp only [hb] at h
          cases hr : StorageRemove stk e with
          | none => simp [hr] at h
          | some stk1 =>
            simp only [hr] at h
            have hk : k < ss.length := lt_length_of_getElem? hs
            by_cases hik : k = i
            · subst hik
              rw [hs] at hst
              cases hst
              obtain ⟨st1, h1, h2⟩ := ih _ ss1 h k stk1 (List.getElem?_set_self hk)
              rcases h2 with h2 | ⟨h2, _⟩
              · subst h2
                exact ⟨st1, h1, Or.inr ⟨Nat.lt_succ_self k, hb, hr⟩⟩
              · exact absurd h2 (Nat.lt_irrefl k)
            · obtain ⟨st1, h1, h2⟩ :=
                ih _ ss1 h i st (by rw [List.getElem?_set_ne hik]; exact hst)
              refine ⟨st1, h1, ?_⟩
              rcases h2 with h2 | ⟨h2, h3, h4⟩
              · exact Or.inl h2
              · exact Or.inr ⟨Nat.lt_succ_of_lt h2, h3, h4⟩

theorem findStorage_of_componentIds (ss ss1 : List EcsStorage) (id : Nat)
    (h : ss1.map (fun st => st.componentId) = ss.map (fun st => st.componentId)) :
    findStorage ss1 id = findStorage ss id := by
  induction ss generalizing ss1 with
  | nil =>
    cases ss1 with
    | nil => rfl
    | cons a l => simp at h
  | cons s rest ih =>
    cases ss1 with
    | nil => simp at h
    | cons a l =>
      simp only [List.map_cons, List.cons.injEq] at h
      simp only [findStorage, h.1, ih l h.2]

theorem StoragePayload_of_get (w : EcsWorld) (x c : Entity) (i : Nat) (st : EcsStorage)
    (hx : EcsIsValid w x = true) (hc : EcsIsValid w c = true)
    (hfind : EcsFind w c = some i) (hst : w.storages[i]? = some st) :
    EcsHas w x c = StorageHas st x ∧ EcsGetPayload w x c = StoragePayload st x := by
  constructor
  · simp [EcsHas, hx, hc, hfind, hst]
  · simp only [EcsGetPayload, EcsGet, hx, hc, hfind, hst, StoragePayload, Bool.not_true,
      Bool.false_eq_true, if_false]
    cases hh : StorageHas st x with
    | none => rfl
    | some b =>
      cases b with
      | false => rfl
      | true =>
        simp only
        cases hg : StorageGet st x with
        | none => rfl
        | some pos => simp [readPtr, hst]

/-- The effect of `DestroyEntity` on another entity's membership and payload
in the storage of a component that remains valid. -/
theorem DestroyEntity_frame_aux (g : Globals) (w w1 : EcsWorld) (e x c : Entity)
    (hcons : ∀ st ∈ w.storages, StorageConsistent st)
    (hlen : ∀ st ∈ w.storages, st.sparse.dense.length ≤ EcsNil)
    (hxe : x.id ≠ e.id) (hce : c.id ≠ e.id)
    (hd : DestroyEntity g w e = some w1) :
    EcsIsValid w1 x = EcsIsValid w x ∧ EcsHas w1 x c = EcsHas w x c ∧
    EcsGetPayload w1 x c = EcsGetPayload w x c := by
  obtain ⟨_, _, _, hids, hloop⟩ := DestroyEntity_inv g w w1 e hd
  obtain ⟨_, _, hother⟩ := valid_after_destroy g w w1 e hd
  have hvx := hother x hxe
  have hvc := hother c hce
  have hfind : EcsFind w1 c = EcsFind w c := findStorage_of_componentIds _ _ _ hids
  refine ⟨hvx, ?_⟩
  by_cases hx : EcsIsValid w x = true
  · by_cases hc : EcsIsValid w c = true
    · cases hf : EcsFind w c with
      | none =>
        simp [EcsHas, EcsGetPayload, EcsGet, hfind, hf]
      | some i =>
        obtain ⟨st, hst, _⟩ := findStorage_some hf
        obtain ⟨st1, hst1, heff⟩ := destroyLoop_effect e _ _ _ hloop i st hst
        have h1 := StoragePayload_of_get w1 x c i st1 (by rw [hvx]; exact hx)
          (by rw [hvc]; exact hc) (by rw [hfind]; exact hf) hst1
        have h0 := StoragePayload_of_get w x c i st hx hc hf hst
        rw [h1.1, h1.2, h0.1, h0.2]
        rcases heff with rfl | ⟨_, hhas, hrem⟩
        · exact ⟨rfl, rfl⟩
        · have hmem := List.getElem?_mem hst
          rw [StorageRemove_eq_removed st e (hcons st hmem) hhas] at hrem
          cases hrem
          exact removed_frame st e x (hcons st hmem) (hlen st hmem) hhas hxe
    · have hc1 : EcsIsValid w1 c = false := by rw [hvc]; simpa using hc
      have hc0 : EcsIsValid w c = false := by simpa using hc
      simp [EcsHas, EcsGetPayload, EcsGet, hc1, hc0]
  · have hx1 : EcsIsValid w1 x = false := by rw [hvx]; simpa using hx
    have hx0 : EcsIsValid w x = false := by simpa using hx
    simp [EcsHas, EcsGetPayload, EcsGet, hx1, hx0]

/-- `DestroyEntity` returns normally on a valid entity of a consistent world
when the built-in component its kind needs is valid and registered. -/
theorem DestroyEntity_succeeds (g : Globals) (w : EcsWorld) (e : Entity)
    (hv : EcsIsValid w e = true) (hnil : e.id ≠ EcsNil)
    (hcons : ∀ st ∈ w.storages, StorageConsistent st)
    (hsys : e.flag = EcsSystemType →
      EcsIsValid w g.EcsSystem = true ∧ (EcsFind w g.EcsSystem).isSome = true)
    (hpre : e.flag = EcsPrefabType →
      EcsIsValid w g.EcsPrefab = true ∧ (EcsFind w g.EcsPrefab).isSome = true) :
    ∃ w1, DestroyEntity g w e = some w1 := by
  have hlook : (if e.flag = EcsSystemType then (EcsGet w e g.EcsSystem).map (fun _ => ())
      else if e.flag = EcsPrefabType then (EcsGet w e g.EcsPrefab).map (fun _ => ())
      else some ()) = some () := by
    by_cases h1 : e.flag = EcsSystemType
    · obtain ⟨ha, hb⟩ := hsys h1
      have := EcsGet_isSome w e g.EcsSystem hv ha hb hnil hcons
      obtain ⟨p, hp⟩ := Option.isSome_iff_exists.mp this
      rw [if_pos h1, hp]; rfl
    · by_cases h2 : e.flag = EcsPrefabType
      · obtain ⟨ha, hb⟩ := hpre h2
        have := EcsGet_isSome w e g.EcsPrefab hv ha hb hnil hcons
        obtain ⟨p, hp⟩ := Option.isSome_iff_exists.mp this
        rw [if_neg h1, if_pos h2, hp]; rfl
      · simp [h1, h2]
  obtain ⟨ss1, hloop, _, _, _⟩ :=
    destroyLoop_of_consistent e hnil w.storages.length w.storages (Nat.le_refl _)
      (fun i st _ h => hcons st (List.getElem?_mem h))
  refine ⟨{ w with
      entities := w.entities.set e.id (ECS_COMPOSE_ENTITY e.id (wrapVersion (e.version + 1)) 0),
      recyclable := w.recyclable ++ [e.id],
      storages := ss1 }, ?_⟩
  simp only [DestroyEntity, hv, hlook, hloop, ENTITY_ID_eq, ENTITY_VERSION_eq]
  rfl

/-- C23 (amended): in a world whose storages are consistent (sparse/dense
consistency, one data slot per dense entry, dense arrays of at most
`EcsNil` entries), for a valid entity `e` (not nil; when of kind System or
Prefab, the built-in component of that kind is valid and registered), every
other valid entity `x` with `id(x) ≠ id(e)` and every component `c` with
`id(c) ≠ id(e)`: `destroyEntity(e)` succeeds, leaves `isValid(x)` true, and
leaves the result of `has(x, c)` and the payload read through `get(x, c)`
unchanged. -/
theorem DestroyEntity_frame (g : Globals) (w : EcsWorld) (e x c : Entity)
    (hcons : ∀ st ∈ w.storages, StorageConsistent st)
    (hlen : ∀ st ∈ w.storages, st.sparse.dense.length ≤ EcsNil)
    (hv : EcsIsValid w e = true) (hnil : e.id ≠ EcsNil)
    (hsys : e.flag = EcsSystemType →
      EcsIsValid w g.EcsSystem = true ∧ (EcsFind w g.EcsSystem).isSome = true)
    (hpre : e.flag = EcsPrefabType →
      EcsIsValid w g.EcsPrefab = true ∧ (EcsFind w g.EcsPrefab).isSome = true)
    (hx : EcsIsValid w x = true) (hxe : x.id ≠ e.id) (hce : c.id ≠ e.id) :
    ∃ w1, DestroyEntity g w e = some w1 ∧ EcsIsValid w1 x = true ∧
      EcsHas w1 x c = EcsHas w x c ∧ EcsGetPayload w1 x c = EcsGetPayload w x c := by
  obtain ⟨w1, hd⟩ := DestroyEntity_succeeds g w e hv hnil hcons hsys hpre
  obtain ⟨h1, h2, h3⟩ := DestroyEntity_frame_aux g w w1 e x c hcons hlen hxe hce hd
  exact ⟨w1, hd, by rw [h1]; exact hx, h2, h3⟩

/-- C23, witness: in `sharedStorageWorld` entities 5 and 6 both hold the
component (4, 0, Component); destroying entity 5 moves the slot of entity 6,
and entity 6 still has the component with the bytes [5, 6, 7, 8]. -/
theorem DestroyEntity_frame_witness :
    EcsHas sharedStorageWorld ⟨6, 0, 0⟩ ⟨4, 0, 1⟩ = some true ∧
    EcsGetPayload sharedStorageWorld ⟨6, 0, 0⟩ ⟨4, 0, 1⟩ =
      some (some (Payload.bytes [5, 6, 7, 8])) ∧
    EcsGet sharedStorageWorld ⟨6, 0, 0⟩ ⟨4, 0, 1⟩ = some (some ⟨4, 1⟩) ∧
    ∃ w1, DestroyEntity freshGlobals sharedStorageWorld ⟨5, 0, 0⟩ = some w1 ∧
      EcsIsValid w1 ⟨6, 0, 0⟩ = true ∧
      EcsHas w1 ⟨6, 0, 0⟩ ⟨4, 0, 1⟩ = EcsHas sharedStorageWorld ⟨6, 0, 0⟩ ⟨4, 0, 1⟩ ∧
      EcsGetPayload w1 ⟨6, 0, 0⟩ ⟨4, 0, 1⟩ =
        EcsGetPayload sharedStorageWorld ⟨6, 0, 0⟩ ⟨4, 0, 1⟩ :=
  ⟨by decide, by decide, by decide,
   DestroyEntity_frame freshGlobals sharedStorageWorld ⟨5, 0, 0⟩ ⟨6, 0, 0⟩ ⟨4, 0, 1⟩
    (by decide) (by decide) (by decide) (by decide) (by decide) (by decide) (by decide)
    (by decide) (by decide)⟩

theorem Reachable.systemStorage {strict : Bool} (g : Globals) (w : EcsWorld)
    (live : List Entity) (h : Reachable strict g w live) :
    g.EcsSystem = ⟨0, 0, EcsComponentType⟩ ∧
    ∃ rest, w.storages.map (fun st => st.componentId) = g.EcsSystem :: rest := by
  refine Reachable.by_effect
    (fun g w _ => g.EcsSystem = ⟨0, 0, EcsComponentType⟩ ∧
      ∃ rest, w.storages.map (fun st => st.componentId) = g.EcsSystem :: rest)
    ?_ ?_ ?_ ?_ g w live h
  · intro sz n g w h
    obtain ⟨hg, _, _, hs⟩ := EcsNewWorld_inv sz n g w h
    subst hg
    exact ⟨rfl, _, hs⟩
  · intro g w w1 live e _ hp hc
    obtain ⟨_, _, _, _, _, rest, hrest⟩ := TableCreate_of_createdBy g w w1 e hc
    obtain ⟨hg, r0, hr0⟩ := hp
    exact ⟨hg, r0 ++ rest, by rw [hrest, hr0]; rfl⟩
  · intro g w w1 live e _ hp _ hd
    obtain ⟨_, _, _, hids, _⟩ := DestroyEntity_inv g w w1 e hd
    obtain ⟨hg, r0, hr0⟩ := hp
    exact ⟨hg, r0, by rw [hids, hr0]⟩
  · intro g w w1 live _ hp hs
    obtain ⟨hg, r0, hr0⟩ := hp
    exact ⟨hg, r0, by rw [hs.2.2, hr0]⟩

theorem Reachable.systemFind {strict : Bool} (g : Globals) (w : EcsWorld)
    (live : List Entity) (h : Reachable strict g w live) :
    ENTITY_ID g.EcsSystem = 0 ∧ EcsFind w g.EcsSystem = some 0 := by
  obtain ⟨hg, rest, hrest⟩ := Reachable.systemStorage g w live h
  refine ⟨by rw [hg]; rfl, ?_⟩
  cases hs : w.storages with
  | nil => rw [hs] at hrest; simp at hrest
  | cons s ss =>
    rw [hs] at hrest
    simp only [List.map_cons, List.cons.injEq] at hrest
    simp only [EcsFind, hs, findStorage, hrest.1]
    simp

theorem SparseHas_of_mem_dense (s : EcsSparse) (e : Entity) (hcons : SparseConsistent s)
    (hlen : s.dense.length ≤ EcsNil) (hnil : e.id ≠ EcsNil) (hmem : e ∈ s.dense) :
    SparseHas s e = some true := by
  obtain ⟨p, hp⟩ := List.getElem?_of_mem hmem
  have hpl : p < s.dense.length := lt_length_of_getElem? hp
  have hd : s.dense.getD p EcsNilEntity = e := getD_eq_of_getElem? hp
  obtain ⟨h1, h2⟩ := hcons.2 p hpl
  rw [hd] at h1 h2
  rw [SparseHas_of_ne_nil s e hnil, decide_eq_true h1, h2,
    decide_eq_true (show p ≠ EcsNil from by omega)]
  rfl

theorem EcsRunSystem_of_storage (g : Globals) (w : EcsWorld) (e : Entity) (i : Nat)
    (st : EcsStorage)
    (he : EcsIsValid w e = true) (hk : e.flag = EcsSystemType)
    (hsys : EcsIsValid w g.EcsSystem = true)
    (hfind : EcsFind w g.EcsSystem = some i) (hst : w.storages[i]? = some st)
    (hhas : StorageHas st e = some true) :
    EcsRunSystem g w e =
      match StorageGet st e with
      | none => none
      | some pos =>
        match st.data[pos]? with
        | some (Payload.system cb comps _) => (EcsQuery w 0 comps).map (fun qs => (cb, qs))
        | _ => none := by
  simp only [EcsRunSystem, EcsGet, he, hsys, hfind, hst, hhas, ENTITY_ISA, hk, decide_True,
    Bool.not_true, Bool.false_eq_true, if_false]
  cases hg : StorageGet st e with
  | none => rfl
  | some pos => simp only [readPtr, hst]

theorem stepLoop_eq_runEnabled (g : Globals) (w : EcsWorld) (i : Nat) (st : EcsStorage)
    (hsys : EcsIsValid w g.EcsSystem = true)
    (hfind : EcsFind w g.EcsSystem = some i) (hst : w.storages[i]? = some st) :
    ∀ l : List Entity,
      (∀ e ∈ l, EcsIsValid w e = true ∧ e.flag = EcsSystemType ∧
        StorageHas st e = some true) →
      stepLoop w st l = runEnabled g w l := by
  intro l
  induction l with
  | nil => intro _; rfl
  | cons e rest ih =>
    intro h
    obtain ⟨he, hk, hhas⟩ := h e (List.mem_cons_self _ _)
    have ih1 := ih (fun x hx => h x (List.mem_cons_of_mem _ hx))
    have hpay := (StoragePayload_of_get w e g.EcsSystem i st he hsys hfind hst).2
    have hrun := EcsRunSystem_of_storage g w e i st he hk hsys hfind hst hhas
    simp only [stepLoop, runEnabled, hpay, StoragePayload, hhas, hrun, ih1]
    cases hg : StorageGet st e with
    | none => rfl
    | some pos =>
      simp only
      cases hd : st.data[pos]? with
      | none => rfl
      | some v =>
        cases v with
        | system cb comps en =>
          cases en with
          | false => 
            simp only [Option.map_some', Bool.false_eq_true, if_false]
            cases runEnabled g w rest <;> rfl
          | true =>
            simp only [Option.map_some', if_true]
            cases EcsQuery w 0 comps with
            | none => rfl
            | some qs =>
              simp only [Option.map_some']
              cases runEnabled g w rest <;> rfl
        | uninit => rfl
        | bytes b => rfl
        | prefab c => rfl
        | relation a b => rfl

theorem EcsStep_eq_stepBySpec {strict : Bool} (g : Globals) (w : EcsWorld)
    (live : List Entity) (hr : Reachable strict g w live) (hwf : SystemsWellFormed g w) :
    EcsStep g w = stepBySpec g w ∧ EcsStep g w = runEnabled g w (systemsOf g w) := by
  obtain ⟨hid, hfind⟩ := Reachable.systemFind g w live hr
  obtain ⟨hsys, st, hst, hcons, hlen, hdense⟩ := hwf
  rw [hid] at hst
  have key : stepLoop w st st.sparse.dense = runEnabled g w st.sparse.dense := by
    apply stepLoop_eq_runEnabled g w 0 st hsys hfind hst
    intro e he
    obtain ⟨h1, h2, h3⟩ := hdense e he
    refine ⟨h1, h2, ?_⟩
    rw [StorageHas_of_ne_nil st e h3]
    exact SparseHas_of_mem_dense st.sparse e hcons.1 hlen h3 he
  simp only [EcsStep, stepBySpec, systemsOf, hid, hst, hfind, key, and_self]

theorem EcsGetPayload_of_get_write (w1 w : EcsWorld) (E C : Entity) (p : DataPtr) (v : Payload)
    (hg : EcsGet w1 E C = some (some p)) (hw : writePtr w1 p v = some w) :
    EcsGetPayload w E C = some (some v) := by
  obtain ⟨hE, hC, _, hh⟩ := HoldsAt_of_get_write w1 w E C p v hg hw
  obtain ⟨h1, h2⟩ := EcsGet_of_HoldsAt w C E v p.storage p.pos hE hC hh
  simp only [EcsGetPayload, h1, h2, Option.map_some']

theorem EcsNewSystem_payload (fuel : Nat) (g : Globals) (w w1 : EcsWorld) (fn : Nat)
    (comps : List Entity) (e : Entity)
    (h : EcsNewSystem fuel g w fn comps = some (some (e, w1))) :
    EcsGetPayload w1 e g.EcsSystem = some (some (Payload.system fn comps true)) := by
  simp only [EcsNewSystem] at h
  cases h0 : EcsNewEntityType w EcsSystemType with
  | none => simp [h0] at h
  | some r =>
    obtain ⟨e0, w0⟩ := r
    simp only [h0] at h
    cases ha : EcsAttach fuel g w0 e0 g.EcsSystem with
    | none => simp [ha] at h
    | some r2 =>
      cases r2 with
      | none => simp [ha] at h
      | some w2 =>
        simp only [ha] at h
        cases hg : EcsGet w2 e0 g.EcsSystem with
        | none => simp [hg] at h
        | some r3 =>
          cases r3 with
          | none => simp [hg] at h
          | some c =>
            simp only [hg] at h
            cases hw : writePtr w2 c (Payload.system fn comps true) with
            | none => simp [hw] at h
            | some w3 =>
              simp only [hw, Option.some.injEq, Prod.mk.injEq] at h
              obtain ⟨he, hw3⟩ := h
              subst he; subst hw3
              exact EcsGetPayload_of_get_write w2 w3 e0 g.EcsSystem c _ hg hw

theorem setEnabled_inv (g : Globals) (w w1 : EcsWorld) (s : Entity) (b : Bool)
    (h : setEnabled g w s b = some w1) :
    ∃ p cb comps b0, EcsGet w s g.EcsSystem = some (some p) ∧
      readPtr w p = some (Payload.system cb comps b0) ∧
      writePtr w p (Payload.system cb comps b) = some w1 := by
  simp only [setEnabled] at h
  by_cases hv : EcsIsValid w s = true
  · by_cases hk : ENTITY_ISA s EcsSystemType = true
    · simp only [hv, hk, Bool.not_true, Bool.false_eq_true, if_false] at h
      cases hg : EcsGet w s g.EcsSystem with
      | none => simp [hg] at h
      | some r =>
        cases r with
        | none => simp [hg] at h
        | some p =>
          simp only [hg] at h
          cases hrd : readPtr w p with
          | none => simp [hrd] at h
          | some v =>
            cases v with
            | system cb comps b0 =>
              simp only [hrd] at h
              exact ⟨p, cb, comps, b0, rfl, hrd, h⟩
            | uninit => simp [hrd] at h
            | bytes x => simp [hrd] at h
            | prefab x => simp [hrd] at h
            | relation x y => simp [hrd] at h
    · simp [hv, hk] at h
  · simp [hv] at h

theorem setEnabled_payload (g : Globals) (w w1 : EcsWorld) (s : Entity) (b : Bool)
    (h : setEnabled g w s b = some w1) :
    ∃ cb comps b0, EcsGetPayload w s g.EcsSystem = some (some (Payload.system cb comps b0)) ∧
      EcsGetPayload w1 s g.EcsSystem = some (some (Payload.system cb comps b)) := by
  obtain ⟨p, cb, comps, b0, hg, hrd, hw⟩ := setEnabled_inv g w w1 s b h
  refine ⟨cb, comps, b0, ?_, EcsGetPayload_of_get_write w w1 s g.EcsSystem p _ hg hw⟩
  simp only [EcsGetPayload, hg, hrd, Option.map_some']

theorem setEnabled_wellFormed (g : Globals) (w w1 : EcsWorld) (s : Entity) (b : Bool)
    (hid : ENTITY_ID g.EcsSystem = 0) (hfind : EcsFind w g.EcsSystem = some 0)
    (hwf : SystemsWellFormed g w)
    (h : setEnabled g w s b = some w1) :
    SystemsWellFormed g w1 ∧ systemsOf g w1 = systemsOf g w := by
  obtain ⟨p, cb, comps, b0, hg, hrd, hw⟩ := setEnabled_inv g w w1 s b h
  obtain ⟨_, _, hf, st, hst, _, _, hpos⟩ := EcsGet_some_inv w s g.EcsSystem p hg
  rw [hfind] at hf
  have hp : p.storage = 0 := (Option.some.inj hf).symm
  rw [hp] at hst
  obtain ⟨hsys, st0, hst0, hcons, hlen, hdense⟩ := hwf
  rw [hid] at hst0
  rw [hst] at hst0
  cases hst0
  have hl : 0 < w.storages.length := lt_length_of_getElem? hst
  simp only [writePtr, hp, hst, hpos, if_true, Option.some.injEq] at hw
  subst hw
  have hnew : (w.storages.set 0
      ⟨st.componentId, st.sizeOfComponent, st.data.set p.pos (Payload.system cb comps b),
        st.sparse⟩)[0]? =
      some ⟨st.componentId, st.sizeOfComponent, st.data.set p.pos (Payload.system cb comps b),
        st.sparse⟩ :=
    List.getElem?_set_self hl
  have hval : ∀ x, EcsIsValid ⟨w.entities, w.recyclable, w.storages.set 0
      ⟨st.componentId, st.sizeOfComponent, st.data.set p.pos (Payload.system cb comps b),
        st.sparse⟩, w.nextAvailableId⟩ x = EcsIsValid w x :=
    fun x => EcsIsValid_same_entities w _ rfl x
  constructor
  · refine ⟨by rw [hval]; exact hsys,
      ⟨st.componentId, st.sizeOfComponent, st.data.set p.pos (Payload.system cb comps b),
        st.sparse⟩, ?_, ?_, hlen, ?_⟩
    · rw [hid]; exact hnew
    · exact ⟨hcons.1, by simp [hcons.2]⟩
    · intro e he
      obtain ⟨h1, h2, h3⟩ := hdense e he
      exact ⟨by rw [hval]; exact h1, h2, h3⟩
  · simp only [systemsOf, hid, hnew, hst]

theorem runEnabled_skip (g : Globals) (w : EcsWorld) (s : Entity) (cb : Nat)
    (comps : List Entity)
    (h : EcsGetPayload w s g.EcsSystem = some (some (Payload.system cb comps false))) :
    ∀ l : List Entity,
      runEnabled g w l = runEnabled g w (l.filter (fun x => decide (x ≠ s))) := by
  intro l
  induction l with
  | nil => rfl
  | cons x rest ih =>
    by_cases hx : x = s
    · subst hx
      simp only [List.filter, ne_eq, not_true_eq_false, decide_False]
      rw [← ih]
      simp only [runEnabled, h, Bool.false_eq_true, if_false]
    · simp only [List.filter, ne_eq, hx, not_false_eq_true, decide_True]
      simp only [runEnabled, ih]

theorem runEnabled_run (g : Globals) (w : EcsWorld) (s : Entity) (cb : Nat)
    (comps : List Entity)
    (h : EcsGetPayload w s g.EcsSystem = some (some (Payload.system cb comps true)))
    (rest : List Entity) :
    runEnabled g w (s :: rest) =
      (EcsRunSystem g w s).bind (fun r => (runEnabled g w rest).map (fun more => r :: more)) := by
  simp only [runEnabled, h, if_true]
  cases EcsRunSystem g w s <;> rfl

theorem runEnabled_isSome (g : Globals) (w : EcsWorld) :
    ∀ l : List Entity,
      (∀ e ∈ l, ∃ cb comps en,
        EcsGetPayload w e g.EcsSystem = some (some (Payload.system cb comps en)) ∧
        (en = true → (EcsRunSystem g w e).isSome = true)) →
      (runEnabled g w l).isSome = true := by
  intro l
  induction l with
  | nil => intro _; rfl
  | cons e rest ih =>
    intro h
    obtain ⟨cb, comps, en, hp, hrun⟩ := h e (List.mem_cons_self _ _)
    have ih1 := ih (fun x hx => h x (List.mem_cons_of_mem _ hx))
    obtain ⟨more, hmore⟩ := Option.isSome_iff_exists.mp ih1
    cases en with
    | false => simp only [runEnabled, hp, Bool.false_eq_true, if_false, ih1]
    | true =>
      obtain ⟨r, hr⟩ := Option.isSome_iff_exists.mp (hrun rfl)
      simp only [runEnabled, hp, if_true, hr, hmore, Option.map_some', Option.isSome_some]

theorem Reachable.systemStorageAt {strict : Bool} (g : Globals) (w : EcsWorld)
    (live : List Entity) (h : Reachable strict g w live) :
    ∃ st, w.storages[ENTITY_ID g.EcsSystem]? = some st ∧ st.componentId = g.EcsSystem ∧
      EcsFind w g.EcsSystem = some (ENTITY_ID g.EcsSystem) ∧
      EcsStep g w = stepLoop w st st.sparse.dense := by
  obtain ⟨hid, hfind⟩ := Reachable.systemFind g w live h
  obtain ⟨_, rest, hrest⟩ := Reachable.systemStorage g w live h
  cases hs : w.storages with
  | nil => rw [hs] at hrest; simp at hrest
  | cons s ss =>
    rw [hs] at hrest
    simp only [List.map_cons, List.cons.injEq] at hrest
    refine ⟨s, by rw [hid]; exact List.getElem?_cons_zero, hrest.1, by rw [hid, hfind], ?_⟩
    simp only [EcsStep, hid, hs, List.getElem?_cons_zero]

theorem Later.effect_induction {g : Globals} {id : Nat} {w : EcsWorld}
    (P : EcsWorld → Nat → Prop)
    (hinit : P w 0)
    (hcreate : ∀ w1 w2 n e, Later g id w w1 n → P w1 n → CreatedBy g w1 e w2 → P w2 n)
    (hdestroy : ∀ w1 w2 n e, Later g id w w1 n → P w1 n → DestroyEntity g w1 e = some w2 →
      P w2 (if e.id = id then n + 1 else n))
    (hstorage : ∀ w1 w2 n, Later g id w w1 n → P w1 n → StorageOnly w1 w2 → P w2 n) :
    ∀ w1 n, Later g id w w1 n → P w1 n := by
  intro w1 n h
  induction h with
  | refl => exact hinit
  | newEntity w1 w2 n e hr h1 ih => exact hcreate w1 w2 n e hr ih (Or.inl h1)
  | newComponent w1 w2 n size e hr h1 ih =>
    exact hcreate w1 w2 n e hr ih (Or.inr (Or.inl ⟨size, h1⟩))
  | newSystem w1 w2 n fuel fn comps e hr h1 ih =>
    exact hcreate w1 w2 n e hr ih (Or.inr (Or.inr (Or.inl ⟨fuel, fn, comps, h1⟩)))
  | newPrefab w1 w2 n fuel comps e hr h1 ih =>
    exact hcreate w1 w2 n e hr ih (Or.inr (Or.inr (Or.inr ⟨fuel, comps, h1⟩)))
  | destroyEntity w1 w2 n e hr h1 ih => exact hdestroy w1 w2 n e hr ih h1
  | attach w1 w2 n fuel entity component hr h1 ih =>
    exact hstorage w1 w2 n hr ih (EcsAttach_storageOnly g entity fuel w1 component w2 h1)
  | detach w1 w2 n entity component hr h1 ih =>
    exact hstorage w1 w2 n hr ih (EcsDetach_storageOnly w1 w2 entity component h1)
  | set w1 w2 n entity component data hr h1 ih =>
    exact hstorage w1 w2 n hr ih (EcsSet_storageOnly w1 w2 entity component data h1)
  | associate w1 w2 n fuel entity object relation hr h1 ih =>
    exact hstorage w1 w2 n hr ih
      (EcsAssociate_storageOnly fuel g w1 w2 entity object relation h1)
  | disassociate w1 w2 n entity hr h1 ih =>
    exact hstorage w1 w2 n hr ih (EcsDisassociate_storageOnly g w1 w2 entity h1)
  | enableSystem w1 w2 n system hr h1 ih =>
    exact hstorage w1 w2 n hr ih (setEnabled_storageOnly g w1 w2 system true h1)
  | disableSystem w1 w2 n system hr h1 ih =>
    exact hstorage w1 w2 n hr ih (setEnabled_storageOnly g w1 w2 system false h1)
  | write w1 w2 n entity component p v hr _ h2 ih =>
    exact hstorage w1 w2 n hr ih (writePtr_storageOnly w1 w2 p v h2)

theorem wrapVersion_succ (a : Nat) : wrapVersion (wrapVersion a + 1) = wrapVersion (a + 1) := by
  unfold wrapVersion
  exact (Nat.add_mod a 1 VersionModulus).symm ▸ by
    rw [Nat.add_mod (a % VersionModulus) 1 VersionModulus, Nat.mod_mod]

theorem SlotVersion_create (w w1 : EcsWorld) (e x : Entity) (n : Nat)
    (h : SlotVersion w e n) (hc : TableCreate w x w1) : SlotVersion w1 e n := by
  obtain ⟨y, hy, hv⟩ := h
  obtain ⟨type, w0, h0, he, _, _⟩ := hc
  have hl : e.id < w.entities.length := lt_length_of_getElem? hy
  rcases EcsNewEntityType_cases w w0 type x h0 with
    ⟨idx, z, _, hz, heq, hent, _⟩ | ⟨_, _, hent, _⟩
  · by_cases hi : idx = e.id
    · subst hi
      rw [hy] at hz
      cases hz
      refine ⟨x, ?_, ?_⟩
      · rw [he, hent]; exact List.getElem?_set_self hl
      · rw [heq]; exact hv
    · exact ⟨y, by rw [he, hent, List.getElem?_set_ne hi]; exact hy, hv⟩
  · exact ⟨y, by rw [he, hent, List.getElem?_append_left hl]; exact hy, hv⟩

theorem SlotVersion_destroy (g : Globals) (w w1 : EcsWorld) (e x : Entity) (n : Nat)
    (h : SlotVersion w e n) (hd : DestroyEntity g w x = some w1) :
    SlotVersion w1 e (if x.id = e.id then n + 1 else n) := by
  obtain ⟨y, hy, hv⟩ := h
  obtain ⟨hvalid, he, _, _, _⟩ := DestroyEntity_inv g w w1 x hd
  have hl : e.id < w.entities.length := lt_length_of_getElem? hy
  by_cases hi : x.id = e.id
  · have hx : w.entities[x.id]? = some x := (EcsIsValid_iff w x).mp hvalid
    rw [hi, hy] at hx
    cases hx
    rw [if_pos hi]
    refine ⟨⟨x.id, wrapVersion (x.version + 1), 0⟩, ?_, ?_⟩
    · rw [he, hi]; exact List.getElem?_set_self hl
    · show wrapVersion (x.version + 1) = wrapVersion (e.version + 1 + (n + 1))
      rw [hv, wrapVersion_succ]
      rfl
  · rw [if_neg hi]
    exact ⟨y, by rw [he, List.getElem?_set_ne hi]; exact hy, hv⟩

theorem SlotVersion_later (g : Globals) (w w1 : EcsWorld) (e : Entity) (n : Nat)
    (h : SlotVersion w e 0) (hl : Later g e.id w w1 n) : SlotVersion w1 e n := by
  refine Later.effect_induction (fun w1 n => SlotVersion w1 e n) h ?_ ?_ ?_ w1 n hl
  · intro w1 w2 n x _ ih hc
    exact SlotVersion_create w1 w2 e x n ih (TableCreate_of_createdBy g w1 w2 x hc)
  · intro w1 w2 n x _ ih hd
    exact SlotVersion_destroy g w1 w2 e x n ih hd
  · intro w1 w2 n _ ih hs
    obtain ⟨y, hy, hv⟩ := ih
    exact ⟨y, by rw [hs.1]; exact hy, hv⟩

theorem SlotVersion_of_destroy (g : Globals) (w w1 : EcsWorld) (e : Entity)
    (hd : DestroyEntity g w e = some w1) : SlotVersion w1 e 0 := by
  obtain ⟨hv, he, _, _, _⟩ := DestroyEntity_inv g w w1 e hd
  have hl : e.id < w.entities.length := lt_length_of_getElem? ((EcsIsValid_iff w e).mp hv)
  exact ⟨⟨e.id, wrapVersion (e.version + 1), 0⟩, by rw [he]; exact List.getElem?_set_self hl,
    rfl⟩

theorem not_valid_of_slotVersion (w : EcsWorld) (e : Entity) (n : Nat)
    (h : SlotVersion w e n) (hn : n + 1 < VersionModulus) : EcsIsValid w e = false := by
  obtain ⟨y, hy, hv⟩ := h
  cases hvalid : EcsIsValid w e with
  | false => rfl
  | true =>
    have := (EcsIsValid_iff w e).mp hvalid
    rw [hy] at this
    cases this
    unfold wrapVersion at hv
    unfold VersionModulus at hv hn
    omega

/-- C2 (amended): once `destroyEntity(e)` has run, the table slot at `id(e)`
holds, in every world reached by any further sequence of public operations,
the version `version(e) + 1 + n` wrapped at the width of the version part,
`n` being the number of further `destroyEntity` calls on `id(e)`; so
`isValid(e)` on the old value is false in every such world as long as `id(e)`
has been destroyed fewer than `VersionModulus - 1` further times. -/
theorem EcsIsValid_false_until_wrap (g : Globals) (w w1 w2 : EcsWorld) (e : Entity) (n : Nat)
    (hd : DestroyEntity g w e = some w1) (hl : Later g e.id w1 w2 n) :
    EcsIsValid w e = true ∧ EcsIsValid w1 e = false ∧
    (∃ x, w2.entities[e.id]? = some x ∧ x.version = wrapVersion (e.version + 1 + n)) ∧
    (n + 1 < VersionModulus → EcsIsValid w2 e = false) := by
  have h1 := SlotVersion_of_destroy g w w1 e hd
  have h2 := SlotVersion_later g w1 w2 e n h1 hl
  exact ⟨(DestroyEntity_inv g w w1 e hd).1,
    not_valid_of_slotVersion w1 e 0 h1 (by unfold VersionModulus; omega), h2,
    fun hn => not_valid_of_slotVersion w2 e n h2 hn⟩

theorem grown_id (n : Nat) (h : n + 1 ≤ 4294967296) : dec32 (u32 (n + 1)) = n := by
  rcases Nat.lt_or_ge (n + 1) 4294967296 with h1 | h1
  · rw [u32_of_lt h1, dec32_succ]
  · have : n = 4294967295 := by omega
    rw [this]; rfl

theorem TableIds_create (w w1 : EcsWorld) (e : Entity) (hids : TableIds w)
    (h : TableCreate w e w1) (hsize : w1.entities.length ≤ 4294967296) : TableIds w1 := by
  obtain ⟨type, w0, h0, he, _, _⟩ := h
  rcases EcsNewEntityType_cases w w0 type e h0 with
    ⟨idx, x, _, hx, heq, hent, _⟩ | ⟨_, heq, hent, _⟩
  · have hxid : x.id = idx := hids idx x hx
    have hidx : idx < w.entities.length := lt_length_of_getElem? hx
    intro i z hz
    rw [he, hent] at hz
    by_cases hi : idx = i
    · subst hi
      rw [List.getElem?_set_self hidx] at hz
      cases hz; rw [heq]; exact hxid
    · rw [List.getElem?_set_ne hi] at hz
      exact hids i z hz
  · have hlen : w1.entities.length = w.entities.length + 1 := by rw [he, hent]; simp
    have heid : e.id = w.entities.length := by
      rw [heq]; exact grown_id _ (by omega)
    intro i z hz
    rw [he, hent] at hz
    rcases Nat.lt_or_ge i w.entities.length with hi | hi
    · rw [List.getElem?_append_left hi] at hz
      exact hids i z hz
    · have hi2 : i < (w.entities ++ [e]).length := lt_length_of_getElem? hz
      have : i = w.entities.length := by simp at hi2; omega
      subst this
      simp at hz
      rw [← hz]; exact heid

theorem TableIds_destroy (g : Globals) (w w1 : EcsWorld) (e : Entity) (hids : TableIds w)
    (h : DestroyEntity g w e = some w1) : TableIds w1 := by
  obtain ⟨hv, he, _, _, _⟩ := DestroyEntity_inv g w w1 e h
  have hl : e.id < w.entities.length := lt_length_of_getElem? ((EcsIsValid_iff w e).mp hv)
  intro i z hz
  rw [he] at hz
  by_cases hi : e.id = i
  · subst hi
    rw [List.getElem?_set_self hl] at hz
    cases hz; rfl
  · rw [List.getElem?_set_ne hi] at hz
    exact hids i z hz

theorem TableIds_later (g : Globals) (id : Nat) (w w1 : EcsWorld) (n : Nat)
    (hids : TableIds w) (h : Later g id w w1 n) :
    w1.entities.length ≤ 4294967296 → TableIds w1 := by
  refine Later.effect_induction (fun w1 _ => w1.entities.length ≤ 4294967296 → TableIds w1)
    (fun _ => hids) ?_ ?_ ?_ w1 n h
  · intro w1 w2 _ x _ ih hc hsize
    have hcr := TableCreate_of_createdBy g w1 w2 x hc
    have := TableCreate_length w1 w2 x hcr
    exact TableIds_create w1 w2 x (ih (by omega)) hcr hsize
  · intro w1 w2 _ x _ ih hd hsize
    have hlen : w2.entities.length = w1.entities.length := by
      rw [(DestroyEntity_inv g w1 w2 x hd).2.1]; simp
    exact TableIds_destroy g w1 w2 x (ih (by omega)) hd
  · intro w1 w2 _ _ ih hs hsize
    intro i z hz
    rw [hs.1] at hz hsize
    exact ih hsize i z hz

theorem created_version (g : Globals) (w w1 : EcsWorld) (e x : Entity) (n : Nat)
    (hids : TableIds w) (hslot : SlotVersion w e n) (hc : CreatedBy g w x w1)
    (hsize : w1.entities.length ≤ 4294967296) (hid : x.id = e.id) :
    x.version = wrapVersion (e.version + 1 + n) := by
  obtain ⟨y, hy, hv⟩ := hslot
  obtain ⟨type, w0, h0, he, _, _⟩ := TableCreate_of_createdBy g w w1 x hc
  rcases EcsNewEntityType_cases w w0 type x h0 with
    ⟨idx, z, _, hz, heq, hent, _⟩ | ⟨_, heq, hent, _⟩
  · have hzid : z.id = idx := hids idx z hz
    have : idx = e.id := by rw [← hzid, ← hid, heq]
    subst this
    rw [hy] at hz
    cases hz
    rw [heq]; exact hv
  · have hlen : w1.entities.length = w.entities.length + 1 := by rw [he, hent]; simp
    have hxid : x.id = w.entities.length := by
      rw [heq]; exact grown_id _ (by omega)
    have := lt_length_of_getElem? hy
    omega

/-- C1 (amended): after `destroyEntity(e)` (which accepts only a valid `e`),
`isValid(e)` is false; and in a world whose table slots hold their own index
as id (table of at most 2^32 slots), a creation operation (`newEntity`,
`newComponent`, `newSystem`, `newPrefab`) that, after any further sequence of
public operations with `n` further `destroyEntity` calls on `id(e)`, returns
an entity with the id of `e`, returns it with the version `version(e) + 1 + n`
wrapped at the width of the version part: strictly greater than `version(e)`
when `version(e) + 1 + n` is below `VersionModulus`, and different from
`version(e)` when `n + 1` is. -/
theorem DestroyEntity_generational (g : Globals) (w w1 : EcsWorld) (e : Entity)
    (hd : DestroyEntity g w e = some w1) :
    EcsIsValid w e = true ∧ EcsIsValid w1 e = false ∧
    (TableIds w → ∀ w2 w3 x n, Later g e.id w1 w2 n → CreatedBy g w2 x w3 →
      w3.entities.length ≤ 4294967296 → x.id = e.id →
      x.version = wrapVersion (e.version + 1 + n) ∧
      (e.version + 1 + n < VersionModulus → e.version < x.version) ∧
      (n + 1 < VersionModulus → x.version ≠ e.version)) := by
  have hslot := SlotVersion_of_destroy g w w1 e hd
  refine ⟨(DestroyEntity_inv g w w1 e hd).1,
    not_valid_of_slotVersion w1 e 0 hslot (by unfold VersionModulus; omega), ?_⟩
  intro hids w2 w3 x n hl hc hsize hid
  have hlen2 : w2.entities.length ≤ w3.entities.length :=
    TableCreate_length w2 w3 x (TableCreate_of_createdBy g w2 w3 x hc)
  have hids1 : TableIds w1 := TableIds_destroy g w w1 e hids hd
  have hids2 : TableIds w2 := TableIds_later g e.id w1 w2 n hids1 hl (by omega)
  have hv := created_version g w2 w3 e x n hids2 (SlotVersion_later g w1 w2 e n hslot hl) hc
    hsize hid
  refine ⟨hv, ?_, ?_⟩
  · intro hlt
    rw [hv]
    unfold wrapVersion
    rw [Nat.mod_eq_of_lt hlt]
    omega
  · intro hlt
    rw [hv]
    unfold wrapVersion
    unfold VersionModulus at hlt ⊢
    omega

/-- C1, counterexample: the entity (4, 65535, Entity), of the largest version,
is valid; `destroyEntity` leaves the tombstone (4, 0, 0), the version having
wrapped, and the next `newEntity` reuses id 4 and returns (4, 0, Entity),
whose version is not greater than 65535. -/
theorem DestroyEntity_version_wraps :
    EcsIsValid (plainWorld [⟨4, 65535, 0⟩] []) ⟨4, 65535, 0⟩ = true ∧
    TableIds (plainWorld [⟨4, 65535, 0⟩] []) ∧
    DestroyEntity freshGlobals (plainWorld [⟨4, 65535, 0⟩] []) ⟨4, 65535, 0⟩ =
      some (plainWorld [⟨4, 0, 0⟩] [4]) ∧
    EcsNewEntity (plainWorld [⟨4, 0, 0⟩] [4]) = some (⟨4, 0, 0⟩, plainWorld [⟨4, 0, 0⟩] []) ∧
    ¬ (⟨4, 65535, 0⟩ : Entity).version < (⟨4, 0, 0⟩ : Entity).version := by
  decide

/-- C1, witness: entity (4, 0, Entity) is destroyed; `newEntity` recycles id 4
as (4, 1, Entity), which is destroyed in turn (one further `destroyEntity` on
id 4); the next `newEntity` returns (4, 2, Entity), of a greater version than
the first entity. -/
theorem DestroyEntity_generational_witness :
    EcsIsValid (plainWorld [⟨4, 0, 0⟩] []) ⟨4, 0, 0⟩ = true ∧
    EcsIsValid (plainWorld [⟨4, 1, 0⟩] [4]) ⟨4, 0, 0⟩ = false ∧
    EcsNewEntity (plainWorld [⟨4, 2, 0⟩] [4]) = some (⟨4, 2, 0⟩, plainWorld [⟨4, 2, 0⟩] []) ∧
    (⟨4, 0, 0⟩ : Entity).version < (⟨4, 2, 0⟩ : Entity).version :=
  ⟨(DestroyEntity_generational freshGlobals (plainWorld [⟨4, 0, 0⟩] [])
      (plainWorld [⟨4, 1, 0⟩] [4]) ⟨4, 0, 0⟩ (by decide)).1,
   (DestroyEntity_generational freshGlobals (plainWorld [⟨4, 0, 0⟩] [])
      (plainWorld [⟨4, 1, 0⟩] [4]) ⟨4, 0, 0⟩ (by decide)).2.1,
   by decide,
   ((DestroyEntity_generational freshGlobals (plainWorld [⟨4, 0, 0⟩] [])
      (plainWorld [⟨4, 1, 0⟩] [4]) ⟨4, 0, 0⟩ (by decide)).2.2 (by decide)
      (plainWorld [⟨4, 2, 0⟩] [4]) (plainWorld [⟨4, 2, 0⟩] []) ⟨4, 2, 0⟩ 1
      (Later.destroyEntity _ (plainWorld [⟨4, 1, 0⟩] []) _ 0 ⟨4, 1, 0⟩
        (Later.newEntity _ (plainWorld [⟨4, 1, 0⟩] [4]) _ 0 ⟨4, 1, 0⟩ (Later.refl _)
          (by decide))
        (by decide))
      (Or.inl (by decide)) (by decide) rfl).2.1 (by decide)⟩

/-- C2, witness: entity (4, 0, Entity) is destroyed; after `newEntity` (which
recycles id 4), `destroyEntity` of the new entity and another `newEntity`, the
old value (4, 0, Entity) is still not valid. -/
theorem EcsIsValid_false_until_wrap_witness :
    EcsIsValid (plainWorld [⟨4, 0, 0⟩] []) ⟨4, 0, 0⟩ = true ∧
    EcsIsValid (plainWorld [⟨4, 2, 0⟩] []) ⟨4, 0, 0⟩ = false :=
  ⟨(EcsIsValid_false_until_wrap freshGlobals (plainWorld [⟨4, 0, 0⟩] [])
      (plainWorld [⟨4, 1, 0⟩] [4]) (plainWorld [⟨4, 2, 0⟩] []) ⟨4, 0, 0⟩ 1 (by decide)
      (Later.newEntity _ (plainWorld [⟨4, 2, 0⟩] [4]) _ 1 ⟨4, 2, 0⟩
        (Later.destroyEntity _ (plainWorld [⟨4, 1, 0⟩] []) _ 0 ⟨4, 1, 0⟩
          (Later.newEntity _ (plainWorld [⟨4, 1, 0⟩] [4]) _ 0 ⟨4, 1, 0⟩ (Later.refl _)
            (by decide))
          (by decide))
        (by decide))).1,
   (EcsIsValid_false_until_wrap freshGlobals (plainWorld [⟨4, 0, 0⟩] [])
      (plainWorld [⟨4, 1, 0⟩] [4]) (plainWorld [⟨4, 2, 0⟩] []) ⟨4, 0, 0⟩ 1 (by decide)
      (Later.newEntity _ (plainWorld [⟨4, 2, 0⟩] [4]) _ 1 ⟨4, 2, 0⟩
        (Later.destroyEntity _ (plainWorld [⟨4, 1, 0⟩] []) _ 0 ⟨4, 1, 0⟩
          (Later.newEntity _ (plainWorld [⟨4, 1, 0⟩] [4]) _ 0 ⟨4, 1, 0⟩ (Later.refl _)
            (by decide))
          (by decide))
        (by decide))).2.2.2 (by decide)⟩

theorem SparseHas_new (e : Entity) (h : e.id ≠ EcsNil) : SparseHas NewSparse e = some false := by
  unfold SparseHas ENTITY_ID
  rw [if_neg h]
  rfl

theorem destroyLoop_fresh (e : Entity) (h : e.id ≠ EcsNil) :
    destroyLoop e 4 freshWorld.storages = some freshWorld.storages := by
  have h0 : ∀ c s, SparseHas (NewStorage c s).sparse e = some false :=
    fun _ _ => SparseHas_new e h
  simp only [destroyLoop, freshWorld, List.getElem?_cons_succ, List.getElem?_cons_zero, h0]

theorem plainWorld_destroy (v : Nat) :
    DestroyEntity freshGlobals (plainWorld [⟨4, v, 0⟩] []) ⟨4, v, 0⟩ =
      some (plainWorld [⟨4, wrapVersion (v + 1), 0⟩] [4]) := by
  have hv : EcsIsValid (plainWorld [⟨4, v, 0⟩] []) ⟨4, v, 0⟩ = true :=
    EcsIsValid_of_getElem? _ _ (List.getElem?_append_right (Nat.le_refl 4))
  have hnil : (4 : Nat) ≠ EcsNil := by decide
  have hloop : destroyLoop ⟨4, v, 0⟩ (plainWorld [⟨4, v, 0⟩] []).storages.length
      (plainWorld [⟨4, v, 0⟩] []).storages = some freshWorld.storages :=
    destroyLoop_fresh ⟨4, v, 0⟩ hnil
  unfold DestroyEntity
  rw [hv, hloop]
  rfl

theorem plainWorld_create (v : Nat) :
    EcsNewEntity (plainWorld [⟨4, v, 0⟩] [4]) =
      some (⟨4, v, 0⟩, plainWorld [⟨4, v, 0⟩] []) := rfl

theorem plainWorld_cycles (k : Nat) :
    Later freshGlobals 4 (plainWorld [⟨4, 1, 0⟩] [4])
      (plainWorld [⟨4, wrapVersion (1 + k), 0⟩] [4]) k := by
  induction k with
  | zero => exact Later.refl _
  | succ k ih =>
    have h1 := Later.newEntity _ _ _ k _ ih (plainWorld_create (wrapVersion (1 + k)))
    have h2 := Later.destroyEntity _ _ _ k _ h1 (plainWorld_destroy (wrapVersion (1 + k)))
    rw [wrapVersion_succ] at h2
    exact h2

/-- C2, counterexample: the entity (4, 0, Entity) is destroyed; the slot of
id 4 then holds version 1. After 65535 rounds of `newEntity` (which recycles
id 4) and `destroyEntity` of the entity it returned, the version of the slot
has wrapped to 0, and the next `newEntity` returns (4, 0, Entity): the old
value passes `isValid` again. -/
theorem EcsIsValid_true_after_wrap :
    DestroyEntity freshGlobals (plainWorld [⟨4, 0, 0⟩] []) ⟨4, 0, 0⟩ =
      some (plainWorld [⟨4, 1, 0⟩] [4]) ∧
    Later freshGlobals 4 (plainWorld [⟨4, 1, 0⟩] [4]) (plainWorld [⟨4, 0, 0⟩] []) 65535 ∧
    EcsIsValid (plainWorld [⟨4, 0, 0⟩] []) ⟨4, 0, 0⟩ = true := by
  refine ⟨by decide, ?_, by decide⟩
  have h := plainWorld_cycles 65535
  have hw : wrapVersion (1 + 65535) = 0 := by decide
  rw [hw] at h
  exact Later.newEntity _ _ _ 65535 _ h (plainWorld_create 0)

/-- C7, evaluation: the entity (5, 0, Entity) has the component
(4, 0, Component), both are valid and the storage is consistent; a second
`attach` does not fail: it returns normally and emplaces again, leaving two
dense entries for the entity, an uninitialised slot as its payload and an
inconsistent storage. `SparseEmplace` and `StorageEmplace` return normally on
an entity that is present. -/
theorem EcsAttach_twice_succeeds :
    EcsIsValid (heldComponentWorld ⟨4, 0, 1⟩ []) ⟨5, 0, 0⟩ = true ∧
    EcsIsValid (heldComponentWorld ⟨4, 0, 1⟩ []) ⟨4, 0, 1⟩ = true ∧
    (∀ st ∈ (heldComponentWorld ⟨4, 0, 1⟩ []).storages, StorageConsistent st) ∧
    EcsHas (heldComponentWorld ⟨4, 0, 1⟩ []) ⟨5, 0, 0⟩ ⟨4, 0, 1⟩ = some true ∧
    EcsGetPayload (heldComponentWorld ⟨4, 0, 1⟩ []) ⟨5, 0, 0⟩ ⟨4, 0, 1⟩ =
      some (some (Payload.bytes [1, 2, 3, 4])) ∧
    EcsAttach 1 freshGlobals (heldComponentWorld ⟨4, 0, 1⟩ []) ⟨5, 0, 0⟩ ⟨4, 0, 1⟩ =
      some (some twiceAttachedWorld) ∧
    twiceAttachedWorld.storages[4]? = some twiceEmplacedStorage ∧
    twiceEmplacedStorage.sparse.dense = [⟨5, 0, 0⟩, ⟨5, 0, 0⟩] ∧
    ¬ StorageConsistent twiceEmplacedStorage ∧
    EcsGetPayload twiceAttachedWorld ⟨5, 0, 0⟩ ⟨4, 0, 1⟩ = some (some Payload.uninit) ∧
    SparseHas ⟨List.replicate 5 EcsNilEntity ++ [⟨0, 0, 0⟩], [⟨5, 0, 0⟩]⟩ ⟨5, 0, 0⟩ =
      some true ∧
    SparseEmplace ⟨List.replicate 5 EcsNilEntity ++ [⟨0, 0, 0⟩], [⟨5, 0, 0⟩]⟩ ⟨5, 0, 0⟩ =
      some twiceEmplacedStorage.sparse := by
  decide

theorem getElem?_getD_of_lt {α : Type} {l : List α} {i : Nat} (d : α) (h : i < l.length) :
    l[i]? = some (l.getD i d) := by
  rw [List.getD_eq_getElem?_getD, List.getElem?_eq_getElem h]; rfl

theorem SparseConsistent_iff (s : EcsSparse) :
    SparseConsistent s ↔
      (∀ (id : Nat) (slot : Entity), s.sparse[id]? = some slot → slot.id ≠ EcsNil →
        ∃ x, s.dense[slot.id]? = some x ∧ x.id = id) ∧
      (∀ (p : Nat) (x : Entity), s.dense[p]? = some x →
        ∃ slot, s.sparse[x.id]? = some slot ∧ slot.id = p) := by
  constructor
  · intro h
    constructor
    · intro id slot hs hne
      have hl := lt_length_of_getElem? hs
      have hg : s.sparse.getD id EcsNilEntity = slot := getD_eq_of_getElem? hs
      obtain ⟨h1, h2⟩ := h.1 id hl (by rw [hg]; exact hne)
      rw [hg] at h1 h2
      exact ⟨_, getElem?_getD_of_lt EcsNilEntity h1, h2⟩
    · intro p x hp
      have hl := lt_length_of_getElem? hp
      have hg : s.dense.getD p EcsNilEntity = x := getD_eq_of_getElem? hp
      obtain ⟨h1, h2⟩ := h.2 p hl
      rw [hg] at h1 h2
      exact ⟨_, getElem?_getD_of_lt EcsNilEntity h1, h2⟩
  · intro h
    constructor
    · intro id hl hne
      obtain ⟨x, hx, hid⟩ := h.1 id _ (getElem?_getD_of_lt EcsNilEntity hl) hne
      exact ⟨lt_length_of_getElem? hx, by rw [getD_eq_of_getElem? hx]; exact hid⟩
    · intro p hl
      obtain ⟨slot, hs, hp⟩ := h.2 p _ (getElem?_getD_of_lt EcsNilEntity hl)
      exact ⟨lt_length_of_getElem? hs, by rw [getD_eq_of_getElem? hs]; exact hp⟩

theorem SparseHas_true_iff (s : EcsSparse) (e : Entity) :
    SparseHas s e = some true ↔
      e.id ≠ EcsNil ∧ ∃ slot, s.sparse[e.id]? = some slot ∧ slot.id ≠ EcsNil := by
  by_cases hnil : e.id = EcsNil
  · simp [SparseHas, hnil]
  · rw [SparseHas_slot s e hnil]
    cases hs : s.sparse[e.id]? with
    | none => simp [hnil]
    | some slot => simp [hnil]

theorem SparseHas_false_iff (s : EcsSparse) (e : Entity) :
    SparseHas s e = some false ↔
      e.id ≠ EcsNil ∧ ∀ slot, s.sparse[e.id]? = some slot → slot.id = EcsNil := by
  by_cases hnil : e.id = EcsNil
  · simp [SparseHas, hnil]
  · rw [SparseHas_slot s e hnil]
    cases hs : s.sparse[e.id]? with
    | none => simp [hnil]
    | some slot => simp [hnil]

theorem SparseEmplace_eq (s : EcsSparse) (e : Entity) (hnil : e.id ≠ EcsNil) :
    SparseEmplace s e = some (emplacedSparse s e) := by
  simp only [SparseEmplace, ENTITY_ID_eq, if_neg hnil, emplacedSparse, grownSparse]

/-- What a present entity of a consistent set looks like: its slot, its
position, and the last dense entry with its slot. -/
theorem present_facts (s : EcsSparse) (e : Entity) (hc : SparseConsistent s)
    (hhas : SparseHas s e = some true) :
    e.id ≠ EcsNil ∧
    ∃ slot0 x0 last sl, s.sparse[e.id]? = some slot0 ∧ slot0.id ≠ EcsNil ∧
      s.dense[slot0.id]? = some x0 ∧ x0.id = e.id ∧
      s.dense[s.dense.length - 1]? = some last ∧
      s.sparse[last.id]? = some sl ∧ sl.id = s.dense.length - 1 ∧
      removedSparse s e =
        ⟨(s.sparse.set last.id ⟨slot0.id, 0, 0⟩).set e.id EcsNilEntity,
         (s.dense.set slot0.id last).dropLast⟩ ∧
      SparseRemove s e = some (removedSparse s e, slot0.id) := by
  obtain ⟨hnil, slot0, hs0, hne⟩ := (SparseHas_true_iff s e).mp hhas
  have hc' := (SparseConsistent_iff s).mp hc
  obtain ⟨x0, hx0, hid0⟩ := hc'.1 e.id slot0 hs0 hne
  have hpos : slot0.id < s.dense.length := lt_length_of_getElem? hx0
  have hlastlt : s.dense.length - 1 < s.dense.length := by omega
  have hlast := getElem?_getD_of_lt EcsNilEntity hlastlt
  obtain ⟨sl, hsl, hslid⟩ := hc'.2 _ _ hlast
  have hg0 : s.sparse.getD e.id EcsNilEntity = slot0 := getD_eq_of_getElem? hs0
  have hrm : removedSparse s e =
      ⟨(s.sparse.set (s.dense.getD (s.dense.length - 1) EcsNilEntity).id
          ⟨slot0.id, 0, 0⟩).set e.id EcsNilEntity,
       (s.dense.set slot0.id (s.dense.getD (s.dense.length - 1) EcsNilEntity)).dropLast⟩ := by
    simp only [removedSparse, hg0]
  refine ⟨hnil, slot0, x0, _, sl, hs0, hne, hx0, hid0, hlast, hsl, hslid, hrm, ?_⟩
  have hlast' : s.dense.getLast? = some (s.dense.getD (s.dense.length - 1) EcsNilEntity) := by
    rw [List.getLast?_eq_getElem?]; exact hlast
  rw [hrm]
  simp only [SparseRemove, hhas, ENTITY_ID_eq, hs0, hlast', lt_length_of_getElem? hsl, hpos,
    if_true]

theorem removedSparse_consistent (s : EcsSparse) (e : Entity) (hc : SparseConsistent s)
    (hhas : SparseHas s e = some true) : SparseConsistent (removedSparse s e) := by
  obtain ⟨hnil, slot0, x0, last, sl, hs0, hne, hx0, hid0, hlast, hsl, hslid, hrm, _⟩ :=
    present_facts s e hc hhas
  have hc' := (SparseConsistent_iff s).mp hc
  have hpos : slot0.id < s.dense.length := lt_length_of_getElem? hx0
  have helt : e.id < s.sparse.length := lt_length_of_getElem? hs0
  have hllt : last.id < s.sparse.length := lt_length_of_getElem? hsl
  rw [hrm, SparseConsistent_iff]
  constructor
  · intro id slot hs hsne
    simp only at hs ⊢
    by_cases hie : e.id = id
    · subst hie
      rw [List.getElem?_set_self (by simpa using helt)] at hs
      cases hs
      exact absurd rfl hsne
    · rw [List.getElem?_set_ne hie] at hs
      by_cases hil : last.id = id
      · subst hil
        rw [List.getElem?_set_self hllt] at hs
        cases hs
        have hpn : slot0.id ≠ s.dense.length - 1 := by
          intro h
          rw [h, hlast] at hx0
          cases hx0
          exact hie hid0.symm
        refine ⟨last, ?_, rfl⟩
        show ((s.dense.set slot0.id last).dropLast)[slot0.id]? = some last
        rw [List.getElem?_dropLast, List.length_set, if_pos (by omega),
          List.getElem?_set_self hpos]
      · rw [List.getElem?_set_ne hil] at hs
        obtain ⟨x, hx, hxid⟩ := hc'.1 id slot hs hsne
        have hxl := lt_length_of_getElem? hx
        have h1 : slot.id ≠ s.dense.length - 1 := by
          intro h
          rw [h, hlast] at hx
          cases hx
          exact hil hxid
        have h2 : slot0.id ≠ slot.id := by
          intro h
          rw [← h, hx0] at hx
          cases hx
          exact hie (hid0.symm.trans hxid)
        refine ⟨x, ?_, hxid⟩
        rw [List.getElem?_dropLast, List.length_set, if_pos (by omega),
          List.getElem?_set_ne h2]
        exact hx
  · intro p x hp
    simp only at hp ⊢
    rw [List.getElem?_dropLast, List.length_set] at hp
    by_cases hpl : p < s.dense.length - 1
    · rw [if_pos hpl] at hp
      by_cases hpp : slot0.id = p
      · subst hpp
        rw [List.getElem?_set_self hpos] at hp
        cases hp
        have hle : e.id ≠ last.id := by
          intro h
          rw [← h, hs0] at hsl
          cases hsl
          omega
        refine ⟨⟨slot0.id, 0, 0⟩, ?_, rfl⟩
        rw [List.getElem?_set_ne hle, List.getElem?_set_self hllt]
      · rw [List.getElem?_set_ne hpp] at hp
        obtain ⟨slot, hs, hsid⟩ := hc'.2 p x hp
        have h1 : e.id ≠ x.id := by
          intro h
          rw [← h, hs0] at hs
          cases hs
          exact hpp hsid
        have h2 : last.id ≠ x.id := by
          intro h
          rw [← h, hsl] at hs
          cases hs
          omega
        refine ⟨slot, ?_, hsid⟩
        rw [List.getElem?_set_ne h1, List.getElem?_set_ne h2]
        exact hs
    · rw [if_neg hpl] at hp
      cases hp

theorem grownSparse_getElem? (s : EcsSparse) (id j : Nat) :
    (grownSparse s id)[j]? =
      if j < s.sparse.length then s.sparse[j]?
      else if j ≤ id then some EcsNilEntity else none := by
  unfold grownSparse
  by_cases hj : j < s.sparse.length
  · rw [if_pos hj]
    split
    · rw [List.getElem?_append_left hj]
    · rfl
  · rw [if_neg hj]
    split
    · rw [List.getElem?_append_right (by omega), List.getElem?_replicate]
      by_cases h : j ≤ id
      · rw [if_pos (by omega), if_pos h]
      · rw [if_neg (by omega), if_neg h]
    · rw [List.getElem?_eq_none (by omega), if_neg (by omega)]

theorem emplacedSparse_consistent (s : EcsSparse) (e : Entity) (hc : SparseConsistent s)
    (hhas : SparseHas s e = some false) (hlen : s.dense.length < EcsNil) :
    SparseConsistent (emplacedSparse s e) := by
  obtain ⟨hnil, hslot⟩ := (SparseHas_false_iff s e).mp hhas
  have hc' := (SparseConsistent_iff s).mp hc
  have hu : u32 s.dense.length = s.dense.length := by
    apply u32_of_lt; rw [EcsNil_val] at hlen; omega
  have hgl : e.id < (grownSparse s e.id).length := grownSparse_lt s e.id
  rw [SparseConsistent_iff]
  constructor
  · intro id slot hs hsne
    simp only [emplacedSparse] at hs ⊢
    by_cases hie : e.id = id
    · subst hie
      rw [List.getElem?_set_self hgl] at hs
      cases hs
      refine ⟨e, ?_, rfl⟩
      show (s.dense ++ [e])[u32 s.dense.length]? = some e
      rw [hu]; simp
    · rw [List.getElem?_set_ne hie, grownSparse_getElem?] at hs
      by_cases hj : id < s.sparse.length
      · rw [if_pos hj] at hs
        obtain ⟨x, hx, hxid⟩ := hc'.1 id slot hs hsne
        exact ⟨x, by rw [List.getElem?_append_left (lt_length_of_getElem? hx)]; exact hx, hxid⟩
      · rw [if_neg hj] at hs
        split at hs
        · cases hs; exact absurd rfl hsne
        · cases hs
  · intro p x hp
    simp only [emplacedSparse] at hp ⊢
    rcases Nat.lt_or_ge p s.dense.length with hpl | hpl
    · rw [List.getElem?_append_left hpl] at hp
      obtain ⟨slot, hs, hsid⟩ := hc'.2 p x hp
      have hne : e.id ≠ x.id := by
        intro h
        rw [← h] at hs
        have := hslot slot hs
        rw [hsid] at this
        omega
      refine ⟨slot, ?_, hsid⟩
      rw [List.getElem?_set_ne hne, grownSparse_getElem?, if_pos (lt_length_of_getElem? hs)]
      exact hs
    · have hp2 : p < (s.dense ++ [e]).length := lt_length_of_getElem? hp
      have hpe : p = s.dense.length := by simp at hp2; omega
      subst hpe
      simp at hp
      subst hp
      exact ⟨_, List.getElem?_set_self hgl, hu⟩

theorem SparseReach_inv (s : EcsSparse) (h : SparseReach s) :
    SparseConsistent s ∧ s.dense.length ≤ EcsNil ∧ ∀ x ∈ s.dense, x.id ≠ EcsNil := by
  induction h with
  | new => exact ⟨by decide, by decide, by intro x hx; cases hx⟩
  | emplace s s1 e _ hhas hlen hem ih =>
    obtain ⟨hc, _, hmem⟩ := ih
    have hnil : e.id ≠ EcsNil := ((SparseHas_false_iff s e).mp hhas).1
    rw [SparseEmplace_eq s e hnil] at hem
    cases hem
    refine ⟨emplacedSparse_consistent s e hc hhas hlen, ?_, ?_⟩
    · show (s.dense ++ [e]).length ≤ EcsNil
      rw [List.length_append]; simp; omega
    · intro x hx
      have hx' : x ∈ s.dense ++ [e] := hx
      rcases List.mem_append.mp hx' with h1 | h1
      · exact hmem x h1
      · rw [List.mem_singleton.mp h1]; exact hnil
  | remove s s1 e pos _ hhas hrem ih =>
    obtain ⟨hc, hlen, hmem⟩ := ih
    obtain ⟨_, slot0, x0, last, sl, _, _, _, _, hlast, _, _, hrm, hrem'⟩ :=
      present_facts s e hc hhas
    rw [hrem'] at hrem
    cases hrem
    refine ⟨removedSparse_consistent s e hc hhas, ?_, ?_⟩
    · rw [hrm]
      show ((s.dense.set slot0.id last).dropLast).length ≤ EcsNil
      rw [List.length_dropLast, List.length_set]; omega
    · intro x hx
      rw [hrm] at hx
      have hx1 : x ∈ s.dense.set slot0.id last := List.mem_of_mem_dropLast hx
      rcases List.mem_or_eq_of_mem_set hx1 with h1 | h1
      · exact hmem x h1
      · rw [h1]; exact hmem last (List.getElem?_mem hlast)

/-- C3: every sparse set built from the empty one by `SparseEmplace` (each on
an entity that is not present, the set holding fewer than `EcsNil` entries)
and `SparseRemove` (each on an entity that is present) is sparse/dense
consistent: for every id present, `dense[sparse[id]]` has that id, and for
every position `p` below the size of `dense`, `sparse[dense[p].id]` is `p`;
every dense entry is present. On such a set `SparseEmplace` of an entity that
is not present and `SparseRemove` of one that is present return normally. -/
theorem SparseReach_consistent (s : EcsSparse) (h : SparseReach s) :
    SparseConsistent s ∧
    (∀ e, SparseHas s e = some true →
      ∃ pos x, SparseAt s e = some pos ∧ s.dense[pos]? = some x ∧ x.id = e.id) ∧
    (∀ (p : Nat) (x : Entity), s.dense[p]? = some x →
      SparseAt s x = some p ∧ SparseHas s x = some true) ∧
    (∀ e, SparseHas s e = some false → ∃ s1, SparseEmplace s e = some s1) ∧
    (∀ e, SparseHas s e = some true → ∃ s1 pos, SparseRemove s e = some (s1, pos)) := by
  obtain ⟨hc, hlen, hmem⟩ := SparseReach_inv s h
  have hc' := (SparseConsistent_iff s).mp hc
  refine ⟨hc, ?_, ?_, ?_, ?_⟩
  · intro e he
    obtain ⟨hnil, slot, hs, hne⟩ := (SparseHas_true_iff s e).mp he
    obtain ⟨x, hx, hid⟩ := hc'.1 e.id slot hs hne
    exact ⟨slot.id, x, by rw [SparseAt_slot s e hnil, hs]; rfl, hx, hid⟩
  · intro p x hp
    obtain ⟨slot, hs, hid⟩ := hc'.2 p x hp
    have hnil : x.id ≠ EcsNil := hmem x (List.getElem?_mem hp)
    have hpl := lt_length_of_getElem? hp
    refine ⟨by rw [SparseAt_slot s x hnil, hs, ← hid]; rfl, ?_⟩
    exact (SparseHas_true_iff s x).mpr ⟨hnil, slot, hs, by rw [hid]; omega⟩
  · intro e he
    exact ⟨_, SparseEmplace_eq s e ((SparseHas_false_iff s e).mp he).1⟩
  · intro e he
    obtain ⟨_, slot0, _, _, _, _, _, _, _, _, _, _, _, hrem⟩ := present_facts s e hc he
    exact ⟨_, _, hrem⟩

/-- C3, witness: the set built by `SparseEmplace` of the entities with ids 4
and 5 and `SparseRemove` of the first. -/
theorem SparseReach_consistent_witness :
    SparseConsistent ⟨List.replicate 5 EcsNilEntity ++ [⟨0, 0, 0⟩], [⟨5, 0, 0⟩]⟩ ∧
    SparseHas ⟨List.replicate 5 EcsNilEntity ++ [⟨0, 0, 0⟩], [⟨5, 0, 0⟩]⟩ ⟨4, 0, 0⟩ =
      some false ∧
    SparseHas ⟨List.replicate 5 EcsNilEntity ++ [⟨0, 0, 0⟩], [⟨5, 0, 0⟩]⟩ ⟨5, 0, 0⟩ =
      some true :=
  ⟨(SparseReach_consistent ⟨List.replicate 5 EcsNilEntity ++ [⟨0, 0, 0⟩], [⟨5, 0, 0⟩]⟩
      (SparseReach.remove
        ⟨List.replicate 4 EcsNilEntity ++ [⟨0, 0, 0⟩, ⟨1, 0, 0⟩], [⟨4, 0, 0⟩, ⟨5, 0, 0⟩]⟩
        _ ⟨4, 0, 0⟩ 0
        (SparseReach.emplace ⟨List.replicate 4 EcsNilEntity ++ [⟨0, 0, 0⟩], [⟨4, 0, 0⟩]⟩
          _ ⟨5, 0, 0⟩
          (SparseReach.emplace NewSparse _ ⟨4, 0, 0⟩ SparseReach.new (by decide) (by decide)
            (by decide))
          (by decide) (by decide) (by decide))
        (by decide) (by decide))).1,
   by decide, by decide⟩

/-- C4: for a consistent sparse set and a present entity `X`: `SparseRemove`
returns normally with the position `X` occupied; the dense array is one entry
shorter; `X` is no longer present; every other present entity is still
present; the entity that was at the last dense position, if it is not `X`, is
afterwards at the old position of `X` (in `dense`, and by its sparse slot);
and the set is again consistent. -/
theorem SparseRemove_swap (s : EcsSparse) (X : Entity) (hc : SparseConsistent s)
    (hhas : SparseHas s X = some true) :
    ∃ s1 pos, SparseRemove s X = some (s1, pos) ∧
      SparseAt s X = some pos ∧ (∃ x, s.dense[pos]? = some x ∧ x.id = X.id) ∧
      0 < s.dense.length ∧ s1.dense.length = s.dense.length - 1 ∧
      SparseHas s1 X = some false ∧
      (∀ Y, Y.id ≠ X.id → SparseHas s Y = some true → SparseHas s1 Y = some true) ∧
      (∀ last, s.dense.getLast? = some last → last.id ≠ X.id →
        s1.dense[pos]? = some last ∧
        ∃ slot, s1.sparse[last.id]? = some slot ∧ slot.id = pos) ∧
      SparseConsistent s1 := by
  obtain ⟨hnil, slot0, x0, last, sl, hs0, hne, hx0, hid0, hlast, hsl, hslid, hrm, hrem⟩ :=
    present_facts s X hc hhas
  have hpos : slot0.id < s.dense.length := lt_length_of_getElem? hx0
  have helt : X.id < s.sparse.length := lt_length_of_getElem? hs0
  have hllt : last.id < s.sparse.length := lt_length_of_getElem? hsl
  refine ⟨removedSparse s X, slot0.id, hrem, ?_, ⟨x0, hx0, hid0⟩, by omega, ?_, ?_, ?_, ?_,
    removedSparse_consistent s X hc hhas⟩
  · rw [SparseAt_slot s X hnil, hs0]; rfl
  · rw [hrm]
    show ((s.dense.set slot0.id last).dropLast).length = s.dense.length - 1
    rw [List.length_dropLast, List.length_set]
  · rw [SparseHas_false_iff]
    refine ⟨hnil, ?_⟩
    intro slot hs
    rw [hrm] at hs
    have : ((s.sparse.set last.id ⟨slot0.id, 0, 0⟩).set X.id EcsNilEntity)[X.id]? =
        some EcsNilEntity := List.getElem?_set_self (by simpa using helt)
    rw [this] at hs
    cases hs
    rfl
  · intro Y hY hhasY
    obtain ⟨hYnil, slot, hs, hsn⟩ := (SparseHas_true_iff s Y).mp hhasY
    rw [SparseHas_true_iff]
    refine ⟨hYnil, ?_⟩
    rw [hrm]
    show ∃ slot, ((s.sparse.set last.id ⟨slot0.id, 0, 0⟩).set X.id EcsNilEntity)[Y.id]? =
      some slot ∧ slot.id ≠ EcsNil
    rw [List.getElem?_set_ne (Ne.symm hY)]
    by_cases hl : last.id = Y.id
    · rw [← hl, List.getElem?_set_self hllt]
      exact ⟨_, rfl, hne⟩
    · rw [List.getElem?_set_ne hl]
      exact ⟨slot, hs, hsn⟩
  · intro l hl hlX
    rw [List.getLast?_eq_getElem?, hlast] at hl
    cases hl
    have hpn : slot0.id ≠ s.dense.length - 1 := by
      intro h
      rw [h, hlast] at hx0
      cases hx0
      exact hlX hid0
    rw [hrm]
    constructor
    · show ((s.dense.set slot0.id last).dropLast)[slot0.id]? = some last
      rw [List.getElem?_dropLast, List.length_set, if_pos (by omega),
        List.getElem?_set_self hpos]
    · refine ⟨⟨slot0.id, 0, 0⟩, ?_, rfl⟩
      show ((s.sparse.set last.id ⟨slot0.id, 0, 0⟩).set X.id EcsNilEntity)[last.id]? = _
      rw [List.getElem?_set_ne (Ne.symm hlX), List.getElem?_set_self hllt]

/-- C4, witness: the set holding the entities with ids 4, 5 and 6 at positions
0, 1 and 2; removing the first moves the entity with id 6 to position 0. -/
theorem SparseRemove_swap_witness :
    ∃ s1 pos,
      SparseRemove ⟨List.replicate 4 EcsNilEntity ++ [⟨0, 0, 0⟩, ⟨1, 0, 0⟩, ⟨2, 0, 0⟩],
          [⟨4, 0, 0⟩, ⟨5, 0, 0⟩, ⟨6, 0, 0⟩]⟩ ⟨4, 0, 0⟩ = some (s1, pos) ∧
      s1 = ⟨List.replicate 4 EcsNilEntity ++ [EcsNilEntity, ⟨1, 0, 0⟩, ⟨0, 0, 0⟩],
          [⟨6, 0, 0⟩, ⟨5, 0, 0⟩]⟩ ∧ pos = 0 ∧ SparseConsistent s1 := by
  obtain ⟨s1, pos, h1, _, _, _, _, _, _, _, h9⟩ :=
    SparseRemove_swap ⟨List.replicate 4 EcsNilEntity ++ [⟨0, 0, 0⟩, ⟨1, 0, 0⟩, ⟨2, 0, 0⟩],
      [⟨4, 0, 0⟩, ⟨5, 0, 0⟩, ⟨6, 0, 0⟩]⟩ ⟨4, 0, 0⟩ (by decide) (by decide)
  have h2 : SparseRemove ⟨List.replicate 4 EcsNilEntity ++ [⟨0, 0, 0⟩, ⟨1, 0, 0⟩, ⟨2, 0, 0⟩],
      [⟨4, 0, 0⟩, ⟨5, 0, 0⟩, ⟨6, 0, 0⟩]⟩ ⟨4, 0, 0⟩ =
      some (⟨List.replicate 4 EcsNilEntity ++ [EcsNilEntity, ⟨1, 0, 0⟩, ⟨0, 0, 0⟩],
          [⟨6, 0, 0⟩, ⟨5, 0, 0⟩]⟩, 0) := by decide
  rw [h2] at h1
  simp only [Option.some.injEq, Prod.mk.injEq] at h1
  exact ⟨s1, pos, by rw [h2, ← h1.1, ← h1.2], h1.1.symm, h1.2.symm, h9⟩

theorem removed_consistent (st : EcsStorage) (e : Entity) (hc : StorageConsistent st)
    (hhas : SparseHas st.sparse e = some true) : StorageConsistent (removed st e) := by
  refine ⟨removedSparse_consistent st.sparse e hc.1 hhas, ?_⟩
  show ((st.data.set _ _).dropLast).length = ((st.sparse.dense.set _ _).dropLast).length
  rw [List.length_dropLast, List.length_set, List.length_dropLast, List.length_set, hc.2]

theorem valid_ne_id (w : EcsWorld) (a b : Entity) (ha : EcsIsValid w a = true)
    (hb : EcsIsValid w b = true) (hne : a ≠ b) : a.id ≠ b.id := by
  intro h
  have h1 := (EcsIsValid_iff w a).mp ha
  have h2 := (EcsIsValid_iff w b).mp hb
  rw [h, h2] at h1
  cases h1
  exact hne rfl

theorem EcsHas_some_valid (w : EcsWorld) (E C : Entity) (b : Bool)
    (h : EcsHas w E C = some b) : EcsIsValid w E = true ∧ EcsIsValid w C = true := by
  unfold EcsHas at h
  by_cases hE : EcsIsValid w E = true
  · by_cases hC : EcsIsValid w C = true
    · exact ⟨hE, hC⟩
    · simp [hE, hC] at h
  · simp [hE] at h

/-- C5: in a world where the storage of component `C` is consistent (sparse/
dense consistency, one data slot per dense entry, at most `EcsNil` entries),
for valid `E` and `C`: if `E` has `C`, `detach(E, C)` returns normally, makes
`has(E, C)` false, leaves the storage consistent, and every other entity `E'`
that has `C` still has it and `get(E', C)` yields the payload it yielded
before; if `E` does not have `C`, `detach(E, C)` fails. -/
theorem EcsDetach_frame (w : EcsWorld) (E C : Entity) (i : Nat) (st : EcsStorage)
    (hE : EcsIsValid w E = true) (hC : EcsIsValid w C = true)
    (hfind : EcsFind w C = some i) (hst : w.storages[i]? = some st)
    (hcons : StorageConsistent st) (hlen : st.sparse.dense.length ≤ EcsNil) :
    (EcsHas w E C = some true →
      ∃ w1 st1, EcsDetach w E C = some w1 ∧ EcsHas w1 E C = some false ∧
        w1.storages[i]? = some st1 ∧ StorageConsistent st1 ∧
        st1.sparse.dense.length = st.sparse.dense.length - 1 ∧
        ∀ E', E' ≠ E → EcsHas w E' C = some true →
          EcsHas w1 E' C = some true ∧
          EcsGetPayload w1 E' C = EcsGetPayload w E' C ∧
          ∃ v, EcsGetPayload w E' C = some (some v)) ∧
    (EcsHas w E C = some false → EcsDetach w E C = none) := by
  have hhaseq : EcsHas w E C = StorageHas st E := by
    simp [EcsHas, hE, hC, hfind, hst]
  constructor
  · intro hhas
    rw [hhaseq] at hhas
    have hnil : E.id ≠ EcsNil := by
      intro h
      simp [StorageHas, ENTITY_IS_NIL, h] at hhas
    have hsp : SparseHas st.sparse E = some true := by
      rw [← StorageHas_of_ne_nil st E hnil]; exact hhas
    have hrem := StorageRemove_eq_removed st E hcons hsp
    have hdet : EcsDetach w E C =
        some ⟨w.entities, w.recyclable, w.storages.set i (removed st E),
          w.nextAvailableId⟩ := by
      simp only [EcsDetach, hE, hC, hfind, hst, hhas, hrem, Bool.not_true, Bool.false_eq_true,
        if_false]
    have hl : i < w.storages.length := lt_length_of_getElem? hst
    have hst1 : (w.storages.set i (removed st E))[i]? = some (removed st E) :=
      List.getElem?_set_self hl
    have hval : ∀ x, EcsIsValid ⟨w.entities, w.recyclable, w.storages.set i (removed st E),
        w.nextAvailableId⟩ x = EcsIsValid w x := fun x => EcsIsValid_same_entities w _ rfl x
    have hfind1 : EcsFind ⟨w.entities, w.recyclable, w.storages.set i (removed st E),
        w.nextAvailableId⟩ C = some i := by
      rw [← hfind]
      exact EcsFind_set_storage w C i st (removed st E) hst rfl
    have hgone : SparseHas (removed st E).sparse E = some false := by
      obtain ⟨st1, h1, h2, _⟩ := StorageRemove_of_consistent st E hcons hsp
      rw [hrem] at h1
      cases h1
      exact h2
    refine ⟨_, removed st E, hdet, ?_, hst1, removed_consistent st E hcons hsp, ?_, ?_⟩
    · have h := (StoragePayload_of_get _ E C i (removed st E) (by rw [hval]; exact hE)
        (by rw [hval]; exact hC) hfind1 hst1).1
      rw [h, StorageHas_of_ne_nil _ E hnil]
      exact hgone
    · show ((st.sparse.dense.set _ _).dropLast).length = _
      rw [List.length_dropLast, List.length_set]
    · intro E' hne hhas'
      obtain ⟨hE', _⟩ := EcsHas_some_valid w E' C true hhas'
      have hid : E'.id ≠ E.id := valid_ne_id w E' E hE' hE hne
      obtain ⟨hf1, hf2⟩ := removed_frame st E E' hcons hlen hsp hid
      have h0 := StoragePayload_of_get w E' C i st hE' hC hfind hst
      have h1 := StoragePayload_of_get _ E' C i (removed st E) (by rw [hval]; exact hE')
        (by rw [hval]; exact hC) hfind1 hst1
      refine ⟨by rw [h1.1, hf1, ← h0.1]; exact hhas', by rw [h1.2, hf2, ← h0.2], ?_⟩
      have hnil' : E'.id ≠ EcsNil := by
        intro h
        rw [h0.1] at hhas'
        simp [StorageHas, ENTITY_IS_NIL, h] at hhas'
      rcases EcsGet_cases w E' C i st hE' hC hfind hst hnil'
          (StorageConsistent.slotsInRange hcons) with
        ⟨_, pos, _, hpos, hget, hread⟩ | ⟨hno, _⟩
      · refine ⟨st.data[pos], ?_⟩
        simp only [EcsGetPayload, hget, hread, List.getElem?_eq_getElem hpos, Option.map_some']
      · rw [hno] at hhas'; cases hhas'
  · intro hno
    rw [hhaseq] at hno
    simp only [EcsDetach, hE, hC, hfind, hst, hno, Bool.not_true, Bool.false_eq_true, if_false]

/-- C5, witness: in `sharedStorageWorld` the entities with ids 5 and 6 hold the
component (4, 0, Component); `detach` of entity 5 succeeds, and entity 6
still reads its bytes [5, 6, 7, 8]; `detach` of the entity (0, 0, Component),
which does not hold the component, fails. -/
theorem EcsDetach_frame_witness :
    (∃ w1 st1, EcsDetach sharedStorageWorld ⟨5, 0, 0⟩ ⟨4, 0, 1⟩ = some w1 ∧
      EcsHas w1 ⟨5, 0, 0⟩ ⟨4, 0, 1⟩ = some false ∧
      w1.storages[4]? = some st1 ∧ StorageConsistent st1 ∧
      st1.sparse.dense.length = 2 - 1 ∧
      ∀ E', E' ≠ ⟨5, 0, 0⟩ → EcsHas sharedStorageWorld E' ⟨4, 0, 1⟩ = some true →
        EcsHas w1 E' ⟨4, 0, 1⟩ = some true ∧
        EcsGetPayload w1 E' ⟨4, 0, 1⟩ = EcsGetPayload sharedStorageWorld E' ⟨4, 0, 1⟩ ∧
        ∃ v, EcsGetPayload sharedStorageWorld E' ⟨4, 0, 1⟩ = some (some v)) ∧
    EcsDetach sharedStorageWorld ⟨0, 0, 1⟩ ⟨4, 0, 1⟩ = none ∧
    EcsHas sharedStorageWorld ⟨6, 0, 0⟩ ⟨4, 0, 1⟩ = some true ∧
    EcsGetPayload sharedStorageWorld ⟨6, 0, 0⟩ ⟨4, 0, 1⟩ =
      some (some (Payload.bytes [5, 6, 7, 8])) :=
  ⟨(EcsDetach_frame sharedStorageWorld ⟨5, 0, 0⟩ ⟨4, 0, 1⟩ 4 _ (by decide) (by decide)
      (by decide) rfl (by decide) (by decide)).1 (by decide),
   (EcsDetach_frame sharedStorageWorld ⟨0, 0, 1⟩ ⟨4, 0, 1⟩ 4 _ (by decide) (by decide)
      (by decide) rfl (by decide) (by decide)).2 (by decide),
   by decide, by decide⟩

theorem slotIsNull_of_size (st : EcsStorage) (pos : Nat) (hsz : 0 < st.sizeOfComponent)
    (hpos : pos < st.data.length) : slotIsNull st pos = false := by
  have h1 : dataIsNull st = false := by
    unfold dataIsNull
    rw [if_neg (by omega)]
    exact decide_eq_false (by omega)
  unfold slotIsNull
  rw [h1]
  rfl

theorem slotIsNull_iff (st : EcsStorage) (pos : Nat) (hpos : pos < st.data.length) :
    slotIsNull st pos = true ↔ st.sizeOfComponent = 0 ∧ st.data.length % 2 = 0 := by
  by_cases hsz : st.sizeOfComponent = 0
  · simp [slotIsNull, dataIsNull, hsz]
  · rw [slotIsNull_of_size st pos (by omega) hpos]
    simp [hsz]

theorem EcsSet_has (w : EcsWorld) (E C : Entity) (i : Nat) (st : EcsStorage) (pos : Nat)
    (p : List Nat)
    (hE : EcsIsValid w E = true) (hC : EcsIsValid w C = true)
    (hfind : EcsFind w C = some i) (hst : w.storages[i]? = some st)
    (hhas : SparseHas st.sparse E = some true) (hat : SparseAt st.sparse E = some pos)
    (hpos : pos < st.data.length) (hp : p.length = st.sizeOfComponent)
    (hsz : 0 < st.sizeOfComponent) :
    EcsSet w E C p = some ⟨w.entities, w.recyclable,
      w.storages.set i ⟨st.componentId, st.sizeOfComponent,
        st.data.set pos (Payload.bytes p), st.sparse⟩, w.nextAvailableId⟩ := by
  have hnil : E.id ≠ EcsNil := ((SparseHas_true_iff st.sparse E).mp hhas).1
  have hsh : StorageHas st E = some true := by
    rw [StorageHas_of_ne_nil st E hnil]; exact hhas
  have hget : StorageGet st E = some pos := by
    simp only [StorageGet, ENTITY_IS_NIL, ENTITY_ID_eq, decide_eq_false hnil, hat, StorageAt,
      if_pos hpos, Bool.false_eq_true, if_false]
  have htake : List.take st.sizeOfComponent p = p := List.take_of_length_le (by omega)
  have hlt : ¬ p.length < st.sizeOfComponent := by omega
  simp only [EcsSet, hE, hC, hfind, hst, hsh, hget, Option.map_some', if_neg hlt, if_pos hpos,
    htake, Bool.not_true, Bool.false_eq_true, if_false, slotIsNull_of_size st pos hsz hpos]

theorem EcsSet_new (w : EcsWorld) (E C : Entity) (i : Nat) (st : EcsStorage) (p : List Nat)
    (hE : EcsIsValid w E = true) (hC : EcsIsValid w C = true)
    (hfind : EcsFind w C = some i) (hst : w.storages[i]? = some st)
    (hhas : SparseHas st.sparse E = some false) (hp : p.length = st.sizeOfComponent)
    (hsz : 0 < st.sizeOfComponent) :
    EcsSet w E C p = some ⟨w.entities, w.recyclable,
      w.storages.set i ⟨st.componentId, st.sizeOfComponent,
        (st.data ++ [Payload.uninit]).set st.data.length (Payload.bytes p),
        (emplaced st E).sparse⟩, w.nextAvailableId⟩ := by
  have hnil : E.id ≠ EcsNil := ((SparseHas_false_iff st.sparse E).mp hhas).1
  have hsh : StorageHas st E = some false := by
    rw [StorageHas_of_ne_nil st E hnil]; exact hhas
  have hem := StorageEmplace_eq st E hnil
  have htake : List.take st.sizeOfComponent p = p := List.take_of_length_le (by omega)
  have hlt : ¬ p.length < (emplaced st E).sizeOfComponent := by
    show ¬ p.length < st.sizeOfComponent
    omega
  have hpos : st.data.length < (emplaced st E).data.length := by
    show st.data.length < (st.data ++ [Payload.uninit]).length
    simp
  have hnull : slotIsNull (emplaced st E) st.data.length = false :=
    slotIsNull_of_size (emplaced st E) st.data.length hsz hpos
  simp only [EcsSet, hE, hC, hfind, hst, hsh, hem, if_neg hlt, if_pos hpos, Bool.not_true,
    Bool.false_eq_true, if_false, hnull]
  show some _ = some _
  simp only [emplaced, htake]

/-- After the first `EcsSet` the entity holds the payload, whichever branch
was taken. -/
theorem EcsSet_holds (w : EcsWorld) (E C : Entity) (i : Nat) (st : EcsStorage) (p : List Nat)
    (hE : EcsIsValid w E = true) (hC : EcsIsValid w C = true)
    (hfind : EcsFind w C = some i) (hst : w.storages[i]? = some st)
    (hnil : E.id ≠ EcsNil) (hcons : StorageConsistent st)
    (hlen : st.sparse.dense.length < EcsNil) (hp : p.length = st.sizeOfComponent)
    (hsz : 0 < st.sizeOfComponent) :
    ∃ w1 st1 pos, EcsSet w E C p = some w1 ∧ w1.entities = w.entities ∧
      EcsFind w1 C = some i ∧ w1.storages[i]? = some st1 ∧
      st1.sizeOfComponent = st.sizeOfComponent ∧
      SparseHas st1.sparse E = some true ∧ SparseAt st1.sparse E = some pos ∧
      pos < st1.data.length ∧ st1.data[pos]? = some (Payload.bytes p) ∧
      StorageConsistent st1 ∧
      (SparseHas st.sparse E = some true →
        st1.sparse = st.sparse ∧ st1.data.length = st.data.length) := by
  have hl : i < w.storages.length := lt_length_of_getElem? hst
  cases hh : SparseHas st.sparse E with
  | none => simp [SparseHas, hnil] at hh
  | some b =>
    cases b with
    | true =>
      obtain ⟨_, slot, hs, hsn⟩ := (SparseHas_true_iff st.sparse E).mp hh
      have hat : SparseAt st.sparse E = some slot.id := by
        rw [SparseAt_slot _ _ hnil, hs]; rfl
      obtain ⟨x, hx, _⟩ := ((SparseConsistent_iff st.sparse).mp hcons.1).1 E.id slot hs hsn
      have hpos : slot.id < st.data.length := by
        rw [hcons.2]; exact lt_length_of_getElem? hx
      refine ⟨_, _, slot.id, EcsSet_has w E C i st slot.id p hE hC hfind hst hh hat hpos hp hsz,
        rfl, ?_, List.getElem?_set_self hl, rfl, hh, hat, ?_, ?_, ?_, ?_⟩
      · rw [← hfind]
        exact EcsFind_set_storage w C i st _ hst rfl
      · show slot.id < (st.data.set slot.id (Payload.bytes p)).length
        rw [List.length_set]; exact hpos
      · show (st.data.set slot.id (Payload.bytes p))[slot.id]? = _
        exact List.getElem?_set_self hpos
      · exact ⟨hcons.1, by show (st.data.set _ _).length = _; rw [List.length_set]; exact hcons.2⟩
      · intro _
        exact ⟨rfl, by show (st.data.set _ _).length = _; rw [List.length_set]⟩
    | false =>
      have hd : st.data.length = st.sparse.dense.length := hcons.2
      refine ⟨_, _, st.sparse.dense.length, EcsSet_new w E C i st p hE hC hfind hst hh hp hsz,
        rfl, ?_, List.getElem?_set_self hl, rfl, emplaced_has st E hnil hlen,
        emplaced_at st E hnil hlen, ?_, ?_, ?_, ?_⟩
      · rw [← hfind]
        exact EcsFind_set_storage w C i st _ hst rfl
      · show st.sparse.dense.length <
          ((st.data ++ [Payload.uninit]).set st.data.length (Payload.bytes p)).length
        rw [List.length_set, List.length_append, hd]; simp
      · show ((st.data ++ [Payload.uninit]).set st.data.length (Payload.bytes p))[
          st.sparse.dense.length]? = _
        rw [← hd]
        exact List.getElem?_set_self (by simp)
      · refine ⟨emplacedSparse_consistent st.sparse E hcons.1 hh hlen, ?_⟩
        show ((st.data ++ [Payload.uninit]).set st.data.length (Payload.bytes p)).length =
          (st.sparse.dense ++ [E]).length
        rw [List.length_set, List.length_append, List.length_append, hd]
        rfl
      · intro h; cases h

theorem EcsSet_overwrite (w : EcsWorld) (E C : Entity) (i : Nat) (st : EcsStorage)
    (pos : Nat) (p : List Nat)
    (hE : EcsIsValid w E = true) (hC : EcsIsValid w C = true)
    (hfind : EcsFind w C = some i) (hst : w.storages[i]? = some st)
    (hhas : SparseHas st.sparse E = some true) (hat : SparseAt st.sparse E = some pos)
    (hpos : pos < st.data.length) (hp : p.length = st.sizeOfComponent)
    (hsz : 0 < st.sizeOfComponent) :
    ∃ w2 st2, EcsSet w E C p = some w2 ∧ w2.entities = w.entities ∧
      w2.storages[i]? = some st2 ∧ HoldsAt w2 C E (Payload.bytes p) i pos ∧
      st2.sparse = st.sparse ∧ st2.data.length = st.data.length ∧
      st2.sizeOfComponent = st.sizeOfComponent := by
  have hl : i < w.storages.length := lt_length_of_getElem? hst
  refine ⟨_, _, EcsSet_has w E C i st pos p hE hC hfind hst hhas hat hpos hp hsz, rfl,
    List.getElem?_set_self hl, ⟨?_, _, List.getElem?_set_self hl, hhas, hat, ?_⟩, rfl, ?_,
    rfl⟩
  · rw [← hfind]
    exact EcsFind_set_storage w C i st _ hst rfl
  · show (st.data.set pos (Payload.bytes p))[pos]? = _
    exact List.getElem?_set_self hpos
  · show (st.data.set pos (Payload.bytes p)).length = _
    rw [List.length_set]

/-- C6 (amended): for a valid entity `E` (not nil) and a valid component `C`
of positive size with a registered, consistent storage of fewer than `EcsNil`
entries, and payloads `p1`, `p2` of the component's size: `set(E, C, p1)` and
then `set(E, C, p2)` return normally; after the first, `get(E, C)` yields
`p1`; after the second it yields exactly `p2`, through the same pointer, which
is not `NULL`, and the second `set` has overwritten in place: the sparse set
and the number of data slots of the storage are those left by the first. -/
theorem EcsSet_twice (w : EcsWorld) (E C : Entity) (i : Nat) (st : EcsStorage)
    (p1 p2 : List Nat)
    (hE : EcsIsValid w E = true) (hC : EcsIsValid w C = true)
    (hfind : EcsFind w C = some i) (hst : w.storages[i]? = some st)
    (hnil : E.id ≠ EcsNil) (hcons : StorageConsistent st)
    (hlen : st.sparse.dense.length < EcsNil) (hsz : 0 < st.sizeOfComponent)
    (h1 : p1.length = st.sizeOfComponent) (h2 : p2.length = st.sizeOfComponent) :
    ∃ w1 w2 st1 st2 ptr, EcsSet w E C p1 = some w1 ∧ EcsSet w1 E C p2 = some w2 ∧
      w1.storages[i]? = some st1 ∧ w2.storages[i]? = some st2 ∧
      EcsGet w1 E C = some (some ptr) ∧ EcsGet w2 E C = some (some ptr) ∧
      DataPtr.isNull w1 ptr = false ∧ DataPtr.isNull w2 ptr = false ∧
      EcsGetPayload w1 E C = some (some (Payload.bytes p1)) ∧
      EcsGetPayload w2 E C = some (some (Payload.bytes p2)) ∧
      st2.sparse = st1.sparse ∧ st2.data.length = st1.data.length ∧
      st2.sparse.dense.length = st1.sparse.dense.length := by
  obtain ⟨w1, st1, pos, hs1, hent1, hfind1, hst1, hsz1, hhas1, hat1, hpos1, hdat1, hcons1, _⟩ :=
    EcsSet_holds w E C i st p1 hE hC hfind hst hnil hcons hlen h1 hsz
  have hE1 : EcsIsValid w1 E = true := by rw [EcsIsValid_same_entities w w1 hent1]; exact hE
  have hC1 : EcsIsValid w1 C = true := by rw [EcsIsValid_same_entities w w1 hent1]; exact hC
  obtain ⟨w2, st2, hs2, hent2, hst2, hhold2, hsp2, hdl2, hsz2⟩ :=
    EcsSet_overwrite w1 E C i st1 pos p2 hE1 hC1 hfind1 hst1 hhas1 hat1 hpos1
      (by rw [hsz1]; exact h2) (by rw [hsz1]; exact hsz)
  have hE2 : EcsIsValid w2 E = true := by rw [EcsIsValid_same_entities w1 w2 hent2]; exact hE1
  have hC2 : EcsIsValid w2 C = true := by rw [EcsIsValid_same_entities w1 w2 hent2]; exact hC1
  have hhold1 : HoldsAt w1 C E (Payload.bytes p1) i pos :=
    ⟨hfind1, st1, hst1, hhas1, hat1, hdat1⟩
  obtain ⟨hg1, hr1⟩ := EcsGet_of_HoldsAt w1 C E _ i pos hE1 hC1 hhold1
  obtain ⟨hg2, hr2⟩ := EcsGet_of_HoldsAt w2 C E _ i pos hE2 hC2 hhold2
  have hn1 : DataPtr.isNull w1 ⟨i, pos⟩ = false := by
    simp only [DataPtr.isNull, hst1]
    exact slotIsNull_of_size st1 pos (by rw [hsz1]; exact hsz) hpos1
  have hn2 : DataPtr.isNull w2 ⟨i, pos⟩ = false := by
    simp only [DataPtr.isNull, hst2]
    exact slotIsNull_of_size st2 pos (by rw [hsz2, hsz1]; exact hsz) (by rw [hdl2]; exact hpos1)
  refine ⟨w1, w2, st1, st2, ⟨i, pos⟩, hs1, hs2, hst1, hst2, hg1, hg2, hn1, hn2, ?_, ?_, hsp2,
    hdl2, by rw [hsp2]⟩
  · simp only [EcsGetPayload, hg1, hr1, Option.map_some']
  · simp only [EcsGetPayload, hg2, hr2, Option.map_some']

/-- C6, counterexample: the tag-only component ChildOf (3, 0, Component) has
size 0. `set` of it (with the empty payload) on the entity (4, 0, Entity)
returns: the buffer `realloc(NULL, 0)` gives is a block. The same `set` on the
valid entity (5, 0, Entity) then fails: the slot is emplaced by
`realloc(block, 0)`, which returns `NULL`, and `ASSERT(componentData)`
aborts. -/
theorem EcsSet_tag_fails :
    EcsSet (plainWorld [⟨4, 0, 0⟩, ⟨5, 0, 0⟩] []) ⟨4, 0, 0⟩ ⟨3, 0, 1⟩ [] =
      some (oneTagWorld (Payload.bytes [])) ∧
    EcsIsValid (oneTagWorld (Payload.bytes [])) ⟨5, 0, 0⟩ = true ∧
    EcsIsValid (oneTagWorld (Payload.bytes [])) ⟨3, 0, 1⟩ = true ∧
    EcsFind (oneTagWorld (Payload.bytes [])) ⟨3, 0, 1⟩ = some 3 ∧
    (oneTagWorld (Payload.bytes [])).storages[3]?.map (fun st => st.sizeOfComponent) =
      some 0 ∧
    EcsHas (oneTagWorld (Payload.bytes [])) ⟨5, 0, 0⟩ ⟨3, 0, 1⟩ = some false ∧
    EcsSet (oneTagWorld (Payload.bytes [])) ⟨5, 0, 0⟩ ⟨3, 0, 1⟩ [] = none := by
  decide

/-- C6, witness: in `componentWorld` the entity (3, 0, Component) does not
hold the component (4, 0, Component) of size 4; `set` with [1, 2, 3, 4] and
then with [5, 6, 7, 8]. -/
theorem EcsSet_twice_witness :
    ∃ w1 w2 st1 st2 ptr,
      EcsSet componentWorld ⟨3, 0, 1⟩ ⟨4, 0, 1⟩ [1, 2, 3, 4] = some w1 ∧
      EcsSet w1 ⟨3, 0, 1⟩ ⟨4, 0, 1⟩ [5, 6, 7, 8] = some w2 ∧
      w1.storages[4]? = some st1 ∧ w2.storages[4]? = some st2 ∧
      EcsGet w1 ⟨3, 0, 1⟩ ⟨4, 0, 1⟩ = some (some ptr) ∧
      EcsGet w2 ⟨3, 0, 1⟩ ⟨4, 0, 1⟩ = some (some ptr) ∧
      DataPtr.isNull w1 ptr = false ∧ DataPtr.isNull w2 ptr = false ∧
      EcsGetPayload w1 ⟨3, 0, 1⟩ ⟨4, 0, 1⟩ = some (some (Payload.bytes [1, 2, 3, 4])) ∧
      EcsGetPayload w2 ⟨3, 0, 1⟩ ⟨4, 0, 1⟩ = some (some (Payload.bytes [5, 6, 7, 8])) ∧
      st2.sparse = st1.sparse ∧ st2.data.length = st1.data.length ∧
      st2.sparse.dense.length = st1.sparse.dense.length :=
  EcsSet_twice componentWorld ⟨3, 0, 1⟩ ⟨4, 0, 1⟩ 4 (NewStorage ⟨4, 0, 1⟩ 4)
    [1, 2, 3, 4] [5, 6, 7, 8] (by decide) (by decide) (by decide) (by decide) (by decide)
    (by decide) (by decide) (by decide) (by decide) (by decide)

theorem scanTable_filterMap (body : Entity → Option (Option Query))
    (f : Entity → Option Query) (l : List Entity)
    (h : ∀ e ∈ l, body e = some (f e)) :
    scanTable body l = some (l.filterMap f) := by
  induction l with
  | nil => rfl
  | cons e rest ih =>
    have he := h e (List.mem_cons_self e rest)
    have hrest := ih (fun x hx => h x (List.mem_cons_of_mem e hx))
    simp only [scanTable, he, hrest]
    cases hf : f e with
    | none => simp [List.filterMap, hf]
    | some q => simp [List.filterMap, hf]

theorem table_entity_valid (w : EcsWorld) (hids : TableIds w) (hlen : w.entities.length ≤ EcsNil)
    (e : Entity) (he : e ∈ w.entities) : EcsIsValid w e = true ∧ e.id ≠ EcsNil := by
  obtain ⟨k, hk⟩ := List.getElem?_of_mem he
  have hid := hids k e hk
  have hkl := lt_length_of_getElem? hk
  refine ⟨(EcsIsValid_iff w e).mpr (by rw [hid]; exact hk), ?_⟩
  rw [hid]; omega

theorem queryFields_eq (w : EcsWorld) (e : Entity)
    (he : EcsIsValid w e = true) (hnil : e.id ≠ EcsNil) :
    ∀ (S : List Entity) (q : Query), Queryable w S →
      queryFields w e S q =
        some ((getPointers w e S).map (fun ps =>
          { q with sizeOfComponentData := q.sizeOfComponentData + S.length,
                   componentData := q.componentData ++ ps,
                   componentIndex := q.componentIndex ++ S })) := by
  intro S
  induction S with
  | nil =>
    intro q _
    simp [queryFields, getPointers]
  | cons c rest ih =>
    intro q hS
    obtain ⟨hc, i, st, hfind, hst, hrange⟩ := hS c (List.mem_cons_self _ _)
    have hrest : Queryable w rest := fun x hx => hS x (List.mem_cons_of_mem _ hx)
    have hhas : EcsHas w e c = StorageHas st e := by
      simp [EcsHas, he, hc, hfind, hst]
    rcases EcsGet_cases w e c i st he hc hfind hst hnil hrange with
      ⟨h1, pos, hat, hpos, hget, _⟩ | ⟨h1, hget⟩
    · rw [hhas] at h1
      have hsg : StorageGet st e = some pos := by
        simp only [StorageGet, ENTITY_IS_NIL, ENTITY_ID_eq, decide_eq_false hnil, hat,
          StorageAt, if_pos hpos, Bool.false_eq_true, if_false]
      simp only [queryFields, hfind, hst, h1, hsg, getPointers, hget]
      rw [ih _ hrest]
      cases getPointers w e rest with
      | none => rfl
      | some ps =>
        simp only [Option.map_some', List.append_assoc, List.singleton_append,
          List.length_cons, Nat.add_assoc, Nat.add_comm 1]
    · rw [hhas] at h1
      simp only [queryFields, hfind, hst, h1, getPointers, hget, Option.map_none']

theorem getPointers_isSome (w : EcsWorld) (e : Entity)
    (he : EcsIsValid w e = true) (hnil : e.id ≠ EcsNil) :
    ∀ (S : List Entity), Queryable w S →
      (getPointers w e S).isSome = hasAll w S e := by
  intro S
  induction S with
  | nil => intro _; rfl
  | cons c rest ih =>
    intro hS
    obtain ⟨hc, i, st, hfind, hst, hrange⟩ := hS c (List.mem_cons_self _ _)
    have hrest : Queryable w rest := fun x hx => hS x (List.mem_cons_of_mem _ hx)
    have ih1 := ih hrest
    rcases EcsGet_cases w e c i st he hc hfind hst hnil hrange with
      ⟨h1, pos, _, _, hget, _⟩ | ⟨h1, hget⟩
    · simp only [getPointers, hget, hasAll, List.all_cons, h1, beq_self_eq_true,
        Bool.true_and, Option.isSome_map']
      exact ih1
    · simp only [getPointers, hget, hasAll, List.all_cons, h1, Option.isSome_none]
      rfl

theorem getPointers_fields (w : EcsWorld) (e : Entity) :
    ∀ (S : List Entity) (ps : List DataPtr), getPointers w e S = some ps →
      ps.length = S.length ∧
      ∀ (k : Nat) (c : Entity), S[k]? = some c →
        ∃ p, ps[k]? = some p ∧ EcsGet w e c = some (some p) := by
  intro S
  induction S with
  | nil =>
    intro ps h
    simp only [getPointers, Option.some.injEq] at h
    subst h
    exact ⟨rfl, fun k c hk => by simp at hk⟩
  | cons c rest ih =>
    intro ps h
    simp only [getPointers] at h
    cases hg : EcsGet w e c with
    | none => simp [hg] at h
    | some r =>
      cases r with
      | none => simp [hg] at h
      | some p =>
        simp only [hg] at h
        cases hr : getPointers w e rest with
        | none => simp [hr] at h
        | some ps1 =>
          simp only [hr, Option.map_some', Option.some.injEq] at h
          subst h
          obtain ⟨hl, hf⟩ := ih ps1 hr
          refine ⟨by simp [hl], ?_⟩
          intro k x hk
          cases k with
          | zero =>
            simp only [List.getElem?_cons_zero, Option.some.injEq] at hk
            subst hk
            exact ⟨p, List.getElem?_cons_zero, hg⟩
          | succ k =>
            simp only [List.getElem?_cons_succ] at hk ⊢
            exact hf k x hk

theorem EcsQuery_eq (w : EcsWorld) (u : Nat) (S : List Entity)
    (hids : TableIds w) (hlen : w.entities.length ≤ EcsNil) (hS : Queryable w S) :
    EcsQuery w u S =
      some (w.entities.filterMap
        (fun e => (getPointers w e S).map (queryRecord e u S))) := by
  unfold EcsQuery
  apply scanTable_filterMap
  intro e he
  obtain ⟨hv, hnil⟩ := table_entity_valid w hids hlen e he
  rw [queryFields_eq w e hv hnil S _ hS]
  cases getPointers w e S with
  | none => rfl
  | some ps => simp [queryRecord]

theorem filterMap_entities (w : EcsWorld) (u : Nat) (S : List Entity) (l : List Entity) :
    (l.filterMap (fun e => (getPointers w e S).map (queryRecord e u S))).map
        (fun q => q.entity) =
      l.filter (fun e => (getPointers w e S).isSome) := by
  induction l with
  | nil => rfl
  | cons e rest ih =>
    cases hg : getPointers w e S with
    | none => simp [List.filterMap, List.filter, hg, ih]
    | some ps => simp [List.filterMap, List.filter, hg, ih, queryRecord]

theorem table_pairwise (w : EcsWorld) (hids : TableIds w) :
    w.entities.Pairwise (fun a b => a.id < b.id) := by
  rw [List.pairwise_iff_getElem]
  intro i j hi hj hij
  have h1 := hids i _ (List.getElem?_eq_getElem hi)
  have h2 := hids j _ (List.getElem?_eq_getElem hj)
  rw [h1, h2]; exact hij

theorem hasAll_iff (w : EcsWorld) (S : List Entity) (e : Entity) :
    hasAll w S e = true ↔ ∀ c ∈ S, EcsHas w e c = some true := by
  simp [hasAll, List.all_eq_true]

/-- C8: in a world whose table slots hold their own index as id (at most
`EcsNil` slots), for a list `S` of valid components with registered storages
(recorded positions inside the data buffers): `query(callback, userdata, S)`
returns normally, and the entities it invokes the callback for are exactly
the table entities `E` with `has(E, c)` true for every `c` in `S`, in table
order, which is strictly ascending id order, so once each. -/
theorem EcsQuery_complete (w : EcsWorld) (u : Nat) (S : List Entity)
    (hids : TableIds w) (hlen : w.entities.length ≤ EcsNil) (hS : Queryable w S) :
    ∃ qs, EcsQuery w u S = some qs ∧
      qs.map (fun q => q.entity) = w.entities.filter (hasAll w S) ∧
      (∀ E, E ∈ qs.map (fun q => q.entity) ↔
        E ∈ w.entities ∧ ∀ c ∈ S, EcsHas w E c = some true) ∧
      List.Pairwise (fun a b => a < b) (qs.map (fun q => q.entity.id)) := by
  have hent : (w.entities.filterMap
      (fun e => (getPointers w e S).map (queryRecord e u S))).map (fun q => q.entity) =
      w.entities.filter (hasAll w S) := by
    rw [filterMap_entities]
    apply List.filter_congr
    intro e he
    obtain ⟨hv, hnil⟩ := table_entity_valid w hids hlen e he
    exact getPointers_isSome w e hv hnil S hS
  refine ⟨_, EcsQuery_eq w u S hids hlen hS, hent, ?_, ?_⟩
  · intro E
    rw [hent, List.mem_filter, hasAll_iff]
  · have h1 : (w.entities.filterMap
        (fun e => (getPointers w e S).map (queryRecord e u S))).map (fun q => q.entity.id) =
        (w.entities.filter (hasAll w S)).map (fun e => e.id) := by
      rw [← hent, List.map_map]
      rfl
    rw [h1, List.pairwise_map]
    exact (table_pairwise w hids).sublist (List.filter_sublist _)

/-- C9 (amended): in a world whose table slots hold their own index as id (at
most `EcsNil` slots), for a list `S` of valid components with registered
storages: `query(callback, userdata, S)` returns normally, and every query
record it passes to the callback has a table entity `E`, the given userdata,
and a pair list of length exactly `|S|`, whose component ids are `S` and whose
`k`-th data pointer is the one `get(E, S[k])` returns, also through
`EcsQueryField`; `E` has every requested component. The pointer is the address
of a slot of the storage of `S[k]`: it is not `NULL` when the component has
positive size, and for a component of size 0 it is `NULL` exactly when the
storage has an even number of slots. -/
theorem EcsQuery_record (w : EcsWorld) (u : Nat) (S : List Entity)
    (hids : TableIds w) (hlen : w.entities.length ≤ EcsNil) (hS : Queryable w S) :
    ∃ qs, EcsQuery w u S = some qs ∧
      ∀ q ∈ qs, q.entity ∈ w.entities ∧ q.userdata = u ∧
        q.sizeOfComponentData = S.length ∧ q.componentIndex = S ∧
        q.componentData.length = S.length ∧
        ∀ (k : Nat) (c : Entity), S[k]? = some c →
          ∃ p st, EcsGet w q.entity c = some (some p) ∧ q.componentData[k]? = some p ∧
            EcsQueryField q k = some p ∧ EcsHas w q.entity c = some true ∧
            EcsFind w c = some p.storage ∧ w.storages[p.storage]? = some st ∧
            p.pos < st.data.length ∧
            (DataPtr.isNull w p = true ↔
              st.sizeOfComponent = 0 ∧ st.data.length % 2 = 0) := by
  refine ⟨_, EcsQuery_eq w u S hids hlen hS, ?_⟩
  intro q hq
  obtain ⟨e, he, hqe⟩ := List.mem_filterMap.mp hq
  cases hg : getPointers w e S with
  | none => simp [hg] at hqe
  | some ps =>
    simp only [hg, Option.map_some', Option.some.injEq] at hqe
    subst hqe
    obtain ⟨hl, hf⟩ := getPointers_fields w e S ps hg
    refine ⟨he, rfl, rfl, rfl, hl, ?_⟩
    intro k c hk
    obtain ⟨p, hp, hget⟩ := hf k c hk
    have hkl : k < S.length := lt_length_of_getElem? hk
    have hc := (hS c (List.getElem?_mem hk)).1
    have hcnil : c.id ≠ EcsNil := by
      have := lt_length_of_getElem? ((EcsIsValid_iff w c).mp hc)
      omega
    obtain ⟨hE, hC, hfind, st, hst, hhas, _, hpos⟩ := EcsGet_some_inv w e c p hget
    refine ⟨p, st, hget, hp, ?_, ?_, hfind, hst, hpos, ?_⟩
    · simp only [EcsQueryField, queryRecord, hk, hp, ENTITY_IS_NIL, ENTITY_ID_eq,
        decide_eq_false hcnil, if_neg (by omega : ¬ k ≥ S.length), Bool.false_eq_true,
        if_false]
    · have hnil : e.id ≠ EcsNil := ((SparseHas_true_iff st.sparse e).mp hhas).1
      show EcsHas w e c = some true
      rw [EcsHas_eq_SparseHas w e c p.storage st hE hC hfind hst hnil]
      exact hhas
    · simp only [DataPtr.isNull, hst]
      exact slotIsNull_iff st p.pos hpos

/-- C9, counterexample: the tag-only component ChildOf (3, 0, Component), of
size 0, is attached to the entities (4, 0, Entity) and (5, 0, Entity), which
leaves the buffer of its storage `NULL` (`realloc(block, 0)`). The query for
that component invokes the callback for both entities, and the data pointer
of each record is `NULL`, not a payload slot. -/
theorem EcsQuery_tag_null :
    EcsAttach 1 freshGlobals (plainWorld [⟨4, 0, 0⟩, ⟨5, 0, 0⟩] []) ⟨4, 0, 0⟩ ⟨3, 0, 1⟩ =
      some (some (oneTagWorld Payload.uninit)) ∧
    EcsAttach 1 freshGlobals (oneTagWorld Payload.uninit) ⟨5, 0, 0⟩ ⟨3, 0, 1⟩ =
      some (some twoTagWorld) ∧
    EcsQuery twoTagWorld 0 [⟨3, 0, 1⟩] =
      some [queryRecord ⟨4, 0, 0⟩ 0 [⟨3, 0, 1⟩] [⟨3, 0⟩],
            queryRecord ⟨5, 0, 0⟩ 0 [⟨3, 0, 1⟩] [⟨3, 1⟩]] ∧
    EcsQueryField (queryRecord ⟨4, 0, 0⟩ 0 [⟨3, 0, 1⟩] [⟨3, 0⟩]) 0 = some ⟨3, 0⟩ ∧
    EcsQueryField (queryRecord ⟨5, 0, 0⟩ 0 [⟨3, 0, 1⟩] [⟨3, 1⟩]) 0 = some ⟨3, 1⟩ ∧
    DataPtr.isNull twoTagWorld ⟨3, 0⟩ = true ∧
    DataPtr.isNull twoTagWorld ⟨3, 1⟩ = true := by
  decide

theorem sharedStorageWorld_queryable :
    Queryable sharedStorageWorld [⟨4, 0, 1⟩] := by
  intro c hc
  rw [List.mem_singleton] at hc
  subst hc
  exact ⟨by decide, 4, _, by decide, rfl, by decide⟩

/-- C8, witness: in `sharedStorageWorld` the query for the component
(4, 0, Component) invokes the callback for the entities with ids 5 and 6. -/
theorem EcsQuery_complete_witness :
    (EcsQuery sharedStorageWorld 0 [⟨4, 0, 1⟩]).map (fun qs => qs.map (fun q => q.entity)) =
      some [⟨5, 0, 0⟩, ⟨6, 0, 0⟩] ∧
    ∃ qs, EcsQuery sharedStorageWorld 0 [⟨4, 0, 1⟩] = some qs ∧
      qs.map (fun q => q.entity) =
        sharedStorageWorld.entities.filter (hasAll sharedStorageWorld [⟨4, 0, 1⟩]) ∧
      (∀ E, E ∈ qs.map (fun q => q.entity) ↔
        E ∈ sharedStorageWorld.entities ∧
          ∀ c ∈ [(⟨4, 0, 1⟩ : Entity)], EcsHas sharedStorageWorld E c = some true) ∧
      List.Pairwise (fun a b => a < b) (qs.map (fun q => q.entity.id)) :=
  ⟨by decide,
   EcsQuery_complete sharedStorageWorld 0 [⟨4, 0, 1⟩] (by decide) (by decide)
    sharedStorageWorld_queryable⟩

/-- C9, witness: the records of the query for the component (4, 0, Component)
in `sharedStorageWorld`. -/
theorem EcsQuery_record_witness :
    EcsQuery sharedStorageWorld 9 [⟨4, 0, 1⟩] =
      some [queryRecord ⟨5, 0, 0⟩ 9 [⟨4, 0, 1⟩] [⟨4, 0⟩],
            queryRecord ⟨6, 0, 0⟩ 9 [⟨4, 0, 1⟩] [⟨4, 1⟩]] ∧
    ∃ qs, EcsQuery sharedStorageWorld 9 [⟨4, 0, 1⟩] = some qs ∧
      ∀ q ∈ qs, q.entity ∈ sharedStorageWorld.entities ∧ q.userdata = 9 ∧
        q.sizeOfComponentData = [(⟨4, 0, 1⟩ : Entity)].length ∧
        q.componentIndex = [⟨4, 0, 1⟩] ∧
        q.componentData.length = [(⟨4, 0, 1⟩ : Entity)].length ∧
        ∀ (k : Nat) (c : Entity), [(⟨4, 0, 1⟩ : Entity)][k]? = some c →
          ∃ p st, EcsGet sharedStorageWorld q.entity c = some (some p) ∧
            q.componentData[k]? = some p ∧
            EcsQueryField q k = some p ∧ EcsHas sharedStorageWorld q.entity c = some true ∧
            EcsFind sharedStorageWorld c = some p.storage ∧
            sharedStorageWorld.storages[p.storage]? = some st ∧
            p.pos < st.data.length ∧
            (DataPtr.isNull sharedStorageWorld p = true ↔
              st.sizeOfComponent = 0 ∧ st.data.length % 2 = 0) :=
  ⟨by decide,
   EcsQuery_record sharedStorageWorld 9 [⟨4, 0, 1⟩] (by decide) (by decide)
    sharedStorageWorld_queryable⟩

theorem erase_find (w : EcsWorld) (c : Entity) :
    EcsFind (erasePayloads w) c = EcsFind w c := by
  unfold EcsFind
  apply findStorage_of_componentIds
  show (w.storages.map eraseStorage).map _ = _
  rw [List.map_map]
  rfl

theorem erase_storage (w : EcsWorld) (i : Nat) :
    (erasePayloads w).storages[i]? = (w.storages[i]?).map eraseStorage := by
  show (w.storages.map eraseStorage)[i]? = _
  rw [List.getElem?_map]

theorem erase_get (st : EcsStorage) (e : Entity) :
    StorageGet (eraseStorage st) e = StorageGet st e := by
  simp only [StorageGet, StorageAt, eraseStorage, List.length_map]

theorem queryFields_erase (w : EcsWorld) (e : Entity) :
    ∀ (S : List Entity) (q : Query),
      queryFields (erasePayloads w) e S q = queryFields w e S q := by
  intro S
  induction S with
  | nil => intro q; rfl
  | cons c rest ih =>
    intro q
    cases hf : EcsFind w c with
    | none => simp only [queryFields, erase_find, hf]
    | some i =>
      cases hs : w.storages[i]? with
      | none => simp only [queryFields, erase_find, erase_storage, hf, hs, Option.map_none']
      | some st =>
        have hh : StorageHas (eraseStorage st) e = StorageHas st e := rfl
        simp only [queryFields, erase_find, erase_storage, hf, hs, Option.map_some', erase_get,
          hh]
        cases StorageHas st e with
        | none => rfl
        | some b =>
          cases b with
          | false => rfl
          | true =>
            simp only
            cases StorageGet st e with
            | none => rfl
            | some pos => exact ih _

theorem EcsQuery_erase (w : EcsWorld) (u : Nat) (S : List Entity) :
    EcsQuery w u S = EcsQuery (erasePayloads w) u S := by
  unfold EcsQuery
  have : (fun e => queryFields (erasePayloads w) e S
      { componentData := [], componentIndex := [], sizeOfComponentData := 0,
        entity := e, userdata := u }) =
      (fun e => queryFields w e S
      { componentData := [], componentIndex := [], sizeOfComponentData := 0,
        entity := e, userdata := u }) := by
    funext e
    exact queryFields_erase w e S _
  rw [this]
  rfl

theorem scenarioWorld_valid (X Y : EcsStorage) (e : Entity) :
    EcsIsValid (scenarioWorld X Y) e =
      EcsIsValid (scenarioWorld (NewStorage ⟨4, 0, 1⟩ 4) (NewStorage ⟨5, 0, 1⟩ 8)) e :=
  EcsIsValid_same_entities _ _ rfl e

theorem scenarioWorld_find (X Y : EcsStorage) (hX : X.componentId = ⟨4, 0, 1⟩)
    (hY : Y.componentId = ⟨5, 0, 1⟩) (c : Entity) :
    EcsFind (scenarioWorld X Y) c =
      EcsFind (scenarioWorld (NewStorage ⟨4, 0, 1⟩ 4) (NewStorage ⟨5, 0, 1⟩ 8)) c := by
  unfold EcsFind
  apply findStorage_of_componentIds
  simp only [scenarioWorld, List.map, hX, hY, NewStorage]

theorem scenarioWorld_erase (v1 v2 : Payload) :
    erasePayloads (scenarioWorld (soleStorage 4 4 v1) (soleStorage 5 8 v2)) =
      scenarioWorld (soleStorage 4 4 Payload.uninit) (soleStorage 5 8 Payload.uninit) := by
  simp only [erasePayloads, scenarioWorld, soleStorage, eraseStorage, NewStorage, List.map]

theorem scenarioWorld_erase_vacated (v2 : Payload) :
    erasePayloads (scenarioWorld (vacatedStorage 4 4) (soleStorage 5 8 v2)) =
      scenarioWorld (vacatedStorage 4 4) (soleStorage 5 8 Payload.uninit) := by
  simp only [erasePayloads, scenarioWorld, soleStorage, vacatedStorage, eraseStorage,
    NewStorage, List.map]

theorem scenario_set_B (b : List Nat) (hb : b.length = 8) :
    EcsSet (scenarioWorld (soleStorage 4 4 (Payload.bytes [1, 2, 3, 4]))
        (NewStorage ⟨5, 0, 1⟩ 8)) ⟨6, 0, 0⟩ ⟨5, 0, 1⟩ b =
      some (scenarioWorld (soleStorage 4 4 (Payload.bytes [1, 2, 3, 4]))
        (soleStorage 5 8 (Payload.bytes b))) := by
  have htake : List.take 8 b = b := List.take_of_length_le (by omega)
  have h1 : EcsIsValid (scenarioWorld (soleStorage 4 4 (Payload.bytes [1, 2, 3, 4]))
        (NewStorage ⟨5, 0, 1⟩ 8)) ⟨6, 0, 0⟩ = true := by decide
  have h2 : EcsIsValid (scenarioWorld (soleStorage 4 4 (Payload.bytes [1, 2, 3, 4]))
        (NewStorage ⟨5, 0, 1⟩ 8)) ⟨5, 0, 1⟩ = true := by decide
  have h3 : EcsFind (scenarioWorld (soleStorage 4 4 (Payload.bytes [1, 2, 3, 4]))
        (NewStorage ⟨5, 0, 1⟩ 8)) ⟨5, 0, 1⟩ = some 5 := by decide
  have h4 : (scenarioWorld (soleStorage 4 4 (Payload.bytes [1, 2, 3, 4]))
        (NewStorage ⟨5, 0, 1⟩ 8)).storages[5]? = some (NewStorage ⟨5, 0, 1⟩ 8) := by decide
  have h5 : StorageHas (NewStorage ⟨5, 0, 1⟩ 8) ⟨6, 0, 0⟩ = some false := by decide
  have h6 : StorageEmplace (NewStorage ⟨5, 0, 1⟩ 8) ⟨6, 0, 0⟩ =
      some (soleStorage 5 8 Payload.uninit, 0) := by decide
  have h7 : slotIsNull (soleStorage 5 8 Payload.uninit) 0 = false := by decide
  simp only [EcsSet, h1, h2, h3, h4, h5, h6, h7]
  simp [soleStorage, hb, htake, scenarioWorld]

theorem scenario_detach_A (v : Payload) :
    EcsDetach (scenarioWorld (soleStorage 4 4 (Payload.bytes [1, 2, 3, 4]))
        (soleStorage 5 8 v)) ⟨6, 0, 0⟩ ⟨4, 0, 1⟩ =
      some (scenarioWorld (vacatedStorage 4 4) (soleStorage 5 8 v)) := by
  have h1 : EcsIsValid (scenarioWorld (soleStorage 4 4 (Payload.bytes [1, 2, 3, 4]))
      (soleStorage 5 8 v)) ⟨6, 0, 0⟩ = true := by
    rw [scenarioWorld_valid]; decide
  have h2 : EcsIsValid (scenarioWorld (soleStorage 4 4 (Payload.bytes [1, 2, 3, 4]))
      (soleStorage 5 8 v)) ⟨4, 0, 1⟩ = true := by
    rw [scenarioWorld_valid]; decide
  have h3 : EcsFind (scenarioWorld (soleStorage 4 4 (Payload.bytes [1, 2, 3, 4]))
      (soleStorage 5 8 v)) ⟨4, 0, 1⟩ = some 4 := by
    rw [scenarioWorld_find _ _ rfl rfl]; decide
  have h4 : (scenarioWorld (soleStorage 4 4 (Payload.bytes [1, 2, 3, 4]))
      (soleStorage 5 8 v)).storages[4]? =
      some (soleStorage 4 4 (Payload.bytes [1, 2, 3, 4])) := by
    simp only [scenarioWorld]
    rfl
  have h5 : StorageHas (soleStorage 4 4 (Payload.bytes [1, 2, 3, 4])) ⟨6, 0, 0⟩ = some true := by
    decide
  have h6 : StorageRemove (soleStorage 4 4 (Payload.bytes [1, 2, 3, 4])) ⟨6, 0, 0⟩ =
      some (vacatedStorage 4 4) := by decide
  simp only [EcsDetach, h1, h2, h3, h4, h5, h6]
  simp [scenarioWorld]

/-- C10: the example scenario. In the world made by `newWorld`, the components
A (4 bytes) and B (8 bytes) and the entity E1 are created; `set(E1, A,
[1, 2, 3, 4])` and `set(E1, B, b)` for any 8 bytes `b`. Then `query([A, B])`
invokes the callback for exactly E1, field 0 pointing at the bytes
[1, 2, 3, 4] and field 1 at `b`; after `detach(E1, A)`, `query([A, B])`
invokes the callback for no entity and `query([B])` for exactly E1. -/
theorem scenario_set_query_detach (b : List Nat) (hb : b.length = 8) :
    EcsNewWorld sizes0 ⟨[], [], [], 0⟩ = some (freshGlobals, freshWorld) ∧
    EcsNewComponent freshWorld 4 = some (⟨4, 0, 1⟩, componentWorld) ∧
    EcsNewComponent componentWorld 8 =
      some (⟨5, 0, 1⟩,
        { scenarioWorld (NewStorage ⟨4, 0, 1⟩ 4) (NewStorage ⟨5, 0, 1⟩ 8) with
          entities := [⟨0, 0, 1⟩, ⟨1, 0, 1⟩, ⟨2, 0, 1⟩, ⟨3, 0, 1⟩, ⟨4, 0, 1⟩, ⟨5, 0, 1⟩] }) ∧
    EcsNewEntity
      { scenarioWorld (NewStorage ⟨4, 0, 1⟩ 4) (NewStorage ⟨5, 0, 1⟩ 8) with
        entities := [⟨0, 0, 1⟩, ⟨1, 0, 1⟩, ⟨2, 0, 1⟩, ⟨3, 0, 1⟩, ⟨4, 0, 1⟩, ⟨5, 0, 1⟩] } =
      some (⟨6, 0, 0⟩, scenarioWorld (NewStorage ⟨4, 0, 1⟩ 4) (NewStorage ⟨5, 0, 1⟩ 8)) ∧
    EcsSet (scenarioWorld (NewStorage ⟨4, 0, 1⟩ 4) (NewStorage ⟨5, 0, 1⟩ 8))
        ⟨6, 0, 0⟩ ⟨4, 0, 1⟩ [1, 2, 3, 4] =
      some (scenarioWorld (soleStorage 4 4 (Payload.bytes [1, 2, 3, 4]))
        (NewStorage ⟨5, 0, 1⟩ 8)) ∧
    EcsSet (scenarioWorld (soleStorage 4 4 (Payload.bytes [1, 2, 3, 4]))
        (NewStorage ⟨5, 0, 1⟩ 8)) ⟨6, 0, 0⟩ ⟨5, 0, 1⟩ b =
      some (scenarioWorld (soleStorage 4 4 (Payload.bytes [1, 2, 3, 4]))
        (soleStorage 5 8 (Payload.bytes b))) ∧
    EcsQuery (scenarioWorld (soleStorage 4 4 (Payload.bytes [1, 2, 3, 4]))
        (soleStorage 5 8 (Payload.bytes b))) 0 [⟨4, 0, 1⟩, ⟨5, 0, 1⟩] =
      some [queryRecord ⟨6, 0, 0⟩ 0 [⟨4, 0, 1⟩, ⟨5, 0, 1⟩] [⟨4, 0⟩, ⟨5, 0⟩]] ∧
    (EcsQueryField (queryRecord ⟨6, 0, 0⟩ 0 [⟨4, 0, 1⟩, ⟨5, 0, 1⟩] [⟨4, 0⟩, ⟨5, 0⟩]) 0).bind
        (readPtr (scenarioWorld (soleStorage 4 4 (Payload.bytes [1, 2, 3, 4]))
          (soleStorage 5 8 (Payload.bytes b)))) = some (Payload.bytes [1, 2, 3, 4]) ∧
    (EcsQueryField (queryRecord ⟨6, 0, 0⟩ 0 [⟨4, 0, 1⟩, ⟨5, 0, 1⟩] [⟨4, 0⟩, ⟨5, 0⟩]) 1).bind
        (readPtr (scenarioWorld (soleStorage 4 4 (Payload.bytes [1, 2, 3, 4]))
          (soleStorage 5 8 (Payload.bytes b)))) = some (Payload.bytes b) ∧
    EcsDetach (scenarioWorld (soleStorage 4 4 (Payload.bytes [1, 2, 3, 4]))
        (soleStorage 5 8 (Payload.bytes b))) ⟨6, 0, 0⟩ ⟨4, 0, 1⟩ =
      some (scenarioWorld (vacatedStorage 4 4) (soleStorage 5 8 (Payload.bytes b))) ∧
    EcsQuery (scenarioWorld (vacatedStorage 4 4) (soleStorage 5 8 (Payload.bytes b)))
        0 [⟨4, 0, 1⟩, ⟨5, 0, 1⟩] = some [] ∧
    EcsQuery (scenarioWorld (vacatedStorage 4 4) (soleStorage 5 8 (Payload.bytes b)))
        0 [⟨5, 0, 1⟩] = some [queryRecord ⟨6, 0, 0⟩ 0 [⟨5, 0, 1⟩] [⟨5, 0⟩]] := by
  have hf0 : EcsQueryField (queryRecord ⟨6, 0, 0⟩ 0 [⟨4, 0, 1⟩, ⟨5, 0, 1⟩] [⟨4, 0⟩, ⟨5, 0⟩]) 0 =
      some ⟨4, 0⟩ := by decide
  have hf1 : EcsQueryField (queryRecord ⟨6, 0, 0⟩ 0 [⟨4, 0, 1⟩, ⟨5, 0, 1⟩] [⟨4, 0⟩, ⟨5, 0⟩]) 1 =
      some ⟨5, 0⟩ := by decide
  refine ⟨by decide, by decide, by decide, by decide, by decide, scenario_set_B b hb, ?_, ?_, ?_,
    scenario_detach_A (Payload.bytes b), ?_, ?_⟩
  · rw [EcsQuery_erase, scenarioWorld_erase]; decide
  · rw [hf0]
    simp only [Option.bind_some, readPtr, scenarioWorld]
    rfl
  · rw [hf1]
    simp only [Option.bind_some, readPtr, scenarioWorld]
    rfl
  · rw [EcsQuery_erase, scenarioWorld_erase_vacated]; decide
  · rw [EcsQuery_erase, scenarioWorld_erase_vacated]; decide

/-- C10, witness: the scenario with the bytes [5, 6, 7, 8, 9, 10, 11, 12] for
B. -/
theorem scenario_set_query_detach_witness :
    EcsQuery (scenarioWorld (soleStorage 4 4 (Payload.bytes [1, 2, 3, 4]))
        (soleStorage 5 8 (Payload.bytes [5, 6, 7, 8, 9, 10, 11, 12]))) 0
        [⟨4, 0, 1⟩, ⟨5, 0, 1⟩] =
      some [queryRecord ⟨6, 0, 0⟩ 0 [⟨4, 0, 1⟩, ⟨5, 0, 1⟩] [⟨4, 0⟩, ⟨5, 0⟩]] ∧
    (EcsQueryField (queryRecord ⟨6, 0, 0⟩ 0 [⟨4, 0, 1⟩, ⟨5, 0, 1⟩] [⟨4, 0⟩, ⟨5, 0⟩]) 1).bind
        (readPtr (scenarioWorld (soleStorage 4 4 (Payload.bytes [1, 2, 3, 4]))
          (soleStorage 5 8 (Payload.bytes [5, 6, 7, 8, 9, 10, 11, 12])))) =
      some (Payload.bytes [5, 6, 7, 8, 9, 10, 11, 12]) :=
  ⟨(scenario_set_query_detach [5, 6, 7, 8, 9, 10, 11, 12] (by decide)).2.2.2.2.2.2.1,
   (scenario_set_query_detach [5, 6, 7, 8, 9, 10, 11, 12] (by decide)).2.2.2.2.2.2.2.2.1⟩

/-- C18 (amended): for a valid entity `E` (not the nil entity) and a valid
component `C` with a registered, consistent storage, `get(E, C)` does not
fail. When `has(E, C)` is false it returns `NULL`. When `has(E, C)` is true it
returns the address of the slot paired with the dense entry of `E`, the one
dense entry that holds the id of `E`; the pointer is not `NULL` when the
component has positive size, and for a component of size 0 it is `NULL`
exactly when the storage has an even number of slots. -/
theorem EcsGet_slot_or_null (w : EcsWorld) (E C : Entity) (i : Nat) (st : EcsStorage)
    (hE : EcsIsValid w E = true) (hC : EcsIsValid w C = true)
    (hfind : EcsFind w C = some i) (hst : w.storages[i]? = some st)
    (hnil : E.id ≠ EcsNil) (hcons : StorageConsistent st) :
    (EcsHas w E C = some true ∧
      ∃ pos x, EcsGet w E C = some (some ⟨i, pos⟩) ∧
        st.sparse.dense[pos]? = some x ∧ x.id = E.id ∧
        (∀ pos1 y, st.sparse.dense[pos1]? = some y → y.id = E.id → pos1 = pos) ∧
        pos < st.data.length ∧
        readPtr w ⟨i, pos⟩ = st.data[pos]? ∧
        (DataPtr.isNull w ⟨i, pos⟩ = true ↔
          st.sizeOfComponent = 0 ∧ st.data.length % 2 = 0)) ∨
    (EcsHas w E C = some false ∧ EcsGet w E C = some none) := by
  rcases EcsGet_cases w E C i st hE hC hfind hst hnil hcons.slotsInRange with
    ⟨hhas, pos, hat, hpos, hget, hread⟩ | h
  · left
    refine ⟨hhas, ?_⟩
    have hsh : SparseHas st.sparse E = some true := by
      rw [← EcsHas_eq_SparseHas w E C i st hE hC hfind hst hnil]; exact hhas
    obtain ⟨_, slot, hs, hsn⟩ := (SparseHas_true_iff st.sparse E).mp hsh
    have hslot : pos = slot.id := by
      rw [SparseAt_slot _ _ hnil, hs] at hat
      exact (Option.some.inj hat).symm
    have hc := (SparseConsistent_iff st.sparse).mp hcons.1
    obtain ⟨x, hx, hxid⟩ := hc.1 E.id slot hs hsn
    refine ⟨pos, x, hget, by rw [hslot]; exact hx, hxid, ?_, hpos, hread, ?_⟩
    · intro pos1 y hy hyid
      obtain ⟨sl, hsl, hslid⟩ := hc.2 pos1 y hy
      rw [hyid, hs] at hsl
      cases hsl
      rw [hslot, hslid]
    · simp only [DataPtr.isNull, hst]
      exact slotIsNull_iff st pos hpos
  · right; exact h

/-- C18, counterexample: the tag-only component ChildOf (3, 0, Component), of
size 0, is attached to the entities (4, 0, Entity) and (5, 0, Entity): the
buffer of its storage is `realloc(NULL, 0)`, a block, and then
`realloc(block, 0)`, which is `NULL`. `has` is true for the entity
(4, 0, Entity), and the pointer `get` returns, the address of its slot, is
`NULL`. -/
theorem EcsGet_tag_null :
    EcsAttach 1 freshGlobals (plainWorld [⟨4, 0, 0⟩, ⟨5, 0, 0⟩] []) ⟨4, 0, 0⟩ ⟨3, 0, 1⟩ =
      some (some (oneTagWorld Payload.uninit)) ∧
    EcsAttach 1 freshGlobals (oneTagWorld Payload.uninit) ⟨5, 0, 0⟩ ⟨3, 0, 1⟩ =
      some (some twoTagWorld) ∧
    EcsIsValid twoTagWorld ⟨4, 0, 0⟩ = true ∧ EcsIsValid twoTagWorld ⟨3, 0, 1⟩ = true ∧
    EcsHas twoTagWorld ⟨4, 0, 0⟩ ⟨3, 0, 1⟩ = some true ∧
    EcsGet twoTagWorld ⟨4, 0, 0⟩ ⟨3, 0, 1⟩ = some (some ⟨3, 0⟩) ∧
    DataPtr.isNull twoTagWorld ⟨3, 0⟩ = true := by
  decide

/-- C18, witness: in `sharedStorageWorld` the entity (6, 0, Entity) has the
component (4, 0, Component), and `get` returns the pointer to slot 1 of
storage 4, which is not `NULL`; the component (3, 0, Component) it does not
have, and `get` returns `NULL`. -/
theorem EcsGet_slot_or_null_witness :
    EcsGet sharedStorageWorld ⟨6, 0, 0⟩ ⟨4, 0, 1⟩ = some (some ⟨4, 1⟩) ∧
    DataPtr.isNull sharedStorageWorld ⟨4, 1⟩ = false ∧
    EcsGet sharedStorageWorld ⟨6, 0, 0⟩ ⟨3, 0, 1⟩ = some none := by
  refine ⟨?_, by decide, ?_⟩
  · rcases EcsGet_slot_or_null sharedStorageWorld ⟨6, 0, 0⟩ ⟨4, 0, 1⟩ 4
        { componentId := ⟨4, 0, 1⟩, sizeOfComponent := 4,
          data := [Payload.bytes [1, 2, 3, 4], Payload.bytes [5, 6, 7, 8]],
          sparse := { sparse := List.replicate 5 EcsNilEntity ++ [⟨0, 0, 0⟩, ⟨1, 0, 0⟩],
                      dense := [⟨5, 0, 0⟩, ⟨6, 0, 0⟩] } }
        (by decide) (by decide) (by decide) (by decide) (by decide) (by decide) with
      ⟨_, pos, x, hget, _, _, huniq, _⟩ | ⟨hhas, _⟩
    · have : 1 = pos := huniq 1 ⟨6, 0, 0⟩ (by decide) rfl
      rw [hget, ← this]
    · exact absurd hhas (by decide)
  · rcases EcsGet_slot_or_null sharedStorageWorld ⟨6, 0, 0⟩ ⟨3, 0, 1⟩ 3 (NewStorage ⟨3, 0, 1⟩ 0)
        (by decide) (by decide) (by decide) (by decide) (by decide) (by decide) with
      ⟨hhas, _⟩ | ⟨_, hget⟩
    · exact absurd hhas (by decide)
    · exact hget

theorem emplaced_consistent (st : EcsStorage) (e : Entity) (hc : StorageConsistent st)
    (hhas : SparseHas st.sparse e = some false) (hlen : st.sparse.dense.length < EcsNil) :
    StorageConsistent (emplaced st e) := by
  refine ⟨emplacedSparse_consistent st.sparse e hc.1 hhas hlen, ?_⟩
  show (st.data ++ [Payload.uninit]).length = (st.sparse.dense ++ [e]).length
  rw [List.length_append, List.length_append, hc.2]
  rfl

theorem reallocated_set_ne (w : EcsWorld) (i j : Nat) (st : EcsStorage) (h : i ≠ j) :
    reallocated w { w with storages := w.storages.set i st } j = false := by
  show (w.storages[j]?.map (fun s => s.data.length) !=
    (w.storages.set i st)[j]?.map (fun s => s.data.length)) = false
  rw [List.getElem?_set_ne h]
  simp

/-- C13 (amended): let `P = newPrefab(A, B)` for two different valid
components `A` and `B` of kind Component, neither of them the built-in Prefab
component, with registered storages, and let `E` be a valid entity that has
neither `A` nor `B`. Then `attach(E, P)` succeeds (with fuel for one level of
nesting), afterwards `has(E, A)` and `has(E, B)` are true, storages that were
consistent still are, and `has(E, Prefab)` is what it was before the attach:
no Prefab component is attached to `E`, so `has(E, Prefab)` is false unless
`E` had the Prefab component already. -/
theorem EcsAttach_prefab_expands (fuel fuel0 : Nat) (g : Globals) (w0 w : EcsWorld)
    (A B P E : Entity) (iA iB : Nat) (stA stB : EcsStorage)
    (hP : EcsNewPrefab fuel0 g w0 [A, B] = some (some (P, w)))
    (hA : EcsIsValid w A = true) (hAk : A.flag = EcsComponentType)
    (hAf : EcsFind w A = some iA) (hAs : w.storages[iA]? = some stA)
    (hB : EcsIsValid w B = true) (hBk : B.flag = EcsComponentType)
    (hBf : EcsFind w B = some iB) (hBs : w.storages[iB]? = some stB)
    (hAB : A.id ≠ B.id)
    (hAP : A.id ≠ g.EcsPrefab.id) (hBP : B.id ≠ g.EcsPrefab.id)
    (hE : EcsIsValid w E = true)
    (hEA : EcsHas w E A = some false) (hEB : EcsHas w E B = some false)
    (hEnil : E.id ≠ EcsNil) (hAnil : A.id ≠ EcsNil) (hBnil : B.id ≠ EcsNil)
    (hlenA : stA.sparse.dense.length < EcsNil)
    (hlenB : stB.sparse.dense.length < EcsNil) :
    ∃ w2, EcsAttach (fuel + 2) g w E P = some (some w2) ∧
      EcsHas w2 E A = some true ∧ EcsHas w2 E B = some true ∧
      EcsHas w2 E g.EcsPrefab = EcsHas w E g.EcsPrefab ∧
      (EcsHas w E g.EcsPrefab = some false → EcsHas w2 E g.EcsPrefab = some false) ∧
      ((∀ st ∈ w.storages, StorageConsistent st) →
        ∀ st ∈ w2.storages, StorageConsistent st) := by
  obtain ⟨hPk, hPv, hGv, iP, posP, hhold⟩ := EcsNewPrefab_inv fuel0 g w0 w [A, B] P hP
  obtain ⟨hget, hread⟩ := EcsGet_of_HoldsAt w g.EcsPrefab P _ iP posP hPv hGv hhold
  obtain ⟨hGf, stP, hPs, _, _, _⟩ := hhold
  -- the three storages sit at different indices
  have hidA := (findStorage_some hAf)
  have hidB := (findStorage_some hBf)
  have hidP := (findStorage_some hGf)
  have hiAP : iA ≠ iP := by
    intro h; subst h
    obtain ⟨s1, h1, h2⟩ := hidA
    obtain ⟨s2, h3, h4⟩ := hidP
    rw [h1] at h3; cases h3
    exact hAP (h2.symm.trans h4)
  have hiBP : iB ≠ iP := by
    intro h; subst h
    obtain ⟨s1, h1, h2⟩ := hidB
    obtain ⟨s2, h3, h4⟩ := hidP
    rw [h1] at h3; cases h3
    exact hBP (h2.symm.trans h4)
  have hiAB : iA ≠ iB := by
    intro h; subst h
    obtain ⟨s1, h1, h2⟩ := hidA
    obtain ⟨s2, h3, h4⟩ := hidB
    rw [h1] at h3; cases h3
    exact hAB (h2.symm.trans h4)
  have hk (C : Entity) (hC : C.flag = EcsComponentType) :
      C.flag ≠ EcsRelationType ∧ C.flag ≠ EcsSystemType ∧ C.flag ≠ EcsPrefabType := by
    rw [hC]; decide
  have hiA : iA < w.storages.length := lt_length_of_getElem? hAs
  have hshA : SparseHas stA.sparse E = some false := by
    rw [← EcsHas_eq_SparseHas w E A iA stA hE hA hAf hAs hEnil]; exact hEA
  have hshB : SparseHas stB.sparse E = some false := by
    rw [← EcsHas_eq_SparseHas w E B iB stB hE hB hBf hBs hEnil]; exact hEB
  -- the world after attaching A
  have hattA := EcsAttach_component fuel g w E A iA stA (hk A hAk).1 (hk A hAk).2.1
    (hk A hAk).2.2 hE hA hAf hAs hEnil
  let wA : EcsWorld := { w with storages := w.storages.set iA (emplaced stA E) }
  have hEA1 : EcsIsValid wA E = true := by simpa [EcsIsValid] using hE
  have hBA : EcsIsValid wA B = true := by simpa [EcsIsValid] using hB
  have hBfA : EcsFind wA B = some iB := by
    rw [EcsFind_set_storage w B iA stA (emplaced stA E) hAs rfl]; exact hBf
  have hBsA : wA.storages[iB]? = some stB := by
    show (w.storages.set iA (emplaced stA E))[iB]? = some stB
    rw [List.getElem?_set_ne hiAB]; exact hBs
  have hattB := EcsAttach_component fuel g wA E B iB stB (hk B hBk).1 (hk B hBk).2.1
    (hk B hBk).2.2 hEA1 hBA hBfA hBsA hEnil
  let wB : EcsWorld := { wA with storages := wA.storages.set iB (emplaced stB E) }
  have hiB : iB < wA.storages.length := lt_length_of_getElem? hBsA
  have hEB1 : EcsIsValid wB E = true := by simpa [EcsIsValid] using hE
  have hprefab : EcsHas wB E g.EcsPrefab = EcsHas w E g.EcsPrefab := by
    have hGB : EcsIsValid wB g.EcsPrefab = true := by simpa [EcsIsValid] using hGv
    have hGfB : EcsFind wB g.EcsPrefab = some iP := by
      rw [EcsFind_set_storage wA g.EcsPrefab iB stB (emplaced stB E) hBsA rfl,
        EcsFind_set_storage w g.EcsPrefab iA stA (emplaced stA E) hAs rfl]
      exact hGf
    have hs : wB.storages[iP]? = some stP := by
      show ((w.storages.set iA (emplaced stA E)).set iB (emplaced stB E))[iP]? = _
      rw [List.getElem?_set_ne hiBP, List.getElem?_set_ne hiAP]; exact hPs
    rw [EcsHas_eq_SparseHas wB E g.EcsPrefab iP stP hEB1 hGB hGfB hs hEnil,
      EcsHas_eq_SparseHas w E g.EcsPrefab iP stP hE hGv hGf hPs hEnil]
  refine ⟨wB, ?_, ?_, ?_, hprefab, fun h => hprefab.trans h, ?_⟩
  · rw [EcsAttach_prefab (fuel + 1) g w E P _ [A, B] hPk hget hread]
    exact attachAll_two _ ⟨iP, posP⟩ w wA wB A B hAnil hBnil hattA hattB
      (reallocated_set_ne w iA iP _ hiAP) (reallocated_set_ne wA iB iP _ hiBP)
  · -- has(E, A)
    have hAB1 : EcsIsValid wB A = true := by simpa [EcsIsValid] using hA
    have hAfB : EcsFind wB A = some iA := by
      rw [EcsFind_set_storage wA A iB stB (emplaced stB E) hBsA rfl,
        EcsFind_set_storage w A iA stA (emplaced stA E) hAs rfl]
      exact hAf
    have hs : wB.storages[iA]? = some (emplaced stA E) := by
      show (wA.storages.set iB (emplaced stB E))[iA]? = _
      rw [List.getElem?_set_ne (Ne.symm hiAB)]
      exact List.getElem?_set_self hiA
    rw [EcsHas_eq_SparseHas wB E A iA _ hEB1 hAB1 hAfB hs hEnil]
    exact emplaced_has stA E hEnil hlenA
  · -- has(E, B)
    have hBB : EcsIsValid wB B = true := by simpa [EcsIsValid] using hB
    have hBfB : EcsFind wB B = some iB := by
      rw [EcsFind_set_storage wA B iB stB (emplaced stB E) hBsA rfl]; exact hBfA
    have hs : wB.storages[iB]? = some (emplaced stB E) := List.getElem?_set_self hiB
    rw [EcsHas_eq_SparseHas wB E B iB _ hEB1 hBB hBfB hs hEnil]
    exact emplaced_has stB E hEnil hlenB
  · -- consistency
    intro hcons st hst
    have hm : st ∈ (w.storages.set iA (emplaced stA E)).set iB (emplaced stB E) := hst
    rcases List.mem_or_eq_of_mem_set hm with h1 | h1
    · rcases List.mem_or_eq_of_mem_set h1 with h2 | h2
      · exact hcons st h2
      · rw [h2]
        exact emplaced_consistent stA E (hcons stA (List.getElem?_mem hAs)) hshA hlenA
    · rw [h1]
      exact emplaced_consistent stB E (hcons stB (List.getElem?_mem hBs)) hshB hlenB

/-- C13, counterexample: `P = newPrefab(A, B)` with `A` = (4, 0, Component) and
`B` = (5, 0, Component); the valid entity (7, 0, Prefab), itself a prefab, has
neither `A` nor `B`. After `attach` of `P` to it, it has `A` and `B`, and
`has` of the built-in Prefab component is true, not false. -/
theorem EcsAttach_prefab_to_prefab_has_prefab :
    EcsNewPrefab 1 freshGlobals prefabBaseWorld [⟨4, 0, 1⟩, ⟨5, 0, 1⟩] =
      some (some (⟨8, 0, 4⟩, prefabWorld)) ∧
    EcsIsValid prefabWorld ⟨7, 0, 4⟩ = true ∧
    EcsHas prefabWorld ⟨7, 0, 4⟩ ⟨4, 0, 1⟩ = some false ∧
    EcsHas prefabWorld ⟨7, 0, 4⟩ ⟨5, 0, 1⟩ = some false ∧
    (EcsAttach 2 freshGlobals prefabWorld ⟨7, 0, 4⟩ ⟨8, 0, 4⟩).map
      (Option.map (fun w2 =>
        (EcsHas w2 ⟨7, 0, 4⟩ ⟨4, 0, 1⟩, EcsHas w2 ⟨7, 0, 4⟩ ⟨5, 0, 1⟩,
         EcsHas w2 ⟨7, 0, 4⟩ freshGlobals.EcsPrefab))) =
      some (some (some true, some true, some true)) := by
  decide

/-- C13, witness: the prefab (8, 0, Prefab) of `prefabWorld` is attached to the
plain entity (6, 0, Entity), which has neither component and no Prefab
component. -/
theorem EcsAttach_prefab_expands_witness :
    ∃ w2, EcsAttach 2 freshGlobals prefabWorld ⟨6, 0, 0⟩ ⟨8, 0, 4⟩ = some (some w2) ∧
      EcsHas w2 ⟨6, 0, 0⟩ ⟨4, 0, 1⟩ = some true ∧ EcsHas w2 ⟨6, 0, 0⟩ ⟨5, 0, 1⟩ = some true ∧
      EcsHas w2 ⟨6, 0, 0⟩ freshGlobals.EcsPrefab =
        EcsHas prefabWorld ⟨6, 0, 0⟩ freshGlobals.EcsPrefab ∧
      (EcsHas prefabWorld ⟨6, 0, 0⟩ freshGlobals.EcsPrefab = some false →
        EcsHas w2 ⟨6, 0, 0⟩ freshGlobals.EcsPrefab = some false) ∧
      ((∀ st ∈ prefabWorld.storages, StorageConsistent st) →
        ∀ st ∈ w2.storages, StorageConsistent st) :=
  EcsAttach_prefab_expands 0 1 freshGlobals prefabBaseWorld prefabWorld ⟨4, 0, 1⟩ ⟨5, 0, 1⟩
    ⟨8, 0, 4⟩ ⟨6, 0, 0⟩ 4 5 (NewStorage ⟨4, 0, 1⟩ 4) (NewStorage ⟨5, 0, 1⟩ 8)
    (by decide) (by decide) (by decide) (by decide) (by decide) (by decide) (by decide)
    (by decide) (by decide) (by decide) (by decide) (by decide) (by decide) (by decide)
    (by decide) (by decide) (by decide) (by decide) (by decide) (by decide)

/-- The prefab loop reads through a dangling pointer: a prefab whose component
list holds the built-in Prefab component (1, 0, Component) is attached to the
entity (6, 0, Entity); the recursive call emplaces a slot in the Prefab
storage, whose buffer is reallocated, and the loop then reads
`c->sizeOfComponents` through the old pointer `c`. -/
theorem EcsAttach_prefab_component_dangling :
    (EcsNewPrefab 1 freshGlobals prefabBaseWorld [⟨1, 0, 1⟩]).map
      (Option.map (fun r => EcsAttach 2 freshGlobals r.2 ⟨6, 0, 0⟩ r.1)) =
      some (some (some none)) := by
  decide

theorem EcsGetPayload_some_inv (w : EcsWorld) (E C : Entity) (v : Payload)
    (h : EcsGetPayload w E C = some (some v)) :
    ∃ p, EcsGet w E C = some (some p) ∧ readPtr w p = some v := by
  unfold EcsGetPayload at h
  cases hg : EcsGet w E C with
  | none => simp [hg] at h
  | some r =>
    cases r with
    | none => simp [hg] at h
    | some p =>
      simp only [hg] at h
      cases hr : readPtr w p with
      | none => simp [hr] at h
      | some v1 =>
        simp only [hr, Option.map_some', Option.some.injEq] at h
        exact ⟨p, rfl, by rw [hr, h]⟩

theorem writePtr_of_readPtr (w : EcsWorld) (p : DataPtr) (v v1 : Payload)
    (h : readPtr w p = some v) : ∃ w1, writePtr w p v1 = some w1 := by
  unfold readPtr at h
  cases hs : w.storages[p.storage]? with
  | none => simp [hs] at h
  | some st =>
    simp only [hs] at h
    have hpos : p.pos < st.data.length := lt_length_of_getElem? h
    refine ⟨⟨w.entities, w.recyclable, w.storages.set p.storage
      ⟨st.componentId, st.sizeOfComponent, st.data.set p.pos v1, st.sparse⟩,
      w.nextAvailableId⟩, ?_⟩
    simp only [writePtr, hs, hpos, if_true]

/-- `EcsEnableSystem` and `EcsDisableSystem` return on a valid entity of kind
System that holds a System payload. -/
theorem setEnabled_returns (g : Globals) (w : EcsWorld) (s : Entity) (b : Bool) (cb : Nat)
    (comps : List Entity) (en : Bool)
    (hv : EcsIsValid w s = true) (hk : s.flag = EcsSystemType)
    (hp : EcsGetPayload w s g.EcsSystem = some (some (Payload.system cb comps en))) :
    ∃ w1, setEnabled g w s b = some w1 := by
  obtain ⟨p, hget, hread⟩ := EcsGetPayload_some_inv w s g.EcsSystem _ hp
  obtain ⟨w1, hw⟩ := writePtr_of_readPtr w p _ (Payload.system cb comps b) hread
  have hisa : ENTITY_ISA s EcsSystemType = true := decide_eq_true hk
  exact ⟨w1, by simp only [setEnabled, hv, hisa, hget, hread, hw, Bool.not_true,
    Bool.false_eq_true, if_false]⟩

theorem systemsOf_eq (g : Globals) (w : EcsWorld) (st : EcsStorage)
    (h : w.storages[ENTITY_ID g.EcsSystem]? = some st) : systemsOf g w = st.sparse.dense := by
  simp only [systemsOf, h]

end Ecs
